import Mathlib

/-!
Game of Life by Conway (`life.go`): embedding and checked properties

The Go program is embedded shallowly.

* `[][]bool` is `List (List Bool)`; rows are separate lists (the program only ever
  builds states whose rows do not share storage).
* Go `int` is the 64-bit two's-complement integer: values are carried in `Int`, and the
  `+`, `-`, `++` of the source on offsets and counters go through `wrap`. An index that a
  loop keeps below a length (`i < rows`, `range`) and `rows-1-i` for such an `i` cannot
  leave the range of `int` and are left unreduced.
* A run-time panic is a value of `Fault`; functions that can panic return `Except Fault _`.
* `for i := range xs` and `for i := 0; i < n; i++` are `loopFrom`: they make `n` passes.
* `for i := x - 1; i <= x+1; i++` is not bounded by a length and is run with fuel
  (`forLe`); reaching the end of the fuel is the fault `outOfFuel`. Everything that calls
  `countNeighbors` (`nextCellState`, `Next`, `Step`) carries the fuel along.
* `make` panics for a negative length and for a length whose bytes exceed `maxAlloc`, the
  limit of the allocator on a 64-bit platform, as `runtime.makeslice` does; a smaller
  allocation is taken to find the memory it asks for.
* A method with a pointer receiver that changes the game returns the changed game.
* `Next`, with what it calls, and `String` are embedded a second time on a memory of
  arrays (`Heap`), where a slice is a value that points into an array and the rows of a
  game may share storage: there a store shows in every slice that shares the array, and
  what `Next` leaves as it was can be stated.
-/

namespace Life

/-! ## Go runtime -/

/-- Ways a run can stop without a value. -/
inductive Fault where
  | indexOutOfRange
  | makesliceLen
  | outOfFuel
  deriving DecidableEq

instance {α : Type} [DecidableEq α] : DecidableEq (Except Fault α) := fun a b =>
  match a, b with
  | .ok x, .ok y =>
    if h : x = y then isTrue (by rw [h]) else isFalse (fun e => h (Except.ok.inj e))
  | .error x, .error y =>
    if h : x = y then isTrue (by rw [h]) else isFalse (fun e => h (Except.error.inj e))
  | .ok _, .error _ => isFalse (fun e => Except.noConfusion e)
  | .error _, .ok _ => isFalse (fun e => Except.noConfusion e)

/-- Largest Go `int`. -/
def maxInt : Int := 9223372036854775807

/-- Smallest Go `int`. -/
def minInt : Int := -9223372036854775808

/-- Two's-complement reduction of a mathematical integer to a Go `int`. -/
def wrap (n : Int) : Int :=
  (n + 9223372036854775808) % 18446744073709551616 - 9223372036854775808

/-- The value is a Go `int`. -/
def InInt (n : Int) : Prop := minInt ≤ n ∧ n ≤ maxInt

instance (n : Int) : Decidable (InInt n) :=
  inferInstanceAs (Decidable (minInt ≤ n ∧ n ≤ maxInt))

/-- Go `len(xs)`. -/
def len {α : Type} (xs : List α) : Int := (xs.length : Int)

/-- Go `xs[i]` as a value: panics outside `0 <= i < len(xs)`. -/
def index {α : Type} (xs : List α) (i : Int) : Except Fault α :=
  if i < 0 ∨ len xs ≤ i then .error .indexOutOfRange
  else
    match xs[i.toNat]? with
    | some v => .ok v
    | none => .error .indexOutOfRange

/-- Go `xs[i] = v`: panics outside `0 <= i < len(xs)`. -/
def assign {α : Type} (xs : List α) (i : Int) (v : α) : Except Fault (List α) :=
  if i < 0 ∨ len xs ≤ i then .error .indexOutOfRange
  else .ok (xs.set i.toNat v)

/-- The limit of the allocator, `runtime.maxAlloc`, on a 64-bit platform: `1 << 48`
bytes. -/
def maxAlloc : Int := 281474976710656

/-- The size in bytes of a `bool`. -/
def boolSize : Int := 1

/-- The size in bytes of a slice header, the element of a `[][]bool`. -/
def sliceSize : Int := 24

/-- Go `make([]T, n)` with `size` the size of `T` in bytes and `zero` its zero value: as
`runtime.makeslice`, it panics (`makeslice: len out of range`) for a negative length and
for a length of more than `maxAlloc` bytes. -/
def make {α : Type} (size : Int) (n : Int) (zero : α) : Except Fault (List α) :=
  if n < 0 ∨ maxAlloc < size * n then .error .makesliceLen
  else .ok (List.replicate n.toNat zero)

/-- `for i := range xs { body }` and `for i := 0; i < n; i++ { body }`: the index runs
over `start, start+1, ..` for `n` passes; it stays below a length, so `i++` never wraps. -/
def loopFrom {σ : Type} (body : Int → σ → Except Fault σ) : Nat → Nat → σ → Except Fault σ
  | _, 0, s => .ok s
  | start, n + 1, s =>
    match body (start : Int) s with
    | .error e => .error e
    | .ok s' => loopFrom body (start + 1) n s'

/-- Go `s[r][c] = v` on a slice of slices: `s[r]` is read, its element `c` is stored. -/
def setCell (s : List (List Bool)) (r c : Int) (v : Bool) : Except Fault (List (List Bool)) := do
  let row ← index s r
  let row' ← assign row c v
  assign s r row'

/-! ## Data model -/

/-- `type State [][]bool`. -/
abbrev State := List (List Bool)

/-- `type Pattern [][]bool`. -/
abbrev Pattern := List (List Bool)

/-- `type Game struct`. -/
structure Game where
  state : State
  width : Int
  height : Int
  life : String
  nolife : String
  deriving DecidableEq

/-- The stored cell `s[r][c]`, when there is one. -/
def cell (s : List (List Bool)) (r c : Nat) : Option Bool :=
  match s[r]? with
  | some row => row[c]?
  | none => none

/-- A grid: `height` rows of `width` cells. -/
def Game.WellFormed (g : Game) : Prop :=
  len g.state = g.height ∧ ∀ row ∈ g.state, len row = g.width

instance (g : Game) : Decidable g.WellFormed :=
  inferInstanceAs (Decidable (len g.state = g.height ∧ ∀ row ∈ g.state, len row = g.width))

/-- The slice of slices is one the runtime can have allocated: the slice and each of its
rows take at most `maxAlloc` bytes. This holds of every value the program can hold, and
keeps every length, plus one, a Go `int`. -/
def SlicesFit (s : List (List Bool)) : Prop :=
  sliceSize * len s ≤ maxAlloc ∧ ∀ row ∈ s, boolSize * len row ≤ maxAlloc

instance (s : List (List Bool)) : Decidable (SlicesFit s) :=
  inferInstanceAs (Decidable (sliceSize * len s ≤ maxAlloc ∧
    ∀ row ∈ s, boolSize * len row ≤ maxAlloc))

/-- The state of the game fits: see `SlicesFit`. -/
def Game.Fits (g : Game) : Prop := SlicesFit g.state

instance (g : Game) : Decidable g.Fits :=
  inferInstanceAs (Decidable (SlicesFit g.state))

/-! ## Grid engine -/

/-- `func (g *Game) isAlive(x, y int) bool`. -/
def isAlive (g : Game) (x y : Int) : Except Fault Bool :=
  if x < 0 ∨ x ≥ len g.state then .ok false
  else
    match index g.state x with
    | .error e => .error e
    | .ok row =>
      if y < 0 ∨ y ≥ len row then .ok false
      else index row y

/-- `for i := lo; i <= hi; i++ { body }` on Go ints, started at `i`; each test of the
loop condition uses one unit of fuel. -/
def forLe {σ : Type} (body : Int → σ → Except Fault σ) (hi : Int) :
    Nat → Int → σ → Except Fault σ
  | 0, _, _ => .error .outOfFuel
  | fuel + 1, i, acc =>
    if i ≤ hi then
      match body i acc with
      | .error e => .error e
      | .ok acc' => forLe body hi fuel (wrap (i + 1)) acc'
    else .ok acc

/-- `func (g *Game) countNeighbors(x, y int) int`. -/
def countNeighbors (fuel : Nat) (g : Game) (x y : Int) : Except Fault Int :=
  forLe (fun i neighbors =>
      forLe (fun j neighbors =>
          if i = x ∧ j = y then .ok neighbors
          else
            match isAlive g i j with
            | .error e => .error e
            | .ok true => .ok (wrap (neighbors + 1))
            | .ok false => .ok neighbors)
        (wrap (y + 1)) fuel (wrap (y - 1)) neighbors)
    (wrap (x + 1)) fuel (wrap (x - 1)) 0

/-- `func (g *Game) nextCellState(x, y int) bool`. -/
def nextCellState (fuel : Nat) (g : Game) (x y : Int) : Except Fault Bool := do
  let row ← index g.state x
  let alive ← index row y
  let neighbors ← countNeighbors fuel g x y
  if alive then
    pure (neighbors == 2 || neighbors == 3)
  else
    pure (neighbors == 3)

/-- `func (g *Game) Next() [][]bool`. -/
def Next (fuel : Nat) (g : Game) : Except Fault State := do
  let next ← make sliceSize (len g.state) ([] : List Bool)
  loopFrom (fun i next => do
      let row ← index g.state i
      let fresh ← make boolSize (len row) false
      let next ← assign next i fresh
      loopFrom (fun j next => do
          let v ← nextCellState fuel g i j
          setCell next i j v) 0 row.length next) 0 g.state.length next

/-- `func (g *Game) Step()`. -/
def Step (fuel : Nat) (g : Game) : Except Fault Game := do
  let next ← Next fuel g
  pure { g with state := next }

/-- `func (g *Game) String() string`; the `strings.Builder` is the text written so far. -/
def Game.String (g : Game) : Except Fault String :=
  loopFrom (fun i b => do
      let row ← index g.state i
      let b ← loopFrom (fun j b => do
          let row ← index g.state i
          let alive ← index row j
          if alive then
            pure (b ++ g.life)
          else
            pure (b ++ g.nolife)) 0 row.length b
      pure (b ++ "\n")) 0 g.state.length ""

/-- `func NewGame(width int, height int, life string, nolife string) *Game`. -/
def NewGame (width height : Int) (life nolife : String) : Except Fault Game := do
  let state ← make sliceSize height ([] : List Bool)
  let state ← loopFrom (fun i state => do
      let row ← make boolSize width false
      assign state i row) 0 state.length state
  pure { state := state, width := width, height := height, life := life, nolife := nolife }

/-- `func (g *Game) Add(pattern Pattern, x, y int)`. -/
def Add (g : Game) (pattern : Pattern) (x y : Int) : Except Fault Game := do
  let state ← loopFrom (fun i state => do
      let prow ← index pattern i
      loopFrom (fun j state => do
          let v ← index prow j
          setCell state (wrap (x + i)) (wrap (y + j)) v) 0 prow.length state)
    0 pattern.length g.state
  pure { g with state := state }

/-! ## Pattern builder -/

/-- The body of `Rotate` up to the test of `degrees` (the value of `rotated` there): the
shape is turned by a quarter, clockwise. -/
def quarterTurn (arr : List (List Bool)) : Except Fault (List (List Bool)) := do
  let rows := len arr
  let first ← index arr 0
  let cols := len first
  let rotated ← loopFrom (fun _ rotated => do
      let row ← loopFrom (fun _ row => pure (row ++ [false])) 0 rows.toNat []
      pure (rotated ++ [row])) 0 cols.toNat []
  loopFrom (fun i rotated =>
      loopFrom (fun j rotated => do
          let arow ← index arr i
          let v ← index arow j
          setCell rotated j (rows - 1 - i) v) 0 cols.toNat rotated) 0 rows.toNat rotated

/-- `func Rotate(arr [][]bool, degrees int) [][]bool`. -/
def Rotate (arr : List (List Bool)) (degrees : Int) : Except Fault (List (List Bool)) := do
  let rotated ← quarterTurn arr
  if degrees = 90 then
    pure rotated
  else if _h180 : degrees = 180 then
    Rotate rotated 90
  else if _h270 : degrees = 270 then
    Rotate rotated 180
  else
    pure arr
termination_by (if degrees = 270 then 2 else if degrees = 180 then 1 else 0 : Nat)
decreasing_by
  · simp_wf
    rw [if_neg (by omega), if_pos _h180]
    exact Nat.zero_lt_one
  · simp_wf
    rw [if_pos _h270]
    exact Nat.one_lt_two

/-- `type PatternBuilder struct`. -/
structure PatternBuilder where
  pattern : List (List Bool)
  deriving DecidableEq

/-- `func NewPatternBuilder() *PatternBuilder`. -/
def NewPatternBuilder : PatternBuilder := { pattern := [] }

/-- `func (p *PatternBuilder) Type(t string) *PatternBuilder`. -/
def PatternBuilder.«Type» (p : PatternBuilder) (t : String) : PatternBuilder :=
  if t = "glider" then
    { p with pattern := [
        [false, true, false],
        [false, false, true],
        [true, true, true]] }
  else if t = "blinker" then
    { p with pattern := [
        [true],
        [true],
        [true]] }
  else if t = "toad" then
    { p with pattern := [
        [false, true, true, true],
        [true, true, true, false]] }
  else if t = "beacon" then
    { p with pattern := [
        [true, true, false, false],
        [true, true, false, false],
        [false, false, true, true],
        [false, false, true, true]] }
  else if t = "pulsar" then
    { p with pattern := [
        [false, false, false, true, false, false, false, true, false, false, false],
        [false, false, false, true, false, false, false, true, false, false, false],
        [false, false, false, true, false, false, false, true, false, false, false],
        [true, true, true, false, true, true, true, false, true, true, true],
        [false, false, false, true, false, false, false, true, false, false, false],
        [false, false, false, true, false, false, false, true, false, false, false],
        [false, false, false, true, false, false, false, true, false, false, false],
        [true, true, true, false, true, true, true, false, true, true, true],
        [false, false, false, true, false, false, false, true, false, false, false],
        [false, false, false, true, false, false, false, true, false, false, false],
        [false, false, false, true, false, false, false, true, false, false, false]] }
  else if t = "oscillator" then
    { p with pattern := [
        [true, true, true]] }
  else if t = "spaceship" then
    { p with pattern := [
        [false, true, true, false],
        [true, false, false, true],
        [false, true, false, true],
        [false, false, true, true]] }
  else
    p

/-- `func (p *PatternBuilder) Face(face string) *PatternBuilder`. -/
def PatternBuilder.Face (p : PatternBuilder) (face : String) : Except Fault PatternBuilder :=
  if face = "up" then do
    let r ← Rotate p.pattern 0
    pure { p with pattern := r }
  else if face = "right" then do
    let r ← Rotate p.pattern 90
    pure { p with pattern := r }
  else if face = "down" then do
    let r ← Rotate p.pattern 180
    pure { p with pattern := r }
  else if face = "left" then do
    let r ← Rotate p.pattern 270
    pure { p with pattern := r }
  else
    pure p

/-- `func (p *PatternBuilder) Build() [][]bool`. -/
def PatternBuilder.Build (p : PatternBuilder) : List (List Bool) := p.pattern

/-! ## Vocabulary of the properties -/

/-- A dense rectangle of `R` rows and `C` columns. -/
def Dense (R C : Nat) (s : List (List Bool)) : Prop :=
  s.length = R ∧ ∀ row ∈ s, row.length = C

instance (R C : Nat) (s : List (List Bool)) : Decidable (Dense R C s) :=
  inferInstanceAs (Decidable (s.length = R ∧ ∀ row ∈ s, row.length = C))

/-- The 8 offsets of the Moore neighbourhood: `dx, dy` in `{-1, 0, 1}`, not both `0`. -/
def mooreOffsets : List (Int × Int) :=
  [(-1, -1), (-1, 0), (-1, 1), (0, -1), (0, 1), (1, -1), (1, 0), (1, 1)]

/-- Whether `isAlive(x, y)` returns `true`. -/
def liveAt (g : Game) (x y : Int) : Bool :=
  match isAlive g x y with
  | .ok b => b
  | .error _ => false

/-- The effect of one pass of the inner loop body of `countNeighbors` at `(i, j)` on the
counter. -/
def tally (g : Game) (x y i j : Int) (neighbors : Int) : Int :=
  if i = x ∧ j = y then neighbors
  else if liveAt g i j then wrap (neighbors + 1) else neighbors

/-- The number of Moore-neighbourhood positions of `(x, y)` at which `isAlive` is true. -/
def mooreCount (g : Game) (x y : Int) : Int :=
  ((mooreOffsets.filter (fun d => liveAt g (x + d.1) (y + d.2))).length : Int)

/-- The rule of `nextCellState` on a cell and its neighbour count. -/
def rule (alive : Bool) (neighbors : Int) : Bool :=
  if alive then (neighbors == 2 || neighbors == 3) else neighbors == 3

/-- The next generation in closed form: every cell under `rule` with its Moore count. -/
def nextGrid (g : Game) : State :=
  g.state.mapIdx (fun i row => row.mapIdx (fun j alive => rule alive (mooreCount g i j)))

/-- Every target cell `(x+i, y+j)` of a shape cell `(i, j)` lies inside the grid. -/
def TargetsInside (g : Game) (pattern : Pattern) (x y : Int) : Prop :=
  ∀ i, i < pattern.length → ∀ j, j < (pattern.getD i []).length →
    0 ≤ x + i ∧ x + i < g.height ∧ 0 ≤ y + j ∧ y + j < g.width

instance (g : Game) (pattern : Pattern) (x y : Int) : Decidable (TargetsInside g pattern x y) :=
  inferInstanceAs (Decidable (∀ i, i < pattern.length → ∀ j, j < (pattern.getD i []).length →
    0 ≤ x + i ∧ x + i < g.height ∧ 0 ≤ y + j ∧ y + j < g.width))

/-- The position `(r, c)` is a cell of `s`. -/
def InGrid (s : List (List Bool)) (r c : Int) : Prop :=
  0 ≤ r ∧ 0 ≤ c ∧ ∃ row, s[r.toNat]? = some row ∧ c.toNat < row.length

/-- The shape cell whose target is the grid position `(r, c)`, when there is one. -/
def patAt (pattern : Pattern) (x y : Int) (r c : Nat) : Option Bool :=
  if x ≤ r ∧ y ≤ c then cell pattern ((r : Int) - x).toNat ((c : Int) - y).toNat else none

/-- The grid cell `(r, c)` after stamping: the shape cell targeted there, else the old
value. -/
def stampedCell (old : List (List Bool)) (pattern : Pattern) (x y : Int) (r c : Nat) :
    Option Bool :=
  match patAt pattern x y r c with
  | some v => some v
  | none => cell old r c

/-- The length of row `r`, when there is one. -/
def rowLen (s : List (List Bool)) (r : Nat) : Option Nat :=
  match s[r]? with
  | some row => some row.length
  | none => none

/-- The names of the catalog of `Type`. -/
def catalog : List String :=
  ["glider", "blinker", "toad", "beacon", "pulsar", "oscillator", "spaceship"]

/-- The glyph of a cell: `life` for a live cell, `nolife` for a dead one. -/
def glyphOf (g : Game) (alive : Bool) : String :=
  if alive then g.life else g.nolife

/-- The rendering of one row: its glyphs, then a newline. -/
def renderRow (g : Game) (row : List Bool) : String :=
  String.join (row.map (glyphOf g)) ++ "\n"

/-- The number of newline characters of a text, that is its number of lines when the text
ends with a newline or is empty. -/
def newlines (text : String) : Nat :=
  text.data.count (Char.ofNat 10)

/-- A 1 x 1 grid whose live glyph is a newline. -/
def newlineGame : Game :=
  { state := [[true]], width := 1, height := 1, life := "\n", nolife := "-" }

/-- A change of the game by a caller: a call of `Add` or a call of `Step`. -/
inductive Op where
  | add (pattern : Pattern) (x y : Int)
  | step

/-- One call on the game. -/
def applyOp (fuel : Nat) (g : Game) : Op → Except Fault Game
  | .add pattern x y => Add g pattern x y
  | .step => Step fuel g

/-- A finite sequence of calls, in order. -/
def run (fuel : Nat) (g : Game) : List Op → Except Fault Game
  | [] => .ok g
  | op :: ops => applyOp fuel g op >>= fun g' => run fuel g' ops

/-- The call is a `Step`, or an `Add` all of whose target cells lie inside a grid of
`height` rows and `width` columns. -/
def OpInside (width height : Int) : Op → Prop
  | .add pattern x y =>
    ∀ i, i < pattern.length → ∀ j, j < (pattern.getD i []).length →
      0 ≤ x + i ∧ x + i < height ∧ 0 ≤ y + j ∧ y + j < width
  | .step => True

instance (width height : Int) (op : Op) : Decidable (OpInside width height op) :=
  match op with
  | .add pattern x y =>
    inferInstanceAs (Decidable (∀ i, i < pattern.length →
      ∀ j, j < (pattern.getD i []).length →
        0 ≤ x + i ∧ x + i < height ∧ 0 ≤ y + j ∧ y + j < width))
  | .step => isTrue trivial

/-- The number of the 8 neighbours of `(r, c)` at which the predicate `P` holds. -/
def count8 (P : Int → Int → Bool) (r c : Int) : Int :=
  (if P (r - 1) (c - 1) then 1 else 0) + (if P (r - 1) c then 1 else 0) +
  (if P (r - 1) (c + 1) then 1 else 0) + (if P r (c - 1) then 1 else 0) +
  (if P r (c + 1) then 1 else 0) + (if P (r + 1) (c - 1) then 1 else 0) +
  (if P (r + 1) c then 1 else 0) + (if P (r + 1) (c + 1) then 1 else 0)

/-- The cells of the grid are those of the predicate `P`: cell `(r, c)` is alive exactly
when `P r c`. -/
def Shows (g : Game) (P : Int → Int → Bool) : Prop :=
  ∀ r c : Nat, (r : Int) < g.height → (c : Int) < g.width → cell g.state r c = some (P r c)

/-- The predicate holds only at positions of the grid. -/
def Inside (g : Game) (P : Int → Int → Bool) : Prop :=
  ∀ r c : Int, P r c = true → 0 ≤ r ∧ r < g.height ∧ 0 ≤ c ∧ c < g.width

/-- The predicate of a grid after a shape is stamped at `(x, y)` over the predicate `old`. -/
def stampP (pattern : Pattern) (x y : Int) (old : Int → Int → Bool) (r c : Int) : Bool :=
  if x ≤ r ∧ y ≤ c then
    match cell pattern (r - x).toNat (c - y).toNat with
    | some v => v
    | none => old r c
  else old r c

/-- The predicate of the all-dead grid. -/
def allDead (_r _c : Int) : Bool := false

/-- Every cell of the grid is dead. -/
def AllDead (g : Game) : Prop :=
  ∀ row ∈ g.state, ∀ b ∈ row, b = false

instance (g : Game) : Decidable (AllDead g) :=
  inferInstanceAs (Decidable (∀ row ∈ g.state, ∀ b ∈ row, b = false))

/-- An all-dead grid of 5 rows and 5 columns. -/
def deadGame : Game :=
  { state := List.replicate 5 (List.replicate 5 false), width := 5, height := 5,
    life := "*", nolife := "-" }

/-- The number of live cells of the grid. -/
def liveCount (g : Game) : Nat :=
  (g.state.map (fun row => row.count true)).sum

/-- The glider, as `Type("glider")` stores it. -/
def gliderShape : Pattern :=
  [[false, true, false], [false, false, true], [true, true, true]]

/-- The glider one generation later. -/
def gliderPhase1 : Pattern :=
  [[true, false, true], [false, true, true], [false, true, false]]

/-- The glider two generations later. -/
def gliderPhase2 : Pattern :=
  [[false, false, true], [true, false, true], [false, true, true]]

/-- The glider three generations later. -/
def gliderPhase3 : Pattern :=
  [[true, false, false], [false, true, true], [true, true, false]]

/-- Three cells in a column, centred at `(p, q)`. -/
def vertical3 (p q : Int) (r c : Int) : Bool :=
  decide (c = q ∧ p - 1 ≤ r ∧ r ≤ p + 1)

/-- Three cells in a row, centred at `(p, q)`. -/
def horizontal3 (p q : Int) (r c : Int) : Bool :=
  decide (r = p ∧ q - 1 ≤ c ∧ c ≤ q + 1)

/-- A 2 x 2 grid used to instantiate the theorems. -/
def demoGame : Game :=
  { state := [[false, true], [true, false]], width := 2, height := 2, life := "*", nolife := "-" }

/-! ## Memory model of `Next`

The slices of a game, with the arrays behind them: what `Next` writes is seen by every slice
that shares the array written. -/

/-- A slice value: the array it points into, the place of its first element there, and
its length. The capacity plays no part, `Next` appends to no slice. -/
structure Slice where
  arr : Nat
  off : Nat
  len : Nat
  deriving DecidableEq

/-- The zero value of a slice type, `nil`. -/
def nilSlice : Slice := { arr := 0, off := 0, len := 0 }

/-- The elements of a slice, read from the arrays `mem` (an array is named by its place in
`mem`). -/
def view {α : Type} (mem : List (List α)) (s : Slice) : List α :=
  ((mem.getD s.arr []).drop s.off).take s.len

/-- Go `s[i]` as a value, read from the array behind `s`: panics outside
`0 <= i < len(s)`. -/
def load {α : Type} (mem : List (List α)) (s : Slice) (i : Int) : Except Fault α :=
  if i < 0 ∨ (s.len : Int) ≤ i then .error .indexOutOfRange
  else
    match mem[s.arr]? with
    | some a =>
      match a[s.off + i.toNat]? with
      | some v => .ok v
      | none => .error .indexOutOfRange
    | none => .error .indexOutOfRange

/-- Go `s[i] = v`, written into the array behind `s`: panics outside `0 <= i < len(s)`. -/
def store {α : Type} (mem : List (List α)) (s : Slice) (i : Int) (v : α) :
    Except Fault (List (List α)) :=
  if i < 0 ∨ (s.len : Int) ≤ i then .error .indexOutOfRange
  else
    match mem[s.arr]? with
    | some a =>
      if s.off + i.toNat < a.length then .ok (mem.set s.arr (a.set (s.off + i.toNat) v))
      else .error .indexOutOfRange
    | none => .error .indexOutOfRange

/-- Go `make([]T, n)` in memory: a new array of `n` zero values is added to `mem`, and the
slice returned is the whole of it. -/
def alloc {α : Type} (mem : List (List α)) (size : Int) (n : Int) (zero : α) :
    Except Fault (Slice × List (List α)) := do
  let a ← make size n zero
  pure ({ arr := mem.length, off := 0, len := a.length }, mem ++ [a])

/-- The arrays of the memory: those of `bool`, behind the values of type `[]bool`, and those
of slice values, behind the values of type `[][]bool`. -/
structure Heap where
  bools : List (List Bool)
  rows : List (List Slice)
  deriving DecidableEq

/-- The struct `Game` as it lies in memory: the field `state` is a slice value. -/
structure GameAt where
  state : Slice
  width : Int
  height : Int
  life : String
  nolife : String
  deriving DecidableEq

/-- `func (g *Game) isAlive(x, y int) bool`, on the memory. -/
def Heap.isAlive (h : Heap) (g : GameAt) (x y : Int) : Except Fault Bool :=
  if x < 0 ∨ x ≥ (g.state.len : Int) then .ok false
  else
    match load h.rows g.state x with
    | .error e => .error e
    | .ok row =>
      if y < 0 ∨ y ≥ (row.len : Int) then .ok false
      else load h.bools row y

/-- `func (g *Game) countNeighbors(x, y int) int`, on the memory. -/
def Heap.countNeighbors (fuel : Nat) (h : Heap) (g : GameAt) (x y : Int) : Except Fault Int :=
  forLe (fun i neighbors =>
      forLe (fun j neighbors =>
          if i = x ∧ j = y then .ok neighbors
          else
            match h.isAlive g i j with
            | .error e => .error e
            | .ok true => .ok (wrap (neighbors + 1))
            | .ok false => .ok neighbors)
        (wrap (y + 1)) fuel (wrap (y - 1)) neighbors)
    (wrap (x + 1)) fuel (wrap (x - 1)) 0

/-- `func (g *Game) nextCellState(x, y int) bool`, on the memory. -/
def Heap.nextCellState (fuel : Nat) (h : Heap) (g : GameAt) (x y : Int) :
    Except Fault Bool := do
  let row ← load h.rows g.state x
  let alive ← load h.bools row y
  let neighbors ← h.countNeighbors fuel g x y
  if alive then
    pure (neighbors == 2 || neighbors == 3)
  else
    pure (neighbors == 3)

/-- `func (g *Game) Next() [][]bool`, on the memory: the slice returned, and the memory
after the call. Each `g.state[i]` is read where the source reads it. -/
def Heap.Next (fuel : Nat) (h : Heap) (g : GameAt) : Except Fault (Slice × Heap) := do
  let (next, rows) ← alloc h.rows sliceSize g.state.len nilSlice
  let h ← loopFrom (fun i (h : Heap) => do
      let row ← load h.rows g.state i
      let (fresh, bools) ← alloc h.bools boolSize row.len false
      let rows ← store h.rows next i fresh
      let row ← load rows g.state i
      loopFrom (fun j (h : Heap) => do
          let v ← h.nextCellState fuel g i j
          let target ← load h.rows next i
          let bools ← store h.bools target j v
          pure { h with bools := bools }) 0 row.len { bools := bools, rows := rows })
    0 g.state.len { h with rows := rows }
  pure (next, h)

/-- `func (g *Game) String() string`, on the memory. -/
def Heap.String (h : Heap) (g : GameAt) : Except Fault String :=
  loopFrom (fun i b => do
      let row ← load h.rows g.state i
      let b ← loopFrom (fun j b => do
          let row ← load h.rows g.state i
          let alive ← load h.bools row j
          if alive then
            pure (b ++ g.life)
          else
            pure (b ++ g.nolife)) 0 row.len b
      pure (b ++ "\n")) 0 g.state.len ""

/-- The slice lies within the array it points into (as every slice value of a Go program
does); a slice of length 0 may point nowhere. -/
def Slice.Within {α : Type} (s : Slice) (mem : List (List α)) : Prop :=
  s.off + s.len ≤ (mem.getD s.arr []).length

instance {α : Type} (s : Slice) (mem : List (List α)) : Decidable (s.Within mem) :=
  inferInstanceAs (Decidable (s.off + s.len ≤ (mem.getD s.arr []).length))

/-- The memory holds the game: `g.state` and each of its rows lie within their arrays and
are of a size the runtime can have allocated. Rows may share an array, and overlap. -/
def Heap.Holds (h : Heap) (g : GameAt) : Prop :=
  g.state.Within h.rows ∧ sliceSize * (g.state.len : Int) ≤ maxAlloc ∧
    ∀ row ∈ view h.rows g.state, row.Within h.bools ∧ boolSize * (row.len : Int) ≤ maxAlloc

instance (h : Heap) (g : GameAt) : Decidable (h.Holds g) :=
  inferInstanceAs (Decidable (g.state.Within h.rows ∧
    sliceSize * (g.state.len : Int) ≤ maxAlloc ∧
    ∀ row ∈ view h.rows g.state, row.Within h.bools ∧ boolSize * (row.len : Int) ≤ maxAlloc))

/-- The cells that a value of type `[][]bool` shows in the memory. -/
def Heap.stateOf (h : Heap) (s : Slice) : State :=
  (view h.rows s).map (view h.bools)

/-- The game that `g` shows in the memory: the cells of `g.state`, and the other fields. -/
def Heap.gameOf (h : Heap) (g : GameAt) : Game :=
  { state := h.stateOf g.state, width := g.width, height := g.height, life := g.life,
    nolife := g.nolife }

/-- The slice values that `Next` stores in `next`: row `i` is the whole of the `i`-th array
it allocates, of the length of `g.state[i]`. -/
def freshRows (base : Nat) (rows : List Slice) : List Slice :=
  rows.mapIdx (fun i r => { arr := base + i, off := 0, len := r.len })

/-- The memory after `Next` in closed form: the arrays there were, untouched, and after
them the new ones, which hold the next generation. -/
def Heap.afterNext (h : Heap) (g : GameAt) : Heap :=
  { bools := h.bools ++ nextGrid (h.gameOf g),
    rows := h.rows ++ [freshRows h.bools.length (view h.rows g.state)] }

/-- A memory with one array of four cells and a game of three rows of two cells that share
it, each row one cell further than the row before. -/
def sharedHeap : Heap :=
  { bools := [[false, true, true, false]],
    rows := [[{ arr := 0, off := 0, len := 2 }, { arr := 0, off := 1, len := 2 },
      { arr := 0, off := 2, len := 2 }]] }

/-- The game of `sharedHeap`. -/
def sharedGame : GameAt :=
  { state := { arr := 0, off := 0, len := 3 }, width := 2, height := 3, life := "*",
    nolife := "-" }

/-! ## Properties -/

theorem index_ok {α : Type} (xs : List α) (i : Int) (h0 : 0 ≤ i) (h1 : i < len xs) :
    ∃ v, xs[i.toNat]? = some v ∧ index xs i = .ok v := by
  have hlt : i.toNat < xs.length := by
    unfold len at h1; omega
  refine ⟨xs[i.toNat], List.getElem?_eq_getElem hlt, ?_⟩
  unfold index
  rw [if_neg (by omega), List.getElem?_eq_getElem hlt]

theorem isAlive_outside (g : Game) (x y : Int) (hx : x < 0 ∨ len g.state ≤ x) :
    isAlive g x y = .ok false := by
  unfold isAlive
  rw [if_pos (by omega)]

theorem isAlive_inside (g : Game) (x y : Int) (hx0 : 0 ≤ x) (hx1 : x < len g.state) :
    ∃ row, g.state[x.toNat]? = some row ∧
      isAlive g x y = if y < 0 ∨ len row ≤ y then .ok false else index row y := by
  obtain ⟨row, hrow, hidx⟩ := index_ok g.state x hx0 hx1
  refine ⟨row, hrow, ?_⟩
  unfold isAlive
  rw [if_neg (by omega), hidx]

theorem bind_ok {α β : Type} (a : α) (f : α → Except Fault β) :
    (Except.ok a >>= f) = f a := rfl

theorem bind_error {α β : Type} (e : Fault) (f : α → Except Fault β) :
    ((Except.error e : Except Fault α) >>= f) = .error e := rfl

theorem pure_ok {α : Type} (a : α) : (pure a : Except Fault α) = .ok a := rfl

theorem loopFrom_inv {σ : Type} (Inv : Nat → σ → Prop) (body : Int → σ → Except Fault σ) :
    ∀ (n start : Nat) (s : σ), Inv start s →
      (∀ k s, start ≤ k → k < start + n → Inv k s →
        ∃ s', body (k : Int) s = .ok s' ∧ Inv (k + 1) s') →
      ∃ s', loopFrom body start n s = .ok s' ∧ Inv (start + n) s' := by
  intro n
  induction n with
  | zero => intro start s h0 _; exact ⟨s, rfl, h0⟩
  | succ n ih =>
    intro start s h0 hstep
    obtain ⟨s1, hb, h1⟩ := hstep start s (le_refl _) (by omega) h0
    obtain ⟨s2, hl, h2⟩ := ih (start + 1) s1 h1
      (fun k s hk1 hk2 hi => hstep k s (by omega) (by omega) hi)
    refine ⟨s2, ?_, ?_⟩
    · rw [loopFrom, hb]; exact hl
    · have e : start + (n + 1) = start + 1 + n := by omega
      rw [e]; exact h2

theorem fits_len (s : List (List Bool)) (h : SlicesFit s) : len s < maxInt := by
  have h1 := h.1
  unfold sliceSize maxAlloc at h1
  unfold maxInt
  omega

theorem fits_row (s : List (List Bool)) (h : SlicesFit s) (row : List Bool) (hrow : row ∈ s) :
    len row < maxInt := by
  have h1 := h.2 row hrow
  unfold boolSize maxAlloc at h1
  unfold maxInt
  omega

theorem wrap_eq_self (n : Int) (h : InInt n) : wrap n = n := by
  unfold InInt minInt maxInt at h
  unfold wrap
  omega

theorem wrap_inInt (n : Int) : InInt (wrap n) := by
  unfold InInt minInt maxInt wrap
  omega

theorem isAlive_ok (g : Game) (x y : Int) : isAlive g x y = .ok (liveAt g x y) := by
  have h : ∃ b, isAlive g x y = .ok b := by
    by_cases hx : x < 0 ∨ len g.state ≤ x
    · exact ⟨false, isAlive_outside g x y hx⟩
    · obtain ⟨row, _, hal⟩ := isAlive_inside g x y (by omega) (by omega)
      by_cases hy : y < 0 ∨ len row ≤ y
      · exact ⟨false, by rw [hal, if_pos hy]⟩
      · obtain ⟨v, _, hidx⟩ := index_ok row y (by omega) (by omega)
        exact ⟨v, by rw [hal, if_neg hy, hidx]⟩
  obtain ⟨b, hb⟩ := h
  unfold liveAt
  rw [hb]

theorem forLe_none {σ : Type} (body : Int → σ → Except Fault σ) (hi lo : Int) (fuel : Nat)
    (acc : σ) (h : hi < lo) : forLe body hi (fuel + 1) lo acc = .ok acc := by
  unfold forLe
  rw [if_neg (by omega)]

theorem forLe_three {σ : Type} (body : Int → σ → Except Fault σ) (a b c : Int) (fuel : Nat)
    (acc : σ) (hb : b = a + 1) (hc : c = b + 1) (ha : minInt ≤ a) (hm : c < maxInt) :
    forLe body c (fuel + 4) a acc =
      (body a acc).bind (fun s => (body b s).bind (fun s => body c s)) := by
  have w1 : wrap (a + 1) = b := by
    rw [wrap_eq_self _ (by unfold InInt; omega)]; omega
  have w2 : wrap (b + 1) = c := by
    rw [wrap_eq_self _ (by unfold InInt; omega)]; omega
  have w3 : c < wrap (c + 1) := by
    rw [wrap_eq_self _ (by unfold InInt; omega)]; omega
  rw [forLe, if_pos (by omega)]
  cases h1 : body a acc with
  | error e => rfl
  | ok s1 =>
    simp only [Except.bind]
    rw [w1, forLe, if_pos (by omega)]
    cases h2 : body b s1 with
    | error e => rfl
    | ok s2 =>
      simp only [Except.bind]
      rw [w2, forLe, if_pos (by omega)]
      cases h3 : body c s2 with
      | error e => rfl
      | ok s3 =>
        simp only []
        exact forLe_none body c _ fuel s3 w3

theorem forLe_maxInt_diverges {σ : Type} (body : Int → σ → Except Fault σ) (fuel : Nat) :
    ∀ (i : Int) (acc r : σ), i ≤ maxInt → forLe body maxInt fuel i acc ≠ .ok r := by
  induction fuel with
  | zero => intro i acc r _ h; simp [forLe] at h
  | succ n ih =>
    intro i acc r hi
    rw [forLe, if_pos hi]
    cases h1 : body i acc with
    | error e => simp
    | ok s1 => exact ih _ s1 r (wrap_inInt _).2

theorem countNeighbors_body (g : Game) (x y i : Int) :
    (fun (j : Int) (neighbors : Int) =>
        if i = x ∧ j = y then (Except.ok neighbors : Except Fault Int)
        else
          match isAlive g i j with
          | .error e => .error e
          | .ok true => .ok (wrap (neighbors + 1))
          | .ok false => .ok neighbors) =
      fun j neighbors => .ok (tally g x y i j neighbors) := by
  funext j n
  unfold tally
  rw [isAlive_ok]
  by_cases h : i = x ∧ j = y
  · rw [if_pos h, if_pos h]
  · rw [if_neg h, if_neg h]
    cases liveAt g i j <;> rfl

theorem liveAt_row_outside (g : Game) (r c : Int) (h : r < 0 ∨ len g.state ≤ r) :
    liveAt g r c = false := by
  unfold liveAt
  rw [isAlive_outside g r c h]

theorem liveAt_col_outside (g : Game) (hf : g.Fits) (r c : Int) (h : c < 0 ∨ maxInt - 1 ≤ c) :
    liveAt g r c = false := by
  by_cases hr : r < 0 ∨ len g.state ≤ r
  · exact liveAt_row_outside g r c hr
  · obtain ⟨row, hrow, hal⟩ := isAlive_inside g r c (by omega) (by omega)
    have hlen := fits_row _ hf row (List.getElem?_mem hrow)
    unfold liveAt
    rw [hal, if_pos (by omega)]

theorem forLe_window {σ : Type} (body : Int → σ → Except Fault σ) (y : Int) (fuel : Nat)
    (acc : σ) (hy : InInt y) (hne : y ≠ maxInt - 1) :
    forLe body (wrap (y + 1)) (fuel + 4) (wrap (y - 1)) acc =
      if minInt < y ∧ y < maxInt then
        (body (y - 1) acc).bind (fun s => (body y s).bind (fun s => body (y + 1) s))
      else .ok acc := by
  by_cases h : minInt < y ∧ y < maxInt
  · rw [if_pos h]
    have e1 : wrap (y + 1) = y + 1 := wrap_eq_self _ (by unfold InInt maxInt minInt at *; omega)
    have e2 : wrap (y - 1) = y - 1 := wrap_eq_self _ (by unfold InInt maxInt minInt at *; omega)
    rw [e1, e2]
    exact forLe_three body (y - 1) y (y + 1) fuel acc (by omega) rfl
      (by unfold minInt at *; omega) (by unfold maxInt at *; omega)
  · rw [if_neg h]
    apply forLe_none
    unfold wrap InInt minInt maxInt at *
    omega

/-- C3: on a grid, `isAlive(x, y)` never fails; it is `false` whenever `x` is outside
`[0, height)` or `y` is outside `[0, width)`, and is the stored cell `state[x][y]`
otherwise. -/
theorem isAlive_never_fails (g : Game) (hg : g.WellFormed) (x y : Int) :
    ((x < 0 ∨ g.height ≤ x ∨ y < 0 ∨ g.width ≤ y) → isAlive g x y = .ok false) ∧
    ((0 ≤ x ∧ x < g.height ∧ 0 ≤ y ∧ y < g.width) →
      ∃ v, cell g.state x.toNat y.toNat = some v ∧ isAlive g x y = .ok v) := by
  obtain ⟨hh, hw⟩ := hg
  constructor
  · intro hout
    by_cases hx : x < 0 ∨ len g.state ≤ x
    · exact isAlive_outside g x y hx
    · obtain ⟨row, hrow, hal⟩ := isAlive_inside g x y (by omega) (by omega)
      have hmem : row ∈ g.state := List.getElem?_mem hrow
      have hlen := hw row hmem
      rw [hal, if_pos (by omega)]
  · rintro ⟨hx0, hx1, hy0, hy1⟩
    obtain ⟨row, hrow, hal⟩ := isAlive_inside g x y hx0 (by omega)
    have hmem : row ∈ g.state := List.getElem?_mem hrow
    have hlen := hw row hmem
    obtain ⟨v, hv, hidx⟩ := index_ok row y hy0 (by omega)
    refine ⟨v, ?_, ?_⟩
    · unfold cell
      rw [hrow]; exact hv
    · rw [hal, if_neg (by omega), hidx]

theorem isAlive_never_fails_witness :
    demoGame.WellFormed ∧ isAlive demoGame 5 1 = .ok false ∧
      ∃ v, cell demoGame.state (0 : Int).toNat (1 : Int).toNat = some v ∧
        isAlive demoGame 0 1 = .ok v :=
  ⟨by decide, (isAlive_never_fails demoGame (by decide) 5 1).1 (by decide),
    (isAlive_never_fails demoGame (by decide) 0 1).2 (by decide)⟩

theorem tally_center (g : Game) (x y n : Int) : tally g x y x y n = n := by
  unfold tally
  rw [if_pos ⟨rfl, rfl⟩]

theorem tally_step (g : Game) (x y i j n k : Int) (hn : 0 ≤ n ∧ n ≤ k) (hk : k ≤ 100)
    (h : ¬ (i = x ∧ j = y)) :
    tally g x y i j n = n + (if liveAt g i j then 1 else 0) ∧
      0 ≤ tally g x y i j n ∧ tally g x y i j n ≤ k + 1 := by
  unfold tally
  rw [if_neg h]
  cases liveAt g i j
  · simp
    omega
  · rw [wrap_eq_self _ (by unfold InInt minInt maxInt; omega)]
    simp
    omega

theorem mooreCount_sum (g : Game) (x y : Int) :
    mooreCount g x y =
      (if liveAt g (x - 1) (y - 1) then 1 else 0) + (if liveAt g (x - 1) y then 1 else 0) +
      (if liveAt g (x - 1) (y + 1) then 1 else 0) + (if liveAt g x (y - 1) then 1 else 0) +
      (if liveAt g x (y + 1) then 1 else 0) + (if liveAt g (x + 1) (y - 1) then 1 else 0) +
      (if liveAt g (x + 1) y then 1 else 0) + (if liveAt g (x + 1) (y + 1) then 1 else 0) := by
  unfold mooreCount mooreOffsets
  have e1 : x + -1 = x - 1 := by omega
  have e2 : y + -1 = y - 1 := by omega
  rw [← List.countP_eq_length_filter]
  simp only [List.countP_cons, List.countP_nil, e1, e2, add_zero]
  push_cast
  ring

theorem tally_chain (g : Game) (x y : Int) :
    tally g x y (x + 1) (y + 1)
        (tally g x y (x + 1) y
          (tally g x y (x + 1) (y - 1)
            (tally g x y x (y + 1)
              (tally g x y x y
                (tally g x y x (y - 1)
                  (tally g x y (x - 1) (y + 1)
                    (tally g x y (x - 1) y (tally g x y (x - 1) (y - 1) 0)))))))) =
      mooreCount g x y := by
  rw [tally_center, mooreCount_sum]
  obtain ⟨e1, l1, u1⟩ := tally_step g x y (x - 1) (y - 1) 0 0 ⟨le_refl _, le_refl _⟩
    (by decide) (by omega)
  obtain ⟨e2, l2, u2⟩ := tally_step g x y (x - 1) y _ _ ⟨l1, u1⟩ (by decide) (by omega)
  obtain ⟨e3, l3, u3⟩ := tally_step g x y (x - 1) (y + 1) _ _ ⟨l2, u2⟩ (by decide) (by omega)
  obtain ⟨e4, l4, u4⟩ := tally_step g x y x (y - 1) _ _ ⟨l3, u3⟩ (by decide) (by omega)
  obtain ⟨e5, l5, u5⟩ := tally_step g x y x (y + 1) _ _ ⟨l4, u4⟩ (by decide) (by omega)
  obtain ⟨e6, l6, u6⟩ := tally_step g x y (x + 1) (y - 1) _ _ ⟨l5, u5⟩ (by decide) (by omega)
  obtain ⟨e7, l7, u7⟩ := tally_step g x y (x + 1) y _ _ ⟨l6, u6⟩ (by decide) (by omega)
  obtain ⟨e8, l8, u8⟩ := tally_step g x y (x + 1) (y + 1) _ _ ⟨l7, u7⟩ (by decide) (by omega)
  rw [e8, e7, e6, e5, e4, e3, e2, e1]
  ring

theorem mooreCount_bounds (g : Game) (x y : Int) :
    0 ≤ mooreCount g x y ∧ mooreCount g x y ≤ 8 := by
  unfold mooreCount
  have h := List.length_filter_le (fun d : Int × Int => liveAt g (x + d.1) (y + d.2)) mooreOffsets
  have h8 : mooreOffsets.length = 8 := rfl
  omega

theorem mooreCount_zero (g : Game) (x y : Int)
    (h : ∀ d ∈ mooreOffsets, liveAt g (x + d.1) (y + d.2) = false) : mooreCount g x y = 0 := by
  unfold mooreCount
  rw [List.filter_eq_nil_iff.mpr (by intro d hd; simp [h d hd])]
  rfl

theorem countNeighbors_interior (g : Game) (x y : Int) (hx : minInt < x ∧ x < maxInt - 1)
    (hy : minInt < y ∧ y < maxInt - 1) (fuel : Nat) (hfuel : 4 ≤ fuel) :
    countNeighbors fuel g x y = .ok (mooreCount g x y) := by
  obtain ⟨f, rfl⟩ : ∃ f, fuel = f + 4 := ⟨fuel - 4, by omega⟩
  have hxi : InInt x := by unfold InInt maxInt minInt at *; omega
  have hyi : InInt y := by unfold InInt maxInt minInt at *; omega
  unfold countNeighbors
  simp only [countNeighbors_body]
  rw [forLe_window _ x f 0 hxi (by omega)]
  simp only [forLe_window _ y f _ hyi (show y ≠ maxInt - 1 by omega)]
  rw [if_pos ⟨hx.1, by omega⟩]
  simp only [if_pos (show minInt < y ∧ y < maxInt from ⟨hy.1, by omega⟩), Except.bind]
  rw [tally_chain]

theorem forLe_error {σ : Type} (body : Int → σ → Except Fault σ) (hi : Int)
    (hbody : ∀ i s e, body i s = .error e → e = .outOfFuel) (fuel : Nat) :
    ∀ (i : Int) (acc : σ) (e : Fault), forLe body hi fuel i acc = .error e → e = .outOfFuel := by
  induction fuel with
  | zero =>
    intro i acc e h
    rw [forLe] at h
    exact (Except.error.inj h).symm
  | succ n ih =>
    intro i acc e h
    rw [forLe] at h
    by_cases hle : i ≤ hi
    · rw [if_pos hle] at h
      cases h1 : body i acc with
      | error e1 =>
        rw [h1] at h
        rw [← Except.error.inj h]
        exact hbody i acc e1 h1
      | ok s1 =>
        rw [h1] at h
        exact ih _ s1 e h
    · rw [if_neg hle] at h
      exact Except.noConfusion h

theorem forLe_maxInt_outOfFuel {σ : Type} (body : Int → σ → Except Fault σ)
    (hbody : ∀ i s e, body i s = .error e → e = .outOfFuel) (fuel : Nat) (i : Int) (acc : σ)
    (hi : i ≤ maxInt) : forLe body maxInt fuel i acc = .error .outOfFuel := by
  cases h : forLe body maxInt fuel i acc with
  | error e => rw [forLe_error body maxInt hbody fuel i acc e h]
  | ok r => exact absurd h (forLe_maxInt_diverges body fuel i acc r hi)

/-- The calls of `countNeighbors` that do not return: at `x = maxInt - 1` the bound `x+1` of
the outer loop is `maxInt`, at `y = maxInt - 1` that of the inner loop is, and the test
`i <= maxInt` holds of every Go int; whatever the fuel, the run ends out of fuel. (For
`x = minInt` and `x = maxInt` the outer loop makes no pass, and the inner loop is not
reached.) -/
theorem countNeighbors_hangs (g : Game) (x y : Int)
    (h : x = maxInt - 1 ∨ (minInt < x ∧ x < maxInt ∧ y = maxInt - 1)) (fuel : Nat) :
    countNeighbors fuel g x y = .error .outOfFuel := by
  unfold countNeighbors
  simp only [countNeighbors_body]
  by_cases hx : x = maxInt - 1
  · subst hx
    have e : wrap (maxInt - 1 + 1) = maxInt := by decide
    rw [e]
    apply forLe_maxInt_outOfFuel _ _ fuel _ _ (wrap_inInt _).2
    intro i s e1 h1
    exact forLe_error _ _ (fun _ _ _ hb => Except.noConfusion hb) fuel _ _ e1 h1
  · obtain ⟨h1, h2, rfl⟩ : minInt < x ∧ x < maxInt ∧ y = maxInt - 1 := by
      rcases h with h | h
      · exact absurd h hx
      · exact h
    have e : wrap (maxInt - 1 + 1) = maxInt := by decide
    rw [e]
    cases fuel with
    | zero => rfl
    | succ n =>
      rw [forLe, if_pos (by unfold wrap minInt maxInt at *; omega)]
      rw [forLe_maxInt_outOfFuel _ (fun _ _ _ hb => Except.noConfusion hb) (n + 1) _ _
        (wrap_inInt _).2]

/-- The calls of `countNeighbors` that return: on a grid whose slices fit, for Go ints `x`
and `y` outside the cases of `countNeighbors_hangs`, `countNeighbors(x, y)` returns (with
fuel for four loop tests) the number of the 8 Moore-neighbourhood positions `(x+dx, y+dy)`
at which `isAlive` is true, and that number is between 0 and 8. -/
theorem countNeighbors_moore (g : Game) (hf : g.Fits) (x y : Int) (hx : InInt x)
    (hy : InInt y) (hx1 : x ≠ maxInt - 1) (hy1 : y ≠ maxInt - 1 ∨ x = minInt ∨ x = maxInt)
    (fuel : Nat) (hfuel : 4 ≤ fuel) :
    countNeighbors fuel g x y = .ok (mooreCount g x y) ∧
      0 ≤ mooreCount g x y ∧ mooreCount g x y ≤ 8 := by
  refine ⟨?_, mooreCount_bounds g x y⟩
  by_cases hxr : minInt < x ∧ x < maxInt
  · have hy1 : y ≠ maxInt - 1 := by
      rcases hy1 with h | h | h
      · exact h
      · omega
      · omega
    by_cases hyr : minInt < y ∧ y < maxInt
    · exact countNeighbors_interior g x y ⟨hxr.1, by omega⟩ ⟨hyr.1, by omega⟩ fuel hfuel
    · obtain ⟨f, rfl⟩ : ∃ f, fuel = f + 4 := ⟨fuel - 4, by omega⟩
      unfold countNeighbors
      simp only [countNeighbors_body]
      rw [forLe_window _ x f 0 hx hx1]
      simp only [forLe_window _ y f _ hy hy1]
      rw [if_pos hxr]
      simp only [if_neg hyr, Except.bind]
      rw [mooreCount_zero]
      intro d hd
      apply liveAt_col_outside g hf
      unfold mooreOffsets at hd
      unfold InInt minInt maxInt at *
      simp only [List.mem_cons, List.mem_singleton, List.mem_nil_iff, or_false] at hd
      rcases hd with h | h | h | h | h | h | h | h <;> subst h <;> simp only <;> omega
  · obtain ⟨f, rfl⟩ : ∃ f, fuel = f + 4 := ⟨fuel - 4, by omega⟩
    unfold countNeighbors
    simp only [countNeighbors_body]
    rw [forLe_window _ x f 0 hx hx1]
    rw [if_neg hxr, mooreCount_zero]
    intro d hd
    apply liveAt_row_outside g
    have hlen := fits_len _ hf
    unfold mooreOffsets at hd
    unfold InInt minInt maxInt at *
    simp only [List.mem_cons, List.mem_singleton, List.mem_nil_iff, or_false] at hd
    rcases hd with h | h | h | h | h | h | h | h <;> subst h <;> simp only <;> omega

theorem countNeighbors_moore_witness :
    demoGame.Fits ∧ InInt 0 ∧ InInt 1 ∧ (0 : Int) ≠ maxInt - 1 ∧
      ((1 : Int) ≠ maxInt - 1 ∨ (0 : Int) = minInt ∨ (0 : Int) = maxInt) ∧ 4 ≤ 4 ∧
      (countNeighbors 4 demoGame 0 1 = .ok (mooreCount demoGame 0 1) ∧
        0 ≤ mooreCount demoGame 0 1 ∧ mooreCount demoGame 0 1 ≤ 8) :=
  ⟨by decide, by decide, by decide, by decide, by decide, by decide,
    countNeighbors_moore demoGame (by decide) 0 1 (by decide) (by decide) (by decide)
      (by decide) 4 (by decide)⟩

/-- C2 fails of the code: on the 2 x 2 grid `demoGame` no neighbour of `(maxInt - 1, 0)` is
inside the grid, so the count of live Moore neighbours that the claim (and the comment of
the function) promise is 0; but the bound `x+1` of the outer loop is `maxInt`, the test
`i <= x+1` holds of every Go int, and `countNeighbors(maxInt - 1, 0)` returns no value:
whatever the fuel, the run ends out of fuel. -/
theorem countNeighbors_no_result :
    demoGame.Fits ∧ InInt (maxInt - 1) ∧ InInt 0 ∧ mooreCount demoGame (maxInt - 1) 0 = 0 ∧
      (∀ fuel, countNeighbors fuel demoGame (maxInt - 1) 0 = .error .outOfFuel) ∧
      ¬ ∃ (fuel : Nat) (n : Int), countNeighbors fuel demoGame (maxInt - 1) 0 = .ok n := by
  refine ⟨by decide, by decide, by decide, by decide, ?_, ?_⟩
  · intro fuel
    unfold countNeighbors
    simp only [countNeighbors_body]
    have e : wrap (maxInt - 1 + 1) = maxInt := by decide
    rw [e]
    apply forLe_maxInt_outOfFuel _ _ fuel _ _ (wrap_inInt _).2
    intro i s e1 h1
    exact forLe_error _ _ (fun _ _ _ hb => Except.noConfusion hb) fuel _ _ e1 h1
  · rintro ⟨fuel, n, h⟩
    unfold countNeighbors at h
    have e : wrap (maxInt - 1 + 1) = maxInt := by decide
    rw [e] at h
    exact forLe_maxInt_diverges _ fuel _ _ n (wrap_inInt _).2 h

theorem index_nat {α : Type} (xs : List α) (i : Nat) (v : α) (h : xs[i]? = some v) :
    index xs (i : Int) = .ok v := by
  have hlt : i < xs.length := by
    by_contra hc
    rw [List.getElem?_eq_none (by omega)] at h
    exact Option.noConfusion h
  unfold index len
  rw [if_neg (by omega)]
  simp only [Int.toNat_ofNat, h]

theorem assign_nat {α : Type} (xs : List α) (i : Nat) (v : α) (h : i < xs.length) :
    assign xs (i : Int) v = .ok (xs.set i v) := by
  unfold assign len
  rw [if_neg (by omega)]
  simp only [Int.toNat_ofNat]

theorem setCell_nat (s : List (List Bool)) (r c : Nat) (v : Bool) (row : List Bool)
    (hr : s[r]? = some row) (hc : c < row.length) :
    setCell s (r : Int) (c : Int) v = .ok (s.set r (row.set c v)) := by
  have hlt : r < s.length := by
    by_contra hcon
    rw [List.getElem?_eq_none (by omega)] at hr
    exact Option.noConfusion hr
  unfold setCell
  rw [index_nat s r row hr, bind_ok, assign_nat row c v hc, bind_ok, assign_nat s r _ hlt]

theorem make_len {α : Type} {β : Type} (size : Int) (xs : List β) (z : α)
    (h : size * len xs ≤ maxAlloc) :
    make size (len xs) z = .ok (List.replicate xs.length z) := by
  unfold len at h
  unfold make len
  rw [if_neg (by omega)]
  simp only [Int.toNat_ofNat]

theorem nextCellState_eq (g : Game) (hf : g.Fits) (fuel : Nat) (hfuel : 4 ≤ fuel)
    (i j : Nat) (row : List Bool) (alive : Bool) (hrow : g.state[i]? = some row)
    (hcell : row[j]? = some alive) :
    nextCellState fuel g i j = .ok (rule alive (mooreCount g i j)) := by
  have hi : i < g.state.length := by
    by_contra hc
    rw [List.getElem?_eq_none (by omega)] at hrow
    exact Option.noConfusion hrow
  have hj : j < row.length := by
    by_contra hc
    rw [List.getElem?_eq_none (by omega)] at hcell
    exact Option.noConfusion hcell
  have h1 := fits_len _ hf
  have h2 := fits_row _ hf row (List.getElem?_mem hrow)
  unfold len at h1 h2
  have hc := countNeighbors_interior g i j (by unfold minInt maxInt at *; omega)
    (by unfold minInt maxInt at *; omega) fuel hfuel
  unfold nextCellState
  rw [index_nat _ i row hrow, bind_ok, index_nat _ j alive hcell, bind_ok, hc, bind_ok]
  unfold rule
  cases alive <;> rfl

theorem loopFrom_post {σ : Type} (Inv : Nat → σ → Prop) (post : σ → Prop)
    (body : Int → σ → Except Fault σ) (n start : Nat) (s : σ) (h0 : Inv start s)
    (hstep : ∀ k s, start ≤ k → k < start + n → Inv k s →
      ∃ s', body (k : Int) s = .ok s' ∧ Inv (k + 1) s')
    (hpost : ∀ s', Inv (start + n) s' → post s') :
    ∃ s', loopFrom body start n s = .ok s' ∧ post s' := by
  obtain ⟨s', h1, h2⟩ := loopFrom_inv Inv body n start s h0 hstep
  exact ⟨s', h1, hpost s' h2⟩

theorem loopFrom_eq {σ : Type} (Inv : Nat → σ → Prop) (target : σ)
    (body : Int → σ → Except Fault σ) (n start : Nat) (s : σ) (h0 : Inv start s)
    (hstep : ∀ k s, start ≤ k → k < start + n → Inv k s →
      ∃ s', body (k : Int) s = .ok s' ∧ Inv (k + 1) s')
    (hpost : ∀ s', Inv (start + n) s' → s' = target) :
    loopFrom body start n s = .ok target := by
  obtain ⟨s', h1, h2⟩ := loopFrom_inv Inv body n start s h0 hstep
  rw [h1, hpost s' h2]

theorem get_some_of_lt {α : Type} (xs : List α) (i : Nat) (h : i < xs.length) :
    ∃ v, xs[i]? = some v := ⟨xs[i], List.getElem?_eq_getElem h⟩

theorem Next_eq (g : Game) (hf : g.Fits) (fuel : Nat) (hfuel : 4 ≤ fuel) :
    Next fuel g = .ok (nextGrid g) := by
  unfold Next
  rw [make_len _ _ _ hf.1, bind_ok]
  apply loopFrom_eq
    (fun i next => next.length = g.state.length ∧ ∀ r, r < i → next[r]? = (nextGrid g)[r]?)
  · exact ⟨by simp, by intro r hr; omega⟩
  · rintro i next - hi ⟨hlen, hrows⟩
    obtain ⟨row, hrow⟩ := get_some_of_lt g.state i (by omega)
    simp only [index_nat _ i row hrow, bind_ok,
      make_len _ row _ (hf.2 row (List.getElem?_mem hrow)), assign_nat next i _ (by omega)]
    apply loopFrom_post
      (fun j nx => nx.length = g.state.length ∧ (∀ r, r < i → nx[r]? = (nextGrid g)[r]?) ∧
        ∃ row', nx[i]? = some row' ∧ row'.length = row.length ∧
          ∀ c, c < j →
            row'[c]? = (row.mapIdx (fun j alive => rule alive (mooreCount g i j)))[c]?)
    · refine ⟨by simp [hlen], ?_, List.replicate row.length false, ?_, by simp, ?_⟩
      · intro r hr
        rw [List.getElem?_set_ne (by omega)]
        exact hrows r hr
      · rw [List.getElem?_set_self (by omega)]
      · intro c hc; omega
    · rintro j nx - hj ⟨h1, h2, row', h3, h4, h5⟩
      obtain ⟨alive, halive⟩ := get_some_of_lt row j (by omega)
      simp only [nextCellState_eq g hf fuel hfuel i j row alive hrow halive, bind_ok,
        setCell_nat nx i j _ row' h3 (by omega)]
      refine ⟨_, rfl, by simp [h1], ?_, row'.set j (rule alive (mooreCount g i j)), ?_,
        by simp [h4], ?_⟩
      · intro r hr
        rw [List.getElem?_set_ne (by omega)]
        exact h2 r hr
      · rw [List.getElem?_set_self (by omega)]
      · intro c hc
        by_cases hcj : c = j
        · subst hcj
          rw [List.getElem?_set_self (by omega), List.getElem?_mapIdx, halive]
          rfl
        · rw [List.getElem?_set_ne (by omega)]
          exact h5 c (by omega)
    · rintro nx ⟨h1, h2, row', h3, h4, h5⟩
      refine ⟨h1, ?_⟩
      intro r hr
      by_cases hri : r = i
      · subst hri
        rw [h3]
        unfold nextGrid
        rw [List.getElem?_mapIdx, hrow]
        simp only [Option.map_some']
        congr 1
        apply List.ext_getElem?
        intro c
        by_cases hc : c < row.length
        · exact h5 c (by omega)
        · rw [List.getElem?_eq_none (by omega), List.getElem?_eq_none (by simp; omega)]
      · exact h2 r (by omega)
  · rintro next ⟨hlen, hrows⟩
    apply List.ext_getElem?
    intro r
    by_cases hr : r < g.state.length
    · exact hrows r (by omega)
    · rw [List.getElem?_eq_none (by omega),
        List.getElem?_eq_none (by unfold nextGrid; simp; omega)]

theorem cell_some (s : List (List Bool)) (i j : Nat) (v : Bool) (h : cell s i j = some v) :
    ∃ row, s[i]? = some row ∧ row[j]? = some v := by
  unfold cell at h
  cases hrow : s[i]? with
  | none => rw [hrow] at h; exact Option.noConfusion h
  | some row => rw [hrow] at h; exact ⟨row, rfl, h⟩

theorem cell_of_row (s : List (List Bool)) (i j : Nat) (row : List Bool)
    (h : s[i]? = some row) : cell s i j = row[j]? := by
  unfold cell
  rw [h]

theorem rule_iff (alive : Bool) (n : Int) :
    rule alive n = true ↔ (alive = true ∧ (n = 2 ∨ n = 3)) ∨ (alive = false ∧ n = 3) := by
  unfold rule
  cases alive <;> simp

/-- C1: on a grid whose lengths fit, `Next()` returns a state in which every in-bounds cell
`(i, j)` is alive exactly when the cell is alive now and `countNeighbors(i, j)` is 2 or 3,
or the cell is dead now and `countNeighbors(i, j)` is 3. -/
theorem Next_cell_rule (g : Game) (hf : g.Fits) (fuel : Nat) (hfuel : 4 ≤ fuel) :
    ∃ next, Next fuel g = .ok next ∧
      ∀ (i j : Nat) (alive : Bool), cell g.state i j = some alive →
        ∃ n v, countNeighbors fuel g i j = .ok n ∧ cell next i j = some v ∧
          (v = true ↔ (alive = true ∧ (n = 2 ∨ n = 3)) ∨ (alive = false ∧ n = 3)) := by
  refine ⟨nextGrid g, Next_eq g hf fuel hfuel, ?_⟩
  intro i j alive hcell
  obtain ⟨row, hrow, hj⟩ := cell_some g.state i j alive hcell
  have hi : i < g.state.length := by
    by_contra hc
    rw [List.getElem?_eq_none (by omega)] at hrow
    exact Option.noConfusion hrow
  have hjl : j < row.length := by
    by_contra hc
    rw [List.getElem?_eq_none (by omega)] at hj
    exact Option.noConfusion hj
  have h1 := fits_len _ hf
  have h2 := fits_row _ hf row (List.getElem?_mem hrow)
  unfold len at h1 h2
  have hc := countNeighbors_interior g i j (by unfold minInt maxInt at *; omega)
    (by unfold minInt maxInt at *; omega) fuel hfuel
  refine ⟨mooreCount g i j, rule alive (mooreCount g i j), hc, ?_, rule_iff _ _⟩
  have hn : (nextGrid g)[i]? =
      some (row.mapIdx (fun j alive => rule alive (mooreCount g i j))) := by
    unfold nextGrid
    rw [List.getElem?_mapIdx, hrow]
    rfl
  rw [cell_of_row _ i j _ hn, List.getElem?_mapIdx, hj]
  rfl

theorem Next_cell_rule_witness :
    demoGame.Fits ∧ 4 ≤ 4 ∧
      ∃ next, Next 4 demoGame = .ok next ∧
        ∀ (i j : Nat) (alive : Bool), cell demoGame.state i j = some alive →
          ∃ n v, countNeighbors 4 demoGame i j = .ok n ∧ cell next i j = some v ∧
            (v = true ↔ (alive = true ∧ (n = 2 ∨ n = 3)) ∨ (alive = false ∧ n = 3)) :=
  ⟨by decide, by decide, Next_cell_rule demoGame (by decide) 4 (by decide)⟩


theorem setCell_in (s : List (List Bool)) (r c : Int) (v : Bool) (row : List Bool)
    (hr : 0 ≤ r) (hc : 0 ≤ c) (hrow : s[r.toNat]? = some row) (hcl : c.toNat < row.length) :
    setCell s r c v = .ok (s.set r.toNat (row.set c.toNat v)) := by
  have h := setCell_nat s r.toNat c.toNat v row hrow hcl
  rw [Int.toNat_of_nonneg hr, Int.toNat_of_nonneg hc] at h
  exact h

theorem setCell_out (s : List (List Bool)) (r c : Int) (v : Bool)
    (h : ¬ (0 ≤ r ∧ 0 ≤ c ∧ ∃ row, s[r.toNat]? = some row ∧ c.toNat < row.length)) :
    setCell s r c v = .error .indexOutOfRange := by
  unfold setCell
  by_cases hr : r < 0 ∨ len s ≤ r
  · unfold index
    rw [if_pos hr]
    rfl
  · obtain ⟨row, hrow, hidx⟩ := index_ok s r (by omega) (by omega)
    rw [hidx, bind_ok]
    have hc : c < 0 ∨ len row ≤ c := by
      by_contra hcon
      apply h
      refine ⟨by omega, by omega, row, hrow, ?_⟩
      unfold len at hcon
      omega
    unfold assign
    rw [if_pos hc]
    rfl

theorem set_cell (s : List (List Bool)) (r c : Nat) (v : Bool) (row : List Bool)
    (hrow : s[r]? = some row) (hc : c < row.length) (r' c' : Nat) :
    cell (s.set r (row.set c v)) r' c' =
      if r' = r ∧ c' = c then some v else cell s r' c' := by
  have hr : r < s.length := by
    by_contra hcon
    rw [List.getElem?_eq_none (by omega)] at hrow
    exact Option.noConfusion hrow
  unfold cell
  by_cases h1 : r' = r
  · subst h1
    rw [List.getElem?_set_self hr, hrow]
    dsimp only
    by_cases h2 : c' = c
    · subst h2
      rw [List.getElem?_set_self hc, if_pos ⟨rfl, rfl⟩]
    · rw [List.getElem?_set_ne (by omega), if_neg (by omega)]
  · rw [List.getElem?_set_ne (by omega), if_neg (by omega)]

theorem set_rowLen (s : List (List Bool)) (r c : Nat) (v : Bool) (row : List Bool)
    (hrow : s[r]? = some row) (r' : Nat) :
    rowLen (s.set r (row.set c v)) r' = rowLen s r' := by
  have hr : r < s.length := by
    by_contra hcon
    rw [List.getElem?_eq_none (by omega)] at hrow
    exact Option.noConfusion hrow
  unfold rowLen
  by_cases h1 : r' = r
  · subst h1
    rw [List.getElem?_set_self hr, hrow]
    simp
  · rw [List.getElem?_set_ne (by omega)]

theorem lt_of_get_some {α : Type} (xs : List α) (i : Nat) (v : α) (h : xs[i]? = some v) :
    i < xs.length := by
  by_contra hc
  rw [List.getElem?_eq_none (by omega)] at h
  exact Option.noConfusion h

theorem stamped_old (old : List (List Bool)) (pattern : Pattern) (x y : Int) (r c : Nat)
    (h : patAt pattern x y r c = none) : stampedCell old pattern x y r c = cell old r c := by
  unfold stampedCell
  rw [h]

theorem patAt_none_left (pattern : Pattern) (x y : Int) (r c : Nat)
    (h : (r : Int) < x ∨ (c : Int) < y) : patAt pattern x y r c = none := by
  unfold patAt
  rw [if_neg (by omega)]

theorem patAt_none_below (pattern : Pattern) (x y : Int) (r c : Nat)
    (h : (pattern.length : Int) ≤ (r : Int) - x) : patAt pattern x y r c = none := by
  unfold patAt
  by_cases h1 : x ≤ r ∧ y ≤ c
  · rw [if_pos h1]
    unfold cell
    rw [List.getElem?_eq_none (by omega)]
  · rw [if_neg h1]

theorem patAt_none_right (pattern : Pattern) (x y : Int) (r c i : Nat) (prow : List Bool)
    (hr : (r : Int) - x = i) (hrow : pattern[i]? = some prow)
    (h : (prow.length : Int) ≤ (c : Int) - y) : patAt pattern x y r c = none := by
  unfold patAt
  by_cases h1 : x ≤ r ∧ y ≤ c
  · rw [if_pos h1, hr]
    unfold cell
    simp only [Int.toNat_ofNat, hrow]
    rw [List.getElem?_eq_none (by omega)]
  · rw [if_neg h1]

theorem patAt_target (pattern : Pattern) (x y : Int) (r c i j : Nat)
    (hr : (r : Int) = x + i) (hc : (c : Int) = y + j) :
    patAt pattern x y r c = cell pattern i j := by
  unfold patAt
  rw [if_pos (by omega)]
  have e1 : (r : Int) - x = i := by omega
  have e2 : (c : Int) - y = j := by omega
  rw [e1, e2]
  rfl

theorem bind_pure_post {σ τ : Type} (m : Except Fault σ) (f : σ → τ) (P : σ → Prop)
    (h : ∃ a, m = .ok a ∧ P a) : ∃ a, (m >>= fun s => pure (f s)) = .ok (f a) ∧ P a := by
  obtain ⟨a, h1, h2⟩ := h
  exact ⟨a, by rw [h1]; rfl, h2⟩

theorem Add_stamps (g : Game) (hf : g.Fits) (pattern : Pattern) (x y : Int)
    (hin : ∀ i j v, cell pattern i j = some v → InGrid g.state (x + i) (y + j)) :
    ∃ st, Add g pattern x y = .ok { g with state := st } ∧ st.length = g.state.length ∧
      (∀ r, rowLen st r = rowLen g.state r) ∧
      ∀ r c, cell st r c = stampedCell g.state pattern x y r c := by
  unfold Add
  apply bind_pure_post
  apply loopFrom_post
    (fun i st => st.length = g.state.length ∧ (∀ r, rowLen st r = rowLen g.state r) ∧
      ∀ r c : Nat, cell st r c =
        if (r : Int) - x < i then stampedCell g.state pattern x y r c else cell g.state r c)
  · refine ⟨rfl, fun _ => rfl, ?_⟩
    intro r c
    by_cases h : (r : Int) - x < (0 : Nat)
    · rw [if_pos h, stamped_old _ _ _ _ _ _ (patAt_none_left _ _ _ _ _ (by omega))]
    · rw [if_neg h]
  · rintro i st - hi ⟨h1, h2, h3⟩
    obtain ⟨prow, hprow⟩ := get_some_of_lt pattern i (by omega)
    simp only [index_nat _ i prow hprow, bind_ok]
    apply loopFrom_post
      (fun j st => st.length = g.state.length ∧ (∀ r, rowLen st r = rowLen g.state r) ∧
        ∀ r c : Nat, cell st r c =
          if (r : Int) - x < i ∨ ((r : Int) - x = i ∧ (c : Int) - y < j) then
            stampedCell g.state pattern x y r c
          else cell g.state r c)
    · refine ⟨h1, h2, ?_⟩
      intro r c
      rw [h3 r c]
      by_cases h : (r : Int) - x < i
      · rw [if_pos h, if_pos (Or.inl h)]
      · rw [if_neg h]
        by_cases h' : (r : Int) - x = i ∧ (c : Int) - y < (0 : Nat)
        · rw [if_pos (Or.inr h'),
            stamped_old _ _ _ _ _ _ (patAt_none_left _ _ _ _ _ (by omega))]
        · rw [if_neg (by omega)]
    · rintro j st2 - hj ⟨k1, k2, k3⟩
      obtain ⟨v, hv⟩ := get_some_of_lt prow j (by omega)
      have hcell : cell pattern i j = some v := by
        rw [cell_of_row _ i j prow hprow, hv]
      obtain ⟨hr0, hc0, row, hrow, hcl⟩ := hin i j v hcell
      have hrl := lt_of_get_some _ _ _ hrow
      have hf1 := fits_len _ hf
      have hf2 := fits_row _ hf row (List.getElem?_mem hrow)
      unfold len at hf1 hf2
      have w1 : wrap (x + i) = x + i :=
        wrap_eq_self _ (by unfold InInt minInt maxInt at *; omega)
      have w2 : wrap (y + j) = y + j :=
        wrap_eq_self _ (by unfold InInt minInt maxInt at *; omega)
      have hlen2 : rowLen st2 (x + i).toNat = some row.length := by
        rw [k2]; unfold rowLen; rw [hrow]
      obtain ⟨row2, hrow2, hrl2⟩ : ∃ row2, st2[(x + i).toNat]? = some row2 ∧
          row2.length = row.length := by
        unfold rowLen at hlen2
        cases hq : st2[(x + i).toNat]? with
        | none => rw [hq] at hlen2; exact Option.noConfusion hlen2
        | some row2 =>
          rw [hq] at hlen2
          exact ⟨row2, rfl, Option.some.inj hlen2⟩
      simp only [index_nat _ j v hv, bind_ok, w1, w2]
      rw [setCell_in st2 (x + i) (y + j) v row2 hr0 hc0 hrow2 (by omega)]
      refine ⟨_, rfl, by simp [k1], ?_, ?_⟩
      · intro r
        rw [set_rowLen _ _ _ _ _ hrow2, k2]
      · intro r c
        rw [set_cell _ _ _ _ _ hrow2 (by omega)]
        by_cases hrc : r = (x + i).toNat ∧ c = (y + j).toNat
        · rw [if_pos hrc, if_pos (by omega)]
          unfold stampedCell
          rw [patAt_target pattern x y r c i j (by omega) (by omega), hcell]
        · rw [if_neg hrc, k3 r c]
          by_cases hq : (r : Int) - x < i ∨ ((r : Int) - x = i ∧ (c : Int) - y < j)
          · rw [if_pos hq, if_pos (by omega)]
          · rw [if_neg hq, if_neg (by omega)]
    · rintro st2 ⟨k1, k2, k3⟩
      refine ⟨k1, k2, ?_⟩
      intro r c
      rw [k3 r c]
      by_cases hq : (r : Int) - x < i ∨ ((r : Int) - x = i ∧ (c : Int) - y < (0 + prow.length : Nat))
      · rw [if_pos hq, if_pos (by omega)]
      · rw [if_neg hq]
        by_cases hq2 : (r : Int) - x < (i + 1 : Nat)
        · rw [if_pos hq2,
            stamped_old _ _ _ _ _ _ (patAt_none_right _ _ _ _ _ i prow (by omega) hprow (by omega))]
        · rw [if_neg hq2]
  · rintro st ⟨h1, h2, h3⟩
    refine ⟨h1, h2, ?_⟩
    intro r c
    rw [h3 r c]
    by_cases hq : (r : Int) - x < (0 + pattern.length : Nat)
    · rw [if_pos hq]
    · rw [if_neg hq, stamped_old _ _ _ _ _ _ (patAt_none_below _ _ _ _ _ (by omega))]

theorem inGrid_of_targetsInside (g : Game) (hwf : g.WellFormed) (pattern : Pattern)
    (x y : Int) (hin : TargetsInside g pattern x y) (i j : Nat) (v : Bool)
    (hcell : cell pattern i j = some v) : InGrid g.state (x + i) (y + j) := by
  obtain ⟨prow, hprow, hv⟩ := cell_some pattern i j v hcell
  have hi := lt_of_get_some _ _ _ hprow
  have hj := lt_of_get_some _ _ _ hv
  have hget : pattern.getD i [] = prow := by
    rw [List.getD_eq_getElem?_getD, hprow]
    rfl
  have h := hin i hi j (by rw [hget]; exact hj)
  obtain ⟨hh, hw⟩ := hwf
  unfold len at hh
  obtain ⟨row, hrow⟩ := get_some_of_lt g.state (x + i).toNat (by omega)
  have hlen := hw row (List.getElem?_mem hrow)
  unfold len at hlen
  exact ⟨h.1, h.2.2.1, row, hrow, by omega⟩

theorem wellFormed_of_rowLen (g : Game) (hwf : g.WellFormed) (st : State)
    (h1 : st.length = g.state.length) (h2 : ∀ r, rowLen st r = rowLen g.state r) :
    Game.WellFormed { g with state := st } := by
  obtain ⟨hh, hw⟩ := hwf
  refine ⟨by unfold len at *; simp only; omega, ?_⟩
  intro row hmem
  obtain ⟨r, hr⟩ := List.mem_iff_getElem?.mp hmem
  have h := h2 r
  unfold rowLen at h
  simp only at hr
  rw [hr] at h
  cases hq : g.state[r]? with
  | none => rw [hq] at h; exact Option.noConfusion h
  | some row0 =>
    rw [hq] at h
    have hl := hw row0 (List.getElem?_mem hq)
    have e : row.length = row0.length := Option.some.inj h
    unfold len at *
    simp only
    omega

theorem Add_nil (g : Game) (x y : Int) : Add g [] x y = .ok g := rfl

/-- C4: on a grid, when every target cell `(x+i, y+j)` of the shape lies inside the grid,
`Add(shape, x, y)` returns; afterwards each target cell holds exactly `shape[i][j]`, every
cell that is not a target keeps its value, the grid keeps its dimensions and glyphs, and
adding the empty shape changes nothing. -/
theorem Add_overwrites (g : Game) (hwf : g.WellFormed) (hf : g.Fits) (pattern : Pattern)
    (x y : Int) (hin : TargetsInside g pattern x y) :
    ∃ g', Add g pattern x y = .ok g' ∧
      g'.width = g.width ∧ g'.height = g.height ∧ g'.life = g.life ∧ g'.nolife = g.nolife ∧
      g'.WellFormed ∧
      (∀ i j v, cell pattern i j = some v →
        cell g'.state (x + i).toNat (y + j).toNat = some v) ∧
      (∀ r c : Nat, (∀ i j v, cell pattern i j = some v → ¬ (x + i = r ∧ y + j = c)) →
        cell g'.state r c = cell g.state r c) ∧
      Add g [] x y = .ok g := by
  obtain ⟨st, hadd, h1, h2, h3⟩ := Add_stamps g hf pattern x y
    (inGrid_of_targetsInside g hwf pattern x y hin)
  refine ⟨{ g with state := st }, hadd, rfl, rfl, rfl, rfl,
    wellFormed_of_rowLen g hwf st h1 h2, ?_, ?_, Add_nil g x y⟩
  · intro i j v hcell
    obtain ⟨hr0, hc0, -⟩ := inGrid_of_targetsInside g hwf pattern x y hin i j v hcell
    show cell st _ _ = _
    rw [h3]
    unfold stampedCell
    rw [patAt_target pattern x y _ _ i j (Int.toNat_of_nonneg hr0) (Int.toNat_of_nonneg hc0),
      hcell]
  · intro r c hno
    show cell st _ _ = _
    rw [h3]
    apply stamped_old
    cases hp : patAt pattern x y r c with
    | none => rfl
    | some v =>
      exfalso
      unfold patAt at hp
      by_cases hxy : x ≤ r ∧ y ≤ c
      · rw [if_pos hxy] at hp
        exact hno _ _ v hp ⟨by omega, by omega⟩
      · rw [if_neg hxy] at hp
        exact Option.noConfusion hp

theorem Add_overwrites_witness :
    demoGame.WellFormed ∧ demoGame.Fits ∧ TargetsInside demoGame [[false], [true]] 0 1 ∧
      ∃ g', Add demoGame [[false], [true]] 0 1 = .ok g' ∧
        g'.width = demoGame.width ∧ g'.height = demoGame.height ∧
        g'.life = demoGame.life ∧ g'.nolife = demoGame.nolife ∧ g'.WellFormed ∧
        (∀ i j v, cell [[false], [true]] i j = some v →
          cell g'.state ((0 : Int) + i).toNat ((1 : Int) + j).toNat = some v) ∧
        (∀ r c : Nat, (∀ i j v, cell [[false], [true]] i j = some v →
            ¬ ((0 : Int) + i = r ∧ (1 : Int) + j = c)) →
          cell g'.state r c = cell demoGame.state r c) ∧
        Add demoGame [] 0 1 = .ok demoGame :=
  ⟨by decide, by decide, by decide,
    Add_overwrites demoGame (by decide) (by decide) [[false], [true]] 0 1 (by decide)⟩

theorem loopFrom_cases {σ : Type} (Inv : Nat → σ → Prop) (E : Fault)
    (body : Int → σ → Except Fault σ) :
    ∀ (n start : Nat) (s : σ), Inv start s →
      (∀ k s, start ≤ k → k < start + n → Inv k s →
        (∃ s', body (k : Int) s = .ok s' ∧ Inv (k + 1) s') ∨ body (k : Int) s = .error E) →
      (∃ s', loopFrom body start n s = .ok s' ∧ Inv (start + n) s') ∨
        loopFrom body start n s = .error E := by
  intro n
  induction n with
  | zero => intro start s h0 _; exact Or.inl ⟨s, rfl, h0⟩
  | succ n ih =>
    intro start s h0 hstep
    rcases hstep start s (le_refl _) (by omega) h0 with ⟨s1, hb, h1⟩ | hb
    · rcases ih (start + 1) s1 h1 (fun k s hk1 hk2 hi => hstep k s (by omega) (by omega) hi)
        with ⟨s2, hl, h2⟩ | hl
      · left
        refine ⟨s2, by rw [loopFrom, hb]; exact hl, ?_⟩
        have e : start + (n + 1) = start + 1 + n := by omega
        rw [e]; exact h2
      · right
        rw [loopFrom, hb]; exact hl
    · right
      rw [loopFrom, hb]

theorem loopFrom_fail {σ : Type} (Inv : Nat → σ → Prop) (E : Fault)
    (body : Int → σ → Except Fault σ) :
    ∀ (n start : Nat) (s : σ), Inv start s →
      (∀ k s, start ≤ k → k < start + n → Inv k s →
        (∃ s', body (k : Int) s = .ok s' ∧ Inv (k + 1) s') ∨ body (k : Int) s = .error E) →
      (∃ k, start ≤ k ∧ k < start + n ∧ ∀ s, Inv k s → body (k : Int) s = .error E) →
      loopFrom body start n s = .error E := by
  intro n
  induction n with
  | zero => rintro start s - - ⟨k, h1, h2, -⟩; omega
  | succ n ih =>
    rintro start s h0 hstep ⟨k, hk1, hk2, hbad⟩
    rcases hstep start s (le_refl _) (by omega) h0 with ⟨s1, hb, h1⟩ | hb
    · rw [loopFrom, hb]
      apply ih (start + 1) s1 h1 (fun k s hk1 hk2 hi => hstep k s (by omega) (by omega) hi)
      refine ⟨k, ?_, by omega, hbad⟩
      by_contra hlt
      have hks : k = start := by omega
      subst hks
      rw [hbad s h0] at hb
      exact Except.noConfusion hb
    · rw [loopFrom, hb]

theorem Add_fails (g : Game) (hwf : g.WellFormed) (hf : g.Fits) (pattern : Pattern)
    (hp : SlicesFit pattern) (x y : Int) (hx : InInt x) (hy : InInt y)
    (hout : ¬ TargetsInside g pattern x y) :
    Add g pattern x y = .error .indexOutOfRange := by
  unfold TargetsInside at hout
  simp only [not_forall, exists_prop] at hout
  obtain ⟨i0, hi0, j0, hj0, hbad⟩ := hout
  obtain ⟨prow0, hprow0⟩ := get_some_of_lt pattern i0 hi0
  have hget : pattern.getD i0 [] = prow0 := by
    rw [List.getD_eq_getElem?_getD, hprow0]
    rfl
  rw [hget] at hj0
  obtain ⟨hh, hw⟩ := hwf
  have hf1 := fits_len _ hf
  have hp1 := fits_len _ hp
  unfold len at hh hf1 hp1
  -- one store, on a state with the dimensions of the grid
  have store : ∀ (i j : Nat) (prow : List Bool) (v : Bool) (st : State),
      pattern[i]? = some prow → j < prow.length →
      (st.length = g.state.length ∧ ∀ r, rowLen st r = rowLen g.state r) →
      ((∃ st', setCell st (wrap (x + i)) (wrap (y + j)) v = .ok st' ∧
          (st'.length = g.state.length ∧ ∀ r, rowLen st' r = rowLen g.state r)) ∨
        setCell st (wrap (x + i)) (wrap (y + j)) v = .error .indexOutOfRange) ∧
      (¬ (0 ≤ x + i ∧ x + i < g.height ∧ 0 ≤ y + j ∧ y + j < g.width) →
        setCell st (wrap (x + i)) (wrap (y + j)) v = .error .indexOutOfRange) := by
    intro i j prow v st hprow hj ⟨d1, d2⟩
    have hi := lt_of_get_some _ _ _ hprow
    have hp2 := fits_row _ hp prow (List.getElem?_mem hprow)
    unfold len at hp2
    by_cases hg : 0 ≤ wrap (x + i) ∧ 0 ≤ wrap (y + j) ∧
        ∃ row, st[(wrap (x + i)).toNat]? = some row ∧ (wrap (y + j)).toNat < row.length
    · obtain ⟨hr0, hc0, row, hrow, hcl⟩ := hg
      have hrl := lt_of_get_some _ _ _ hrow
      have hlen : rowLen g.state (wrap (x + i)).toNat = some row.length := by
        rw [← d2]; unfold rowLen; rw [hrow]
      obtain ⟨row0, hrow0, hrl0⟩ : ∃ row0, g.state[(wrap (x + i)).toNat]? = some row0 ∧
          row0.length = row.length := by
        unfold rowLen at hlen
        cases hq : g.state[(wrap (x + i)).toNat]? with
        | none => rw [hq] at hlen; exact Option.noConfusion hlen
        | some row0 =>
          rw [hq] at hlen
          exact ⟨row0, rfl, Option.some.inj hlen⟩
      have hwd := hw row0 (List.getElem?_mem hrow0)
      have hfw := fits_row _ hf row0 (List.getElem?_mem hrow0)
      unfold len at hwd hfw
      constructor
      · left
        refine ⟨_, setCell_in st _ _ v row hr0 hc0 hrow hcl, by simp [d1], ?_⟩
        intro r
        rw [set_rowLen _ _ _ _ _ hrow, d2]
      · intro hnot
        exfalso
        apply hnot
        unfold InInt minInt maxInt at *
        unfold wrap at hr0 hc0 hrl hcl
        omega
    · have herr := setCell_out st _ _ v hg
      exact ⟨Or.inr herr, fun _ => herr⟩
  -- the inner loop over a row of the shape
  have inner : ∀ (i : Nat) (prow : List Bool) (st : State), pattern[i]? = some prow →
      (st.length = g.state.length ∧ ∀ r, rowLen st r = rowLen g.state r) →
      ∀ body : Int → State → Except Fault State,
        (body = fun (j : Int) (state : State) =>
          index prow j >>= fun v => setCell state (wrap (x + i)) (wrap (y + j)) v) →
      ((∃ st', loopFrom body 0 prow.length st = .ok st' ∧
          (st'.length = g.state.length ∧ ∀ r, rowLen st' r = rowLen g.state r)) ∨
        loopFrom body 0 prow.length st = .error .indexOutOfRange) ∧
      ((∃ j, j < prow.length ∧
          ¬ (0 ≤ x + i ∧ x + i < g.height ∧ 0 ≤ y + j ∧ y + j < g.width)) →
        loopFrom body 0 prow.length st = .error .indexOutOfRange) := by
    intro i prow st hprow hd body hbody
    subst hbody
    have hstep : ∀ (k : Nat) (s : State), 0 ≤ k → k < 0 + prow.length →
        (s.length = g.state.length ∧ ∀ r, rowLen s r = rowLen g.state r) →
        (∃ s', (index prow (k : Int) >>= fun v =>
            setCell s (wrap (x + i)) (wrap (y + k)) v) = .ok s' ∧
          (s'.length = g.state.length ∧ ∀ r, rowLen s' r = rowLen g.state r)) ∨
        (index prow (k : Int) >>= fun v =>
            setCell s (wrap (x + i)) (wrap (y + k)) v) = .error .indexOutOfRange := by
      intro k s _ hk hs
      obtain ⟨v, hv⟩ := get_some_of_lt prow k (by omega)
      rw [index_nat _ k v hv, bind_ok]
      exact (store i k prow v s hprow (by omega) hs).1
    constructor
    · exact loopFrom_cases (fun _ s => s.length = g.state.length ∧
        ∀ r, rowLen s r = rowLen g.state r) .indexOutOfRange
        (fun (j : Int) (state : State) =>
          index prow j >>= fun v => setCell state (wrap (x + i)) (wrap (y + j)) v)
        prow.length 0 st hd hstep
    · rintro ⟨j, hj, hnot⟩
      apply loopFrom_fail (fun _ s => s.length = g.state.length ∧
        ∀ r, rowLen s r = rowLen g.state r) .indexOutOfRange
        (fun (j : Int) (state : State) =>
          index prow j >>= fun v => setCell state (wrap (x + i)) (wrap (y + j)) v)
        prow.length 0 st hd hstep
      refine ⟨j, by omega, by omega, ?_⟩
      intro s hs
      obtain ⟨v, hv⟩ := get_some_of_lt prow j hj
      rw [index_nat _ j v hv, bind_ok]
      exact (store i j prow v s hprow hj hs).2 hnot
  unfold Add
  have houter : loopFrom (fun (i : Int) (state : State) =>
      index pattern i >>= fun prow =>
        loopFrom (fun (j : Int) (state : State) =>
          index prow j >>= fun v => setCell state (wrap (x + i)) (wrap (y + j)) v)
          0 prow.length state) 0 pattern.length g.state = .error .indexOutOfRange := by
    apply loopFrom_fail (fun _ s => s.length = g.state.length ∧
      ∀ r, rowLen s r = rowLen g.state r) .indexOutOfRange _ pattern.length 0 g.state
      ⟨rfl, fun _ => rfl⟩
    · intro k s _ hk hs
      obtain ⟨prow, hprow⟩ := get_some_of_lt pattern k (by omega)
      rw [index_nat _ k prow hprow, bind_ok]
      exact (inner k prow s hprow hs _ rfl).1
    · refine ⟨i0, by omega, by omega, ?_⟩
      intro s hs
      rw [index_nat _ i0 prow0 hprow0, bind_ok]
      exact (inner i0 prow0 s hprow0 hs _ rfl).2 ⟨j0, hj0, hbad⟩
  exact (congrArg (fun m => m >>= fun state => pure { g with state := state }) houter).trans rfl

/-- C10: on a grid, for a shape and int offsets `(x, y)`, `Add(shape, x, y)` stops with the
index-out-of-range panic exactly when some shape cell `(i, j)` has its target
`(x+i, y+j)` outside `[0, height) x [0, width)`, and returns (nothing is clipped) exactly
when every target is inside. -/
theorem Add_fails_iff (g : Game) (hwf : g.WellFormed) (hf : g.Fits) (pattern : Pattern)
    (hp : SlicesFit pattern) (x y : Int) (hx : InInt x) (hy : InInt y) :
    (Add g pattern x y = .error .indexOutOfRange ↔ ¬ TargetsInside g pattern x y) ∧
      ((∃ g', Add g pattern x y = .ok g') ↔ TargetsInside g pattern x y) := by
  have hok : TargetsInside g pattern x y → ∃ g', Add g pattern x y = .ok g' := by
    intro hin
    obtain ⟨st, hadd, -⟩ := Add_stamps g hf pattern x y
      (inGrid_of_targetsInside g hwf pattern x y hin)
    exact ⟨_, hadd⟩
  constructor
  · constructor
    · intro herr hin
      obtain ⟨g', hg'⟩ := hok hin
      rw [hg'] at herr
      exact Except.noConfusion herr
    · exact Add_fails g hwf hf pattern hp x y hx hy
  · constructor
    · rintro ⟨g', hg'⟩
      by_contra hout
      rw [Add_fails g hwf hf pattern hp x y hx hy hout] at hg'
      exact Except.noConfusion hg'
    · exact hok

theorem Add_fails_iff_witness :
    demoGame.WellFormed ∧ demoGame.Fits ∧ SlicesFit [[true], [true], [true]] ∧ InInt 0 ∧
      InInt 1 ∧
      ((Add demoGame [[true], [true], [true]] 0 1 = .error .indexOutOfRange ↔
          ¬ TargetsInside demoGame [[true], [true], [true]] 0 1) ∧
        ((∃ g', Add demoGame [[true], [true], [true]] 0 1 = .ok g') ↔
          TargetsInside demoGame [[true], [true], [true]] 0 1)) :=
  ⟨by decide, by decide, by decide, by decide, by decide,
    Add_fails_iff demoGame (by decide) (by decide) [[true], [true], [true]] (by decide) 0 1
      (by decide) (by decide)⟩

theorem make_ok {α : Type} (size n : Int) (z : α) (h : 0 ≤ n) (hm : size * n ≤ maxAlloc) :
    make size n z = .ok (List.replicate n.toNat z) := by
  unfold make
  rw [if_neg (by omega)]

theorem make_panic {α : Type} (size n : Int) (z : α) (h : n < 0 ∨ maxAlloc < size * n) :
    make size n z = .error .makesliceLen := by
  unfold make
  rw [if_pos h]

theorem NewGame_rows (width : Int) (hw : 0 ≤ width) (hwm : boolSize * width ≤ maxAlloc)
    (n : Nat) :
    loopFrom (fun (i : Int) (state : List (List Bool)) =>
        make boolSize width false >>= fun row => assign state i row) 0 n
        (List.replicate n []) =
      .ok (List.replicate n (List.replicate width.toNat false)) := by
  apply loopFrom_eq (fun i st => st.length = n ∧
    ∀ r, r < i → st[r]? = some (List.replicate width.toNat false))
  · exact ⟨by simp, by intro r hr; omega⟩
  · rintro k s - hk ⟨h1, h2⟩
    rw [make_ok boolSize width false hw hwm, bind_ok, assign_nat s k _ (by omega)]
    refine ⟨_, rfl, by simp [h1], ?_⟩
    intro r hr
    by_cases hrk : r = k
    · subst hrk
      rw [List.getElem?_set_self (by omega)]
    · rw [List.getElem?_set_ne (by omega)]
      exact h2 r (by omega)
  · rintro s ⟨h1, h2⟩
    apply List.ext_getElem?
    intro r
    by_cases hr : r < n
    · rw [h2 r (by omega), List.getElem?_replicate_of_lt hr]
    · rw [List.getElem?_eq_none (by omega), List.getElem?_eq_none (by simp; omega)]

theorem NewGame_ok (width height : Int) (life nolife : String) (hh : 0 ≤ height)
    (hhm : sliceSize * height ≤ maxAlloc)
    (hw : (0 ≤ width ∧ boolSize * width ≤ maxAlloc) ∨ height = 0) :
    NewGame width height life nolife =
      .ok { state := List.replicate height.toNat (List.replicate width.toNat false),
            width := width, height := height, life := life, nolife := nolife } := by
  unfold NewGame
  rw [make_ok sliceSize height _ hh hhm, bind_ok, List.length_replicate]
  rcases hw with ⟨hw, hwm⟩ | hz
  · rw [NewGame_rows width hw hwm, bind_ok]
    rfl
  · subst hz
    rfl

theorem NewGame_panics (width height : Int) (life nolife : String)
    (h : (height < 0 ∨ maxAlloc < sliceSize * height) ∨
      (0 < height ∧ (width < 0 ∨ maxAlloc < boolSize * width))) :
    NewGame width height life nolife = .error .makesliceLen := by
  unfold NewGame
  by_cases h1 : height < 0 ∨ maxAlloc < sliceSize * height
  · rw [make_panic sliceSize height _ h1]
    rfl
  · rcases h with h | ⟨hh, hw⟩
    · exact absurd h h1
    · rw [make_ok sliceSize height _ (by omega) (by omega), bind_ok, List.length_replicate]
      obtain ⟨n, hn⟩ : ∃ n, height.toNat = n + 1 := ⟨height.toNat - 1, by omega⟩
      rw [hn, loopFrom, make_panic boolSize width false hw]
      rfl

/-- C8 (amended): for positive `width` and `height` within the limit of `make` (`width`
bytes and `24 * height` bytes at most `maxAlloc`), `NewGame(width, height, life, nolife)`
returns a game whose state has exactly `height` rows of exactly `width` cells, every cell
dead, and whose `width`, `height`, `life` and `nolife` are the arguments; for positive
dimensions beyond that limit it stops with the panic of `make`. -/
theorem NewGame_all_dead (width height : Int) (life nolife : String) (hw : 0 < width)
    (hh : 0 < height) :
    (boolSize * width ≤ maxAlloc → sliceSize * height ≤ maxAlloc →
      ∃ g, NewGame width height life nolife = .ok g ∧
        len g.state = height ∧ (∀ row ∈ g.state, len row = width ∧ ∀ b ∈ row, b = false) ∧
        g.width = width ∧ g.height = height ∧ g.life = life ∧ g.nolife = nolife) ∧
      (maxAlloc < boolSize * width ∨ maxAlloc < sliceSize * height →
        NewGame width height life nolife = .error .makesliceLen) := by
  constructor
  · intro hwm hhm
    refine ⟨_, NewGame_ok width height life nolife (by omega) hhm (Or.inl ⟨by omega, hwm⟩),
      ?_, ?_, rfl, rfl, rfl, rfl⟩
    · unfold len
      simp only [List.length_replicate]
      omega
    · intro row hrow
      obtain ⟨-, rfl⟩ := List.mem_replicate.mp hrow
      refine ⟨?_, ?_⟩
      · unfold len
        simp only [List.length_replicate]
        omega
      · intro b hb
        exact (List.mem_replicate.mp hb).2
  · intro hbig
    apply NewGame_panics
    rcases hbig with h | h
    · exact Or.inr ⟨hh, Or.inr h⟩
    · exact Or.inl (Or.inr h)

theorem NewGame_all_dead_witness :
    (0 : Int) < 3 ∧ (0 : Int) < 2 ∧ boolSize * 3 ≤ maxAlloc ∧ sliceSize * 2 ≤ maxAlloc ∧
      ∃ g, NewGame 3 2 "*" "-" = .ok g ∧
        len g.state = 2 ∧ (∀ row ∈ g.state, len row = 3 ∧ ∀ b ∈ row, b = false) ∧
        g.width = 3 ∧ g.height = 2 ∧ g.life = "*" ∧ g.nolife = "-" :=
  ⟨by decide, by decide, by decide, by decide,
    (NewGame_all_dead 3 2 "*" "-" (by decide) (by decide)).1 (by decide) (by decide)⟩

/-- C8 fails as stated: with the positive dimensions `width = 1 << 62` and `height = 1` the
row asked of `make` is beyond the limit of the allocator, and `NewGame` stops with
`makeslice: len out of range` instead of returning a game. -/
theorem NewGame_huge_panics :
    (0 : Int) < 4611686018427387904 ∧ (0 : Int) < 1 ∧
      NewGame 4611686018427387904 1 "*" "-" = .error .makesliceLen := by
  decide

/-- C9 (amended): `NewGame` has no dimension check and no `InvalidDimension` error. When
`width <= 0` or `height <= 0` it stops with the panic of `make` exactly when `height < 0`,
or `height > 0` and `width < 0` or `height` is beyond the limit of `make`; otherwise (when
`height = 0`, or `width = 0` and `height` is positive and within the limit) it returns a
game of `height` empty rows that records the arguments. -/
theorem NewGame_panics_iff (width height : Int) (life nolife : String)
    (hregion : width ≤ 0 ∨ height ≤ 0) :
    (NewGame width height life nolife = .error .makesliceLen ↔
        height < 0 ∨ (0 < height ∧ (width < 0 ∨ maxAlloc < sliceSize * height))) ∧
      (¬ (height < 0 ∨ (0 < height ∧ (width < 0 ∨ maxAlloc < sliceSize * height))) →
        NewGame width height life nolife =
          .ok { state := List.replicate height.toNat [],
                width := width, height := height, life := life, nolife := nolife }) := by
  have hgood : ¬ (height < 0 ∨ (0 < height ∧ (width < 0 ∨ maxAlloc < sliceSize * height))) →
      NewGame width height life nolife =
        .ok { state := List.replicate height.toNat [],
              width := width, height := height, life := life, nolife := nolife } := by
    intro h
    by_cases hz : height = 0
    · subst hz
      exact NewGame_ok width 0 life nolife (le_refl _) (by decide) (Or.inr rfl)
    · have hw0 : width = 0 := by omega
      subst hw0
      exact NewGame_ok 0 height life nolife (by omega) (by omega)
        (Or.inl ⟨le_refl _, by decide⟩)
  refine ⟨⟨?_, ?_⟩, hgood⟩
  · intro herr
    by_contra h
    rw [hgood h] at herr
    exact Except.noConfusion herr
  · intro h
    apply NewGame_panics
    rcases h with h | ⟨hh, h | h⟩
    · exact Or.inl (Or.inl h)
    · exact Or.inr ⟨hh, Or.inl h⟩
    · exact Or.inl (Or.inr h)

theorem NewGame_panics_iff_witness :
    ((3 : Int) ≤ 0 ∨ (0 : Int) ≤ 0) ∧
      ¬ ((0 : Int) < 0 ∨ ((0 : Int) < 0 ∧ ((3 : Int) < 0 ∨ maxAlloc < sliceSize * 0))) ∧
      NewGame 3 0 "*" "-" =
        .ok { state := List.replicate (0 : Int).toNat [],
              width := 3, height := 0, life := "*", nolife := "-" } :=
  ⟨by decide, by decide, (NewGame_panics_iff 3 0 "*" "-" (by decide)).2 (by decide)⟩

/-- C9 fails as stated: with `width = 0` and `height = 0` `NewGame` returns a game, and the
program has no `InvalidDimension` error. -/
theorem NewGame_zero_returns :
    NewGame 0 0 "*" "-" =
      .ok { state := [], width := 0, height := 0, life := "*", nolife := "-" } := by
  decide

theorem Rotate_90 (arr : List (List Bool)) : Rotate arr 90 = quarterTurn arr := by
  rw [Rotate]
  cases quarterTurn arr <;> rfl

theorem Rotate_180 (arr : List (List Bool)) :
    Rotate arr 180 = quarterTurn arr >>= fun r => quarterTurn r := by
  rw [Rotate]
  cases quarterTurn arr with
  | error e => rfl
  | ok r =>
    rw [bind_ok, bind_ok, if_neg (by decide), dif_pos rfl, Rotate_90]

theorem Rotate_270 (arr : List (List Bool)) :
    Rotate arr 270 = quarterTurn arr >>= fun r => quarterTurn r >>= fun r => quarterTurn r := by
  rw [Rotate]
  cases quarterTurn arr with
  | error e => rfl
  | ok r =>
    rw [bind_ok, bind_ok, if_neg (by decide), dif_neg (by decide), dif_pos rfl, Rotate_180]

theorem Rotate_other (arr : List (List Bool)) (degrees : Int) (h90 : degrees ≠ 90)
    (h180 : degrees ≠ 180) (h270 : degrees ≠ 270) :
    Rotate arr degrees = quarterTurn arr >>= fun _ => pure arr := by
  rw [Rotate]
  cases quarterTurn arr with
  | error e => rfl
  | ok r =>
    rw [bind_ok, bind_ok, if_neg h90, dif_neg h180, dif_neg h270]

theorem blank_row (n : Nat) :
    loopFrom (fun (_ : Int) (row : List Bool) => (pure (row ++ [false]) : Except Fault _))
      0 n [] = .ok (List.replicate n false) := by
  apply loopFrom_eq (fun k row => row = List.replicate k false)
  · rfl
  · rintro k s - - rfl
    exact ⟨_, rfl, by rw [List.replicate_succ']⟩
  · rintro s h
    rw [h, Nat.zero_add]

theorem blank_grid (R C : Nat) :
    loopFrom (fun (_ : Int) (rotated : List (List Bool)) =>
        loopFrom (fun (_ : Int) (row : List Bool) =>
          (pure (row ++ [false]) : Except Fault _)) 0 R [] >>= fun row =>
            pure (rotated ++ [row])) 0 C [] =
      .ok (List.replicate C (List.replicate R false)) := by
  apply loopFrom_eq (fun k t => t = List.replicate k (List.replicate R false))
  · rfl
  · rintro k s - - rfl
    rw [blank_row, bind_ok]
    exact ⟨_, rfl, by rw [List.replicate_succ']⟩
  · rintro s h
    rw [h, Nat.zero_add]

theorem dense_row (R C : Nat) (s : List (List Bool)) (h : Dense R C s) (i : Nat)
    (hi : i < R) : ∃ row, s[i]? = some row ∧ row.length = C := by
  obtain ⟨row, hrow⟩ := get_some_of_lt s i (by rw [h.1]; exact hi)
  exact ⟨row, hrow, h.2 row (List.getElem?_mem hrow)⟩

theorem quarterTurn_spec (R C : Nat) (s : List (List Bool)) (hd : Dense R C s)
    (hR : 1 ≤ R) :
    ∃ t, quarterTurn s = .ok t ∧ Dense C R t ∧
      ∀ i j, i < R → j < C → cell t j (R - 1 - i) = cell s i j := by
  obtain ⟨first, hfirst, hfl⟩ := dense_row R C s hd 0 (by omega)
  have hlen : s.length = R := hd.1
  unfold quarterTurn
  have e0 : index s 0 = .ok first := index_nat s 0 first hfirst
  simp only [e0, bind_ok, len, Int.toNat_ofNat, hlen, hfl, blank_grid]
  apply loopFrom_post
    (fun i t => t.length = C ∧ (∀ r, r < C → rowLen t r = some R) ∧
      ∀ i' j, i' < i → j < C → cell t j (R - 1 - i') = cell s i' j)
  · refine ⟨by simp, ?_, ?_⟩
    · intro r hr
      unfold rowLen
      rw [List.getElem?_replicate_of_lt hr]
      simp
    · intro i' j hi'; omega
  · rintro i t - hi ⟨h1, h2, h3⟩
    obtain ⟨arow, harow, harl⟩ := dense_row R C s hd i (by omega)
    apply loopFrom_post
      (fun j t => t.length = C ∧ (∀ r, r < C → rowLen t r = some R) ∧
        (∀ i' j', i' < i → j' < C → cell t j' (R - 1 - i') = cell s i' j') ∧
        ∀ j', j' < j → cell t j' (R - 1 - i) = cell s i j')
    · exact ⟨h1, h2, h3, by intro j' hj'; omega⟩
    · rintro j t2 - hj ⟨k1, k2, k3, k4⟩
      obtain ⟨v, hv⟩ := get_some_of_lt arow j (by omega)
      have hrl := k2 j (by omega)
      obtain ⟨trow, htrow, htl⟩ : ∃ trow, t2[j]? = some trow ∧ trow.length = R := by
        unfold rowLen at hrl
        cases hq : t2[j]? with
        | none => rw [hq] at hrl; exact Option.noConfusion hrl
        | some trow =>
          rw [hq] at hrl
          exact ⟨trow, rfl, Option.some.inj hrl⟩
      have e : (R : Int) - 1 - (i : Int) = ((R - 1 - i : Nat) : Int) := by omega
      rw [index_nat s i arow harow, bind_ok, index_nat arow j v hv, bind_ok, e,
        setCell_nat t2 j (R - 1 - i) v trow htrow (by omega)]
      refine ⟨_, rfl, by simp [k1], ?_, ?_, ?_⟩
      · intro r hr
        rw [set_rowLen _ _ _ _ _ htrow]
        exact k2 r hr
      · intro i' j' hi' hj'
        rw [set_cell _ _ _ _ _ htrow (by omega), if_neg (by omega)]
        exact k3 i' j' hi' hj'
      · intro j' hj'
        rw [set_cell _ _ _ _ _ htrow (by omega)]
        by_cases hjj : j' = j
        · subst hjj
          rw [if_pos ⟨rfl, rfl⟩, cell_of_row s i j' arow harow, hv]
        · rw [if_neg (by omega)]
          exact k4 j' (by omega)
    · rintro t2 ⟨k1, k2, k3, k4⟩
      refine ⟨k1, k2, ?_⟩
      intro i' j hi' hj
      by_cases hii : i' = i
      · subst hii
        exact k4 j (by omega)
      · exact k3 i' j (by omega) hj
  · rintro t ⟨h1, h2, h3⟩
    refine ⟨⟨h1, ?_⟩, ?_⟩
    · intro row hrow
      obtain ⟨r, hr⟩ := List.mem_iff_getElem?.mp hrow
      have hrc := lt_of_get_some _ _ _ hr
      have := h2 r (by omega)
      unfold rowLen at this
      rw [hr] at this
      exact Option.some.inj this
    · intro i j hi hj
      exact h3 i j (by omega) hj

theorem dense_cell (R C : Nat) (s : List (List Bool)) (h : Dense R C s) (i j : Nat)
    (hi : i < R) (hj : j < C) : ∃ v, cell s i j = some v := by
  obtain ⟨row, hrow, hl⟩ := dense_row R C s h i hi
  obtain ⟨v, hv⟩ := get_some_of_lt row j (by omega)
  exact ⟨v, by rw [cell_of_row s i j row hrow, hv]⟩

theorem dense_ext (R C : Nat) (s t : List (List Bool)) (hs : Dense R C s) (ht : Dense R C t)
    (h : ∀ i j, i < R → j < C → cell t i j = cell s i j) : t = s := by
  apply List.ext_getElem?
  intro i
  by_cases hi : i < R
  · obtain ⟨srow, hsrow, hsl⟩ := dense_row R C s hs i hi
    obtain ⟨trow, htrow, htl⟩ := dense_row R C t ht i hi
    rw [hsrow, htrow]
    congr 1
    apply List.ext_getElem?
    intro j
    by_cases hj : j < C
    · have := h i j hi hj
      rw [cell_of_row t i j trow htrow, cell_of_row s i j srow hsrow] at this
      exact this
    · rw [List.getElem?_eq_none (by omega), List.getElem?_eq_none (by omega)]
  · rw [List.getElem?_eq_none (by rw [ht.1]; omega),
      List.getElem?_eq_none (by rw [hs.1]; omega)]

theorem quarterTurn_four (R C : Nat) (s : List (List Bool)) (hd : Dense R C s) (hR : 1 ≤ R)
    (hC : 1 ≤ C) :
    ∃ t1 t2 t3, quarterTurn s = .ok t1 ∧ quarterTurn t1 = .ok t2 ∧ quarterTurn t2 = .ok t3 ∧
      quarterTurn t3 = .ok s := by
  obtain ⟨t1, e1, d1, c1⟩ := quarterTurn_spec R C s hd hR
  obtain ⟨t2, e2, d2, c2⟩ := quarterTurn_spec C R t1 d1 hC
  obtain ⟨t3, e3, d3, c3⟩ := quarterTurn_spec R C t2 d2 hR
  obtain ⟨t4, e4, d4, c4⟩ := quarterTurn_spec C R t3 d3 hC
  refine ⟨t1, t2, t3, e1, e2, e3, ?_⟩
  rw [e4]
  congr 1
  apply dense_ext R C s t4 hd d4
  intro i j hi hj
  have h4 := c4 (C - 1 - j) i (by omega) hi
  rw [show C - 1 - (C - 1 - j) = j by omega] at h4
  have h3 := c3 (R - 1 - i) (C - 1 - j) (by omega) (by omega)
  rw [show R - 1 - (R - 1 - i) = i by omega] at h3
  have h2 := c2 j (R - 1 - i) hj (by omega)
  have h1 := c1 i j hi hj
  rw [h4, h3, h2, h1]

/-- C5: for a dense rectangular shape of `R >= 1` rows and `C >= 1` columns,
`Rotate(shape, 90)` returns a shape of exactly `C` rows of exactly `R` cells each, with
`rotated[j][R-1-i]` equal to `shape[i][j]` for all `i < R`, `j < C`. -/
theorem Rotate_90_cells (R C : Nat) (shape : List (List Bool)) (hd : Dense R C shape)
    (hR : 1 ≤ R) (_hC : 1 ≤ C) :
    ∃ rotated, Rotate shape 90 = .ok rotated ∧ rotated.length = C ∧
      (∀ row ∈ rotated, row.length = R) ∧
      ∀ i j, i < R → j < C →
        ∃ v, cell shape i j = some v ∧ cell rotated j (R - 1 - i) = some v := by
  obtain ⟨t, e, d, c⟩ := quarterTurn_spec R C shape hd hR
  refine ⟨t, by rw [Rotate_90, e], d.1, d.2, ?_⟩
  intro i j hi hj
  obtain ⟨v, hv⟩ := dense_cell R C shape hd i j hi hj
  exact ⟨v, hv, by rw [c i j hi hj, hv]⟩

theorem Rotate_90_cells_witness :
    Dense 2 3 [[true, false, false], [true, true, false]] ∧ 1 ≤ 2 ∧ 1 ≤ 3 ∧
      ∃ rotated, Rotate [[true, false, false], [true, true, false]] 90 = .ok rotated ∧
        rotated.length = 3 ∧ (∀ row ∈ rotated, row.length = 2) ∧
        ∀ i j, i < 2 → j < 3 →
          ∃ v, cell [[true, false, false], [true, true, false]] i j = some v ∧
            cell rotated j (2 - 1 - i) = some v :=
  ⟨by decide, by decide, by decide,
    Rotate_90_cells 2 3 [[true, false, false], [true, true, false]] (by decide) (by decide)
      (by decide)⟩

/-- C6: for a dense rectangular shape with at least one row and one column, four successive
`Rotate(., 90)` all return, and the fourth returns the original shape. -/
theorem Rotate_four_times (R C : Nat) (shape : List (List Bool)) (hd : Dense R C shape)
    (hR : 1 ≤ R) (hC : 1 ≤ C) :
    ∃ t1 t2 t3, Rotate shape 90 = .ok t1 ∧ Rotate t1 90 = .ok t2 ∧ Rotate t2 90 = .ok t3 ∧
      Rotate t3 90 = .ok shape := by
  obtain ⟨t1, t2, t3, e1, e2, e3, e4⟩ := quarterTurn_four R C shape hd hR hC
  exact ⟨t1, t2, t3, by rw [Rotate_90, e1], by rw [Rotate_90, e2], by rw [Rotate_90, e3],
    by rw [Rotate_90, e4]⟩

theorem Rotate_four_times_witness :
    Dense 2 3 [[true, false, false], [true, true, false]] ∧ 1 ≤ 2 ∧ 1 ≤ 3 ∧
      ∃ t1 t2 t3, Rotate [[true, false, false], [true, true, false]] 90 = .ok t1 ∧
        Rotate t1 90 = .ok t2 ∧ Rotate t2 90 = .ok t3 ∧
        Rotate t3 90 = .ok [[true, false, false], [true, true, false]] :=
  ⟨by decide, by decide, by decide,
    Rotate_four_times 2 3 [[true, false, false], [true, true, false]] (by decide) (by decide)
      (by decide)⟩

/-- C7: for a non-empty dense rectangular shape `s`, `Rotate(s, 0)` is `s`, `Rotate(s, 180)`
is `Rotate(Rotate(s, 90), 90)` and `Rotate(s, 270)` is `Rotate(Rotate(Rotate(s, 90), 90), 90)`,
all of them returning; and `Face` with "up", "right", "down", "left" sets the shape of the
builder to `Rotate` of it by 0, 90, 180 and 270 degrees. -/
theorem Rotate_degrees_and_Face (R C : Nat) (s : List (List Bool)) (hd : Dense R C s)
    (hR : 1 ≤ R) (hC : 1 ≤ C) :
    ∃ t1 t2 t3, Rotate s 90 = .ok t1 ∧ Rotate t1 90 = .ok t2 ∧ Rotate t2 90 = .ok t3 ∧
      Rotate s 0 = .ok s ∧ Rotate s 180 = .ok t2 ∧ Rotate s 270 = .ok t3 ∧
      PatternBuilder.Face { pattern := s } "up" = .ok { pattern := s } ∧
      PatternBuilder.Face { pattern := s } "right" = .ok { pattern := t1 } ∧
      PatternBuilder.Face { pattern := s } "down" = .ok { pattern := t2 } ∧
      PatternBuilder.Face { pattern := s } "left" = .ok { pattern := t3 } := by
  obtain ⟨t1, t2, t3, e1, e2, e3, -⟩ := quarterTurn_four R C s hd hR hC
  have r0 : Rotate s 0 = .ok s := by
    rw [Rotate_other s 0 (by decide) (by decide) (by decide), e1]
    rfl
  have r90 : Rotate s 90 = .ok t1 := by rw [Rotate_90, e1]
  have r180 : Rotate s 180 = .ok t2 := by rw [Rotate_180, e1, bind_ok, e2]
  have r270 : Rotate s 270 = .ok t3 := by rw [Rotate_270, e1, bind_ok, e2, bind_ok, e3]
  refine ⟨t1, t2, t3, r90, by rw [Rotate_90, e2], by rw [Rotate_90, e3], r0, r180, r270,
    ?_, ?_, ?_, ?_⟩
  · unfold PatternBuilder.Face
    rw [if_pos rfl, r0]
    rfl
  · unfold PatternBuilder.Face
    rw [if_neg (by decide), if_pos rfl, r90]
    rfl
  · unfold PatternBuilder.Face
    rw [if_neg (by decide), if_neg (by decide), if_pos rfl, r180]
    rfl
  · unfold PatternBuilder.Face
    rw [if_neg (by decide), if_neg (by decide), if_neg (by decide), if_pos rfl, r270]
    rfl

theorem Rotate_degrees_and_Face_witness :
    Dense 2 3 [[true, false, false], [true, true, false]] ∧ 1 ≤ 2 ∧ 1 ≤ 3 ∧
      ∃ t1 t2 t3, Rotate [[true, false, false], [true, true, false]] 90 = .ok t1 ∧
        Rotate t1 90 = .ok t2 ∧ Rotate t2 90 = .ok t3 ∧
        Rotate [[true, false, false], [true, true, false]] 0 =
          .ok [[true, false, false], [true, true, false]] ∧
        Rotate [[true, false, false], [true, true, false]] 180 = .ok t2 ∧
        Rotate [[true, false, false], [true, true, false]] 270 = .ok t3 ∧
        PatternBuilder.Face { pattern := [[true, false, false], [true, true, false]] } "up" =
          .ok { pattern := [[true, false, false], [true, true, false]] } ∧
        PatternBuilder.Face { pattern := [[true, false, false], [true, true, false]] }
          "right" = .ok { pattern := t1 } ∧
        PatternBuilder.Face { pattern := [[true, false, false], [true, true, false]] }
          "down" = .ok { pattern := t2 } ∧
        PatternBuilder.Face { pattern := [[true, false, false], [true, true, false]] }
          "left" = .ok { pattern := t3 } :=
  ⟨by decide, by decide, by decide,
    Rotate_degrees_and_Face 2 3 [[true, false, false], [true, true, false]] (by decide)
      (by decide) (by decide)⟩


/-- C11 (amended): for every builder and every name outside the catalog, `Type(name)` returns
and leaves the shape of the builder as it was, so `Build()` afterwards returns the shape
held before; it is the empty shape when the builder is new. -/
theorem Type_unknown_keeps (p : PatternBuilder) (name : String) (h : name ∉ catalog) :
    (p.«Type» name).Build = p.Build ∧ (NewPatternBuilder.«Type» name).Build = [] := by
  unfold catalog at h
  simp only [List.mem_cons, List.mem_singleton, List.mem_nil_iff, or_false, not_or] at h
  obtain ⟨h1, h2, h3, h4, h5, h6, h7⟩ := h
  have key : ∀ q : PatternBuilder, q.«Type» name = q := by
    intro q
    unfold PatternBuilder.«Type»
    rw [if_neg h1, if_neg h2, if_neg h3, if_neg h4, if_neg h5, if_neg h6, if_neg h7]
  rw [key p, key NewPatternBuilder]
  exact ⟨rfl, rfl⟩

theorem Type_unknown_keeps_witness :
    "square" ∉ catalog ∧
      ((PatternBuilder.«Type» { pattern := [[true]] } "square").Build =
          PatternBuilder.Build { pattern := [[true]] } ∧
        (NewPatternBuilder.«Type» "square").Build = []) :=
  ⟨by decide, Type_unknown_keeps { pattern := [[true]] } "square" (by decide)⟩

/-- C11 fails as stated: on a builder that holds the glider, `Type` with a name outside the
catalog leaves the glider in place, and `Build()` does not return the empty shape. -/
theorem Type_unknown_not_empty :
    "square" ∉ catalog ∧
      ((NewPatternBuilder.«Type» "glider").«Type» "square").Build =
        [[false, true, false], [false, false, true], [true, true, true]] ∧
      ((NewPatternBuilder.«Type» "glider").«Type» "square").Build ≠ [] := by
  decide

/-- C12: for each name of the catalog, whatever the builder held, `Type(name).Build()` is the
documented shape, a non-empty dense rectangle: glider 3x3, blinker 3x1, toad 2x4, beacon 4x4
(two live 2x2 blocks on the diagonal), pulsar 11x11 (the literal of the source: a cell is
alive exactly when one of its row and column, and not the other, is 3 or 7), oscillator 1x3,
spaceship 4x4; and for every name of the catalog two builders, whatever they held, build
the same shape. -/
theorem Type_catalog (p q : PatternBuilder) :
    (p.«Type» "glider").Build =
        [[false, true, false], [false, false, true], [true, true, true]] ∧
      (p.«Type» "blinker").Build = [[true], [true], [true]] ∧
      (p.«Type» "toad").Build = [[false, true, true, true], [true, true, true, false]] ∧
      ((p.«Type» "beacon").Build.length = 4 ∧
        ∀ i, i < 4 → ∀ j, j < 4 →
          cell (p.«Type» "beacon").Build i j =
            some (decide ((i < 2 ∧ j < 2) ∨ (2 ≤ i ∧ 2 ≤ j)))) ∧
      Dense 11 11 (p.«Type» "pulsar").Build ∧
      (p.«Type» "oscillator").Build = [[true, true, true]] ∧
      (p.«Type» "spaceship").Build =
        [[false, true, true, false], [true, false, false, true], [false, true, false, true],
          [false, false, true, true]] ∧
      Dense 3 3 (p.«Type» "glider").Build ∧ Dense 3 1 (p.«Type» "blinker").Build ∧
      Dense 2 4 (p.«Type» "toad").Build ∧ Dense 4 4 (p.«Type» "beacon").Build ∧
      Dense 1 3 (p.«Type» "oscillator").Build ∧ Dense 4 4 (p.«Type» "spaceship").Build ∧
      (p.«Type» "pulsar").Build =
        [[false, false, false, true, false, false, false, true, false, false, false],
          [false, false, false, true, false, false, false, true, false, false, false],
          [false, false, false, true, false, false, false, true, false, false, false],
          [true, true, true, false, true, true, true, false, true, true, true],
          [false, false, false, true, false, false, false, true, false, false, false],
          [false, false, false, true, false, false, false, true, false, false, false],
          [false, false, false, true, false, false, false, true, false, false, false],
          [true, true, true, false, true, true, true, false, true, true, true],
          [false, false, false, true, false, false, false, true, false, false, false],
          [false, false, false, true, false, false, false, true, false, false, false],
          [false, false, false, true, false, false, false, true, false, false, false]] ∧
      (∀ i, i < 11 → ∀ j, j < 11 →
        cell (p.«Type» "pulsar").Build i j =
          some (decide (((i = 3 ∨ i = 7) ∧ ¬ (j = 3 ∨ j = 7)) ∨
            (¬ (i = 3 ∨ i = 7) ∧ (j = 3 ∨ j = 7))))) ∧
      (∀ name ∈ catalog, (p.«Type» name).Build ≠ []) ∧
      ∀ name ∈ catalog, (p.«Type» name).Build = (q.«Type» name).Build := by
  refine ⟨rfl, rfl, rfl, ⟨rfl, ?_⟩, ?_, rfl, rfl, ?_, ?_, ?_, ?_, ?_, ?_, rfl, ?_, ?_, ?_⟩
  · have e : (p.«Type» "beacon").Build =
        [[true, true, false, false], [true, true, false, false],
          [false, false, true, true], [false, false, true, true]] := rfl
    rw [e]
    decide
  · exact (by decide : Dense 11 11 (PatternBuilder.«Type» { pattern := [] } "pulsar").Build)
  · exact (by decide : Dense 3 3 (PatternBuilder.«Type» { pattern := [] } "glider").Build)
  · exact (by decide : Dense 3 1 (PatternBuilder.«Type» { pattern := [] } "blinker").Build)
  · exact (by decide : Dense 2 4 (PatternBuilder.«Type» { pattern := [] } "toad").Build)
  · exact (by decide : Dense 4 4 (PatternBuilder.«Type» { pattern := [] } "beacon").Build)
  · exact (by decide : Dense 1 3 (PatternBuilder.«Type» { pattern := [] } "oscillator").Build)
  · exact (by decide : Dense 4 4 (PatternBuilder.«Type» { pattern := [] } "spaceship").Build)
  · exact (by decide : ∀ i, i < 11 → ∀ j, j < 11 →
      cell (PatternBuilder.«Type» { pattern := [] } "pulsar").Build i j =
        some (decide (((i = 3 ∨ i = 7) ∧ ¬ (j = 3 ∨ j = 7)) ∨
          (¬ (i = 3 ∨ i = 7) ∧ (j = 3 ∨ j = 7)))))
  · intro name hname
    simp only [catalog, List.mem_cons, List.mem_singleton, List.not_mem_nil, or_false] at hname
    rcases hname with h | h | h | h | h | h | h <;> subst h <;>
      exact List.cons_ne_nil _ _
  · intro name hname
    simp only [catalog, List.mem_cons, List.mem_singleton, List.not_mem_nil, or_false] at hname
    rcases hname with h | h | h | h | h | h | h <;> subst h <;> rfl

theorem join_snoc (l : List String) (s : String) :
    String.join (l ++ [s]) = String.join l ++ s := by
  apply String.ext
  simp [String.data_join]

theorem take_snoc {α : Type} (l : List α) (k : Nat) (v : α) (h : l[k]? = some v) :
    l.take (k + 1) = l.take k ++ [v] := by
  rw [List.take_succ, h]
  rfl

theorem String_eq (g : Game) :
    g.String = .ok (String.join (g.state.map (renderRow g))) := by
  unfold Game.String
  apply loopFrom_eq (fun i b => b = String.join ((g.state.take i).map (renderRow g)))
  · rfl
  · rintro i b - hi rfl
    obtain ⟨row, hrow⟩ := get_some_of_lt g.state i (by omega)
    simp only [index_nat _ i row hrow, bind_ok]
    have hin : loopFrom (fun (j : Int) (b : String) =>
        index row j >>= fun alive =>
          if alive = true then (pure (b ++ g.life) : Except Fault String)
          else pure (b ++ g.nolife)) 0 row.length
        (String.join ((g.state.take i).map (renderRow g))) =
        .ok (String.join ((g.state.take i).map (renderRow g)) ++
          String.join (row.map (glyphOf g))) := by
      apply loopFrom_eq (fun j b => b = String.join ((g.state.take i).map (renderRow g)) ++
        String.join ((row.take j).map (glyphOf g)))
      · show _ = _ ++ String.join []
        rw [show String.join [] = "" from rfl, String.append_empty]
      · rintro j b - hj rfl
        obtain ⟨alive, halive⟩ := get_some_of_lt row j (by omega)
        rw [index_nat _ j alive halive, bind_ok, take_snoc row j alive halive,
          List.map_append, List.map_singleton, join_snoc, ← String.append_assoc]
        cases alive
        · exact ⟨_, rfl, rfl⟩
        · exact ⟨_, rfl, rfl⟩
      · rintro b rfl
        rw [Nat.zero_add, List.take_length]
    rw [hin, bind_ok]
    refine ⟨_, rfl, ?_⟩
    rw [take_snoc g.state i row hrow, List.map_append, List.map_singleton, join_snoc]
    unfold renderRow
    rw [String.append_assoc]
  · rintro b rfl
    rw [Nat.zero_add, List.take_length]

theorem newlines_append (a b : String) : newlines (a ++ b) = newlines a + newlines b := by
  unfold newlines
  rw [String.data_append, List.count_append]

theorem newlines_join (l : List String) :
    newlines (String.join l) = (l.map newlines).sum := by
  unfold newlines
  rw [String.data_join, List.count_flatten, List.map_map]
  rfl

theorem sum_const (l : List Nat) (k : Nat) (h : ∀ n ∈ l, n = k) : l.sum = l.length * k := by
  induction l with
  | nil => simp
  | cons a l ih =>
    rw [List.sum_cons, List.length_cons, ih (fun n hn => h n (List.mem_cons_of_mem _ hn)),
      h a (List.mem_cons_self _ _)]
    ring

theorem newlines_renderRow (g : Game) (hl : newlines g.life = 0) (hn : newlines g.nolife = 0)
    (row : List Bool) : newlines (renderRow g row) = 1 := by
  unfold renderRow
  rw [newlines_append, newlines_join, sum_const _ 0, Nat.mul_zero]
  · rfl
  · intro n hmem
    obtain ⟨s, hs, rfl⟩ := List.mem_map.mp hmem
    obtain ⟨b, -, rfl⟩ := List.mem_map.mp hs
    unfold glyphOf
    cases b
    · exact hn
    · exact hl

/-- C13 (amended): on a grid, for arbitrary glyph strings, `String()` returns the renderings of
the rows in order, exactly `height` of them, each the concatenation of exactly `width` glyphs
(`life` for a live cell, `nolife` for a dead one) followed by a newline; the text has exactly
`height` lines when neither glyph contains a newline. -/
theorem String_renders (g : Game) (hwf : g.WellFormed) :
    g.String = .ok (String.join (g.state.map (renderRow g))) ∧
      ((g.state.map (renderRow g)).length : Int) = g.height ∧
      (∀ row ∈ g.state,
        renderRow g row =
            String.join (row.map (fun alive => if alive then g.life else g.nolife)) ++ "\n" ∧
          ((row.map (fun alive => if alive then g.life else g.nolife)).length : Int) =
            g.width) ∧
      (newlines g.life = 0 → newlines g.nolife = 0 →
        (newlines (String.join (g.state.map (renderRow g))) : Int) = g.height) := by
  obtain ⟨hh, hw⟩ := hwf
  unfold len at hh
  refine ⟨String_eq g, ?_, ?_, ?_⟩
  · rw [List.length_map]
    exact hh
  · intro row hrow
    have := hw row hrow
    unfold len at this
    refine ⟨rfl, ?_⟩
    rw [List.length_map]
    exact this
  · intro hl hn
    rw [newlines_join, sum_const _ 1, Nat.mul_one, List.length_map, List.length_map]
    · exact hh
    · intro n hmem
      obtain ⟨s, hs, rfl⟩ := List.mem_map.mp hmem
      obtain ⟨row, -, rfl⟩ := List.mem_map.mp hs
      exact newlines_renderRow g hl hn row

theorem String_renders_witness :
    demoGame.WellFormed ∧ demoGame.String = .ok "-*\n*-\n" ∧
      (newlines demoGame.life = 0 → newlines demoGame.nolife = 0 →
        (newlines (String.join (demoGame.state.map (renderRow demoGame))) : Int) =
          demoGame.height) :=
  ⟨by decide, (String_renders demoGame (by decide)).1.trans (by decide),
    (String_renders demoGame (by decide)).2.2.2⟩

/-- C13 fails as stated: on the 1 x 1 grid with a live cell whose `life` glyph is a newline,
`String()` returns a text of two lines, and `height` is 1. -/
theorem String_newline_glyph :
    newlineGame.WellFormed ∧ newlineGame.String = .ok "\n\n" ∧ newlines "\n\n" = 2 ∧
      newlineGame.height = 1 := by
  decide

theorem fits_of_rowLen (g : Game) (hf : g.Fits) (st : State)
    (h1 : st.length = g.state.length) (h2 : ∀ r, rowLen st r = rowLen g.state r) :
    Game.Fits { g with state := st } := by
  obtain ⟨hl, hr⟩ := hf
  refine ⟨by unfold len at *; simp only; rw [h1]; exact hl, ?_⟩
  intro row hmem
  obtain ⟨r, hr'⟩ := List.mem_iff_getElem?.mp hmem
  have h := h2 r
  unfold rowLen at h
  simp only at hr'
  rw [hr'] at h
  cases hq : g.state[r]? with
  | none => rw [hq] at h; exact Option.noConfusion h
  | some row0 =>
    rw [hq] at h
    have hl0 := hr row0 (List.getElem?_mem hq)
    have e : row.length = row0.length := Option.some.inj h
    unfold len at *
    rw [e]
    exact hl0

theorem nextGrid_length (g : Game) : (nextGrid g).length = g.state.length := by
  unfold nextGrid
  rw [List.length_mapIdx]

theorem nextGrid_rowLen (g : Game) (r : Nat) : rowLen (nextGrid g) r = rowLen g.state r := by
  unfold rowLen nextGrid
  rw [List.getElem?_mapIdx]
  cases g.state[r]? with
  | none => rfl
  | some row =>
    simp only [Option.map_some', List.length_mapIdx]

theorem Step_eq (g : Game) (hf : g.Fits) (fuel : Nat) (hfuel : 4 ≤ fuel) :
    Step fuel g = .ok { g with state := nextGrid g } := by
  unfold Step
  rw [Next_eq g hf fuel hfuel]
  rfl

theorem run_keeps_dims (fuel : Nat) (hfuel : 4 ≤ fuel) (width height : Int)
    (ops : List Op) :
    ∀ g : Game, g.WellFormed → g.Fits → g.width = width → g.height = height →
      (∀ op ∈ ops, OpInside width height op) →
      ∃ g', run fuel g ops = .ok g' ∧ g'.WellFormed ∧ g'.Fits ∧ g'.width = width ∧
        g'.height = height ∧ g'.life = g.life ∧ g'.nolife = g.nolife := by
  induction ops with
  | nil => intro g hwf hf hw hh _; exact ⟨g, rfl, hwf, hf, hw, hh, rfl, rfl⟩
  | cons op ops ih =>
    intro g hwf hf hw hh hops
    have hop := hops op (List.mem_cons_self _ _)
    have hrest : ∀ o ∈ ops, OpInside width height o :=
      fun o ho => hops o (List.mem_cons_of_mem _ ho)
    cases op with
    | add pattern x y =>
      have hin : TargetsInside g pattern x y := by
        unfold TargetsInside
        rw [hw, hh]
        exact hop
      obtain ⟨st, hadd, h1, h2, -⟩ := Add_stamps g hf pattern x y
        (inGrid_of_targetsInside g hwf pattern x y hin)
      obtain ⟨g', hrun, k1, k2, k3, k4, k5, k6⟩ := ih { g with state := st }
        (wellFormed_of_rowLen g hwf st h1 h2) (fits_of_rowLen g hf st h1 h2) hw hh hrest
      refine ⟨g', ?_, k1, k2, k3, k4, k5, k6⟩
      show (Add g pattern x y >>= fun g' => run fuel g' ops) = _
      rw [hadd, bind_ok]
      exact hrun
    | step =>
      obtain ⟨g', hrun, k1, k2, k3, k4, k5, k6⟩ := ih { g with state := nextGrid g }
        (wellFormed_of_rowLen g hwf _ (nextGrid_length g) (nextGrid_rowLen g))
        (fits_of_rowLen g hf _ (nextGrid_length g) (nextGrid_rowLen g)) hw hh hrest
      refine ⟨g', ?_, k1, k2, k3, k4, k5, k6⟩
      show (Step fuel g >>= fun g' => run fuel g' ops) = _
      rw [Step_eq g hf fuel hfuel, bind_ok]
      exact hrun

theorem NewGame_good (width height : Int) (life nolife : String) (hw : 0 ≤ width)
    (hh : 0 ≤ height) (hwm : boolSize * width ≤ maxAlloc)
    (hhm : sliceSize * height ≤ maxAlloc) :
    ∃ g, NewGame width height life nolife = .ok g ∧ g.WellFormed ∧ g.Fits ∧
      g.width = width ∧ g.height = height ∧ g.life = life ∧ g.nolife = nolife ∧
      ∀ r c v, cell g.state r c = some v → v = false := by
  refine ⟨_, NewGame_ok width height life nolife hh hhm (Or.inl ⟨hw, hwm⟩), ?_, ?_, rfl, rfl,
    rfl, rfl, ?_⟩
  · refine ⟨?_, ?_⟩
    · unfold len
      simp only [List.length_replicate]
      omega
    · intro row hrow
      obtain ⟨-, rfl⟩ := List.mem_replicate.mp hrow
      unfold len
      simp only [List.length_replicate]
      omega
  · refine ⟨?_, ?_⟩
    · unfold len
      simp only [List.length_replicate]
      rw [Int.toNat_of_nonneg hh]
      exact hhm
    · intro row hrow
      obtain ⟨-, rfl⟩ := List.mem_replicate.mp hrow
      unfold len
      simp only [List.length_replicate]
      rw [Int.toNat_of_nonneg hw]
      exact hwm
  · intro r c v hcell
    obtain ⟨row, hrow, hv⟩ := cell_some _ r c v hcell
    obtain ⟨-, rfl⟩ := List.mem_replicate.mp (List.getElem?_mem hrow)
    exact (List.mem_replicate.mp (List.getElem?_mem hv)).2

theorem NewGame_within (width height : Int) (life nolife : String) (hh : 0 < height)
    (g0 : Game) (h : NewGame width height life nolife = .ok g0) :
    boolSize * width ≤ maxAlloc ∧ sliceSize * height ≤ maxAlloc := by
  by_contra hbig
  rw [NewGame_panics width height life nolife (by omega)] at h
  exact Except.noConfusion h

/-- C15: a game created by `NewGame(width, height, ..)` with positive dimensions and then
changed by any finite sequence of in-bounds `Add` calls and `Step` calls has a state of
exactly `height` rows of exactly `width` cells and the `width` and `height` it was created
with; and `Next()` on it returns a grid with the same number of rows and the same row
lengths. `NewGame` does create the game when the dimensions are within the limit of
`make`. -/
theorem dims_invariant (width height : Int) (life nolife : String) (hw : 0 < width)
    (hh : 0 < height) (fuel : Nat) (hfuel : 4 ≤ fuel) (ops : List Op)
    (hops : ∀ op ∈ ops, OpInside width height op) :
    (boolSize * width ≤ maxAlloc → sliceSize * height ≤ maxAlloc →
      ∃ g0, NewGame width height life nolife = .ok g0) ∧
      ∀ g0, NewGame width height life nolife = .ok g0 →
        ∃ g, run fuel g0 ops = .ok g ∧
          len g.state = height ∧ (∀ row ∈ g.state, len row = width) ∧
          g.width = width ∧ g.height = height ∧
          ∃ next, Next fuel g = .ok next ∧ next.length = g.state.length ∧
            ∀ r, rowLen next r = rowLen g.state r := by
  constructor
  · intro hwm hhm
    obtain ⟨g0, hnew, -⟩ :=
      NewGame_good width height life nolife (by omega) (by omega) hwm hhm
    exact ⟨g0, hnew⟩
  · intro g0 hcreated
    obtain ⟨hwm, hhm⟩ := NewGame_within width height life nolife hh g0 hcreated
    obtain ⟨g0', hnew, h1, h2, h3, h4, -⟩ :=
      NewGame_good width height life nolife (by omega) (by omega) hwm hhm
    rw [hcreated] at hnew
    obtain rfl := Except.ok.inj hnew
    obtain ⟨g, hrun, k1, k2, k3, k4, -⟩ :=
      run_keeps_dims fuel hfuel width height ops g0 h1 h2 h3 h4 hops
    refine ⟨g, hrun, ?_, ?_, k3, k4, nextGrid g, Next_eq g k2 fuel hfuel,
      nextGrid_length g, nextGrid_rowLen g⟩
    · rw [k1.1, k4]
    · intro row hrow
      rw [k1.2 row hrow, k3]

theorem dims_invariant_witness :
    (0 : Int) < 3 ∧ (0 : Int) < 4 ∧ 4 ≤ 4 ∧
      (∀ op ∈ [Op.add [[true, true]] 1 1, Op.step, Op.step], OpInside 3 4 op) ∧
      ∃ g0 g, NewGame 3 4 "*" "-" = .ok g0 ∧
        run 4 g0 [Op.add [[true, true]] 1 1, Op.step, Op.step] = .ok g ∧
        len g.state = 4 ∧ (∀ row ∈ g.state, len row = 3) ∧ g.width = 3 ∧ g.height = 4 ∧
        ∃ next, Next 4 g = .ok next ∧ next.length = g.state.length ∧
          ∀ r, rowLen next r = rowLen g.state r :=
  ⟨by decide, by decide, by decide, by decide,
    match (dims_invariant 3 4 "*" "-" (by decide) (by decide) 4 (by decide)
        [Op.add [[true, true]] 1 1, Op.step, Op.step] (by decide)).1 (by decide)
        (by decide) with
    | ⟨g0, h0⟩ =>
      match (dims_invariant 3 4 "*" "-" (by decide) (by decide) 4 (by decide)
          [Op.add [[true, true]] 1 1, Op.step, Op.step] (by decide)).2 g0 h0 with
      | ⟨g, hg⟩ => ⟨g0, g, h0, hg⟩⟩

theorem vertical3_next (p q r c : Int) :
    rule (vertical3 p q r c) (count8 (vertical3 p q) r c) = horizontal3 p q r c := by
  rw [Bool.eq_iff_iff, rule_iff]
  unfold count8 vertical3 horizontal3
  simp only [decide_eq_true_eq, decide_eq_false_iff_not]
  split_ifs <;> omega

theorem horizontal3_next (p q r c : Int) :
    rule (horizontal3 p q r c) (count8 (horizontal3 p q) r c) = vertical3 p q r c := by
  rw [Bool.eq_iff_iff, rule_iff]
  unfold count8 vertical3 horizontal3
  simp only [decide_eq_true_eq, decide_eq_false_iff_not]
  split_ifs <;> omega

theorem isAlive_of_cell (g : Game) (r c : Int) (v : Bool) (hr : 0 ≤ r) (hc : 0 ≤ c)
    (h : cell g.state r.toNat c.toNat = some v) : isAlive g r c = .ok v := by
  obtain ⟨row, hrow, hv⟩ := cell_some _ _ _ _ h
  have h1 := lt_of_get_some _ _ _ hrow
  have h2 := lt_of_get_some _ _ _ hv
  obtain ⟨row', hrow', hal⟩ := isAlive_inside g r c hr (by unfold len; omega)
  rw [hrow] at hrow'
  obtain rfl := Option.some.inj hrow'
  obtain ⟨v', hv', hidx⟩ := index_ok row c hc (by unfold len; omega)
  rw [hv] at hv'
  obtain rfl := Option.some.inj hv'
  rw [hal, if_neg (by unfold len; omega), hidx]

theorem liveAt_outside (g : Game) (hwf : g.WellFormed) (r c : Int)
    (h : ¬ (0 ≤ r ∧ r < g.height ∧ 0 ≤ c ∧ c < g.width)) : liveAt g r c = false := by
  obtain ⟨hh, hw⟩ := hwf
  by_cases hr : r < 0 ∨ len g.state ≤ r
  · exact liveAt_row_outside g r c hr
  · obtain ⟨row, hrow, hal⟩ := isAlive_inside g r c (by omega) (by omega)
    have hlen := hw row (List.getElem?_mem hrow)
    unfold liveAt
    rw [hal, if_pos (by omega)]

theorem liveAt_shows (g : Game) (hwf : g.WellFormed) (P : Int → Int → Bool)
    (hP : Shows g P) (hin : Inside g P) (r c : Int) : liveAt g r c = P r c := by
  by_cases h : 0 ≤ r ∧ r < g.height ∧ 0 ≤ c ∧ c < g.width
  · obtain ⟨h1, h2, h3, h4⟩ := h
    have hcell := hP r.toNat c.toNat (by omega) (by omega)
    rw [Int.toNat_of_nonneg h1, Int.toNat_of_nonneg h3] at hcell
    unfold liveAt
    rw [isAlive_of_cell g r c _ h1 h3 hcell]
  · rw [liveAt_outside g hwf r c h]
    cases hp : P r c with
    | false => rfl
    | true => exact absurd (hin r c hp) h

theorem mooreCount_shows (g : Game) (hwf : g.WellFormed) (P : Int → Int → Bool)
    (hP : Shows g P) (hin : Inside g P) (r c : Int) : mooreCount g r c = count8 P r c := by
  rw [mooreCount_sum]
  unfold count8
  simp only [liveAt_shows g hwf P hP hin]

theorem nextGrid_cell (g : Game) (r c : Nat) (v : Bool) (h : cell g.state r c = some v) :
    cell (nextGrid g) r c = some (rule v (mooreCount g r c)) := by
  obtain ⟨row, hrow, hv⟩ := cell_some _ _ _ _ h
  have hn : (nextGrid g)[r]? =
      some (row.mapIdx (fun j alive => rule alive (mooreCount g r j))) := by
    unfold nextGrid
    rw [List.getElem?_mapIdx, hrow]
    rfl
  rw [cell_of_row _ r c _ hn, List.getElem?_mapIdx, hv]
  rfl

theorem nextGrid_shows (g : Game) (hwf : g.WellFormed) (P Q : Int → Int → Bool)
    (hP : Shows g P) (hin : Inside g P)
    (hQ : ∀ r c : Int, 0 ≤ r → r < g.height → 0 ≤ c → c < g.width →
      rule (P r c) (count8 P r c) = Q r c) :
    Shows { g with state := nextGrid g } Q := by
  intro r c hr hc
  show cell (nextGrid g) r c = _
  rw [nextGrid_cell g r c _ (hP r c hr hc), mooreCount_shows g hwf P hP hin,
    hQ r c (by omega) hr (by omega) hc]

theorem shows_ext (g1 g2 : Game) (h1 : g1.WellFormed) (h2 : g2.WellFormed)
    (hh : g1.height = g2.height) (hw : g1.width = g2.width) (P : Int → Int → Bool)
    (hP1 : Shows g1 P) (hP2 : Shows g2 P) : g1.state = g2.state := by
  have d1 : Dense g2.state.length g2.width.toNat g1.state := by
    refine ⟨?_, ?_⟩
    · have a := h1.1
      have b := h2.1
      unfold len at a b
      omega
    · intro row hrow
      have a := h1.2 row hrow
      unfold len at a
      omega
  have d2 : Dense g2.state.length g2.width.toNat g2.state := by
    refine ⟨rfl, ?_⟩
    intro row hrow
    have a := h2.2 row hrow
    unfold len at a
    omega
  apply dense_ext _ _ g2.state g1.state d2 d1
  intro i j hi hj
  have b := h2.1
  unfold len at b
  rw [hP1 i j (by omega) (by omega), hP2 i j (by omega) (by omega)]

theorem shows_ne (g1 g2 : Game) (P Q : Int → Int → Bool) (hP : Shows g1 P) (hQ : Shows g2 Q)
    (hh : g1.height = g2.height) (hw : g1.width = g2.width) (r c : Nat)
    (hr : (r : Int) < g1.height) (hc : (c : Int) < g1.width) (hne : P r c ≠ Q r c) :
    g1.state ≠ g2.state := by
  intro he
  have a := hP r c hr hc
  have b := hQ r c (by omega) (by omega)
  rw [he, b] at a
  exact hne (Option.some.inj a).symm

theorem shows_congr (g : Game) (P Q : Int → Int → Bool) (h : ∀ r c, P r c = Q r c)
    (hP : Shows g P) : Shows g Q := by
  intro r c hr hc
  rw [hP r c hr hc, h]

theorem Add_shows (g : Game) (hwf : g.WellFormed) (hf : g.Fits) (pattern : Pattern)
    (x y : Int) (old : Int → Int → Bool) (hin : TargetsInside g pattern x y)
    (hold : Shows g old) :
    ∃ g', Add g pattern x y = .ok g' ∧ g'.WellFormed ∧ g'.Fits ∧ g'.width = g.width ∧
      g'.height = g.height ∧ g'.life = g.life ∧ g'.nolife = g.nolife ∧
      Shows g' (stampP pattern x y old) := by
  obtain ⟨st, hadd, h1, h2, h3⟩ := Add_stamps g hf pattern x y
    (inGrid_of_targetsInside g hwf pattern x y hin)
  refine ⟨_, hadd, wellFormed_of_rowLen g hwf st h1 h2, fits_of_rowLen g hf st h1 h2,
    rfl, rfl, rfl, rfl, ?_⟩
  intro r c hr hc
  show cell st r c = _
  rw [h3]
  unfold stampedCell patAt stampP
  by_cases hxy : x ≤ r ∧ y ≤ c
  · rw [if_pos hxy, if_pos hxy]
    cases cell pattern ((r : Int) - x).toNat ((c : Int) - y).toNat with
    | none => exact hold r c hr hc
    | some v => rfl
  · rw [if_neg hxy, if_neg hxy]
    exact hold r c hr hc

theorem Step_shows (g : Game) (hwf : g.WellFormed) (hf : g.Fits) (fuel : Nat)
    (hfuel : 4 ≤ fuel) (P Q : Int → Int → Bool) (hP : Shows g P) (hin : Inside g P)
    (hQ : ∀ r c : Int, 0 ≤ r → r < g.height → 0 ≤ c → c < g.width →
      rule (P r c) (count8 P r c) = Q r c) :
    ∃ g', Step fuel g = .ok g' ∧ g'.WellFormed ∧ g'.Fits ∧ g'.width = g.width ∧
      g'.height = g.height ∧ g'.life = g.life ∧ g'.nolife = g.nolife ∧ Shows g' Q :=
  ⟨_, Step_eq g hf fuel hfuel,
    wellFormed_of_rowLen g hwf _ (nextGrid_length g) (nextGrid_rowLen g),
    fits_of_rowLen g hf _ (nextGrid_length g) (nextGrid_rowLen g), rfl, rfl, rfl, rfl,
    nextGrid_shows g hwf P Q hP hin hQ⟩

theorem shows_allDead (g : Game) (hwf : g.WellFormed) (hdead : AllDead g) :
    Shows g allDead := by
  intro r c hr hc
  obtain ⟨hh, hw⟩ := hwf
  unfold len at hh
  obtain ⟨row, hrow⟩ := get_some_of_lt g.state r (by omega)
  have hl := hw row (List.getElem?_mem hrow)
  unfold len at hl
  obtain ⟨v, hv⟩ := get_some_of_lt row c (by omega)
  have hcell : cell g.state r c = some v := by rw [cell_of_row _ r c row hrow, hv]
  rw [hcell, hdead row (List.getElem?_mem hrow) v (List.getElem?_mem hv)]
  rfl

theorem stampP_blinker (x y r c : Int) :
    stampP [[true], [true], [true]] x y allDead r c = vertical3 (x + 1) y r c := by
  unfold stampP vertical3 allDead
  by_cases h : x ≤ r ∧ y ≤ c
  · rw [if_pos h]
    obtain ⟨a, ha⟩ : ∃ a : Nat, r = x + a := ⟨(r - x).toNat, by omega⟩
    obtain ⟨b, hb⟩ : ∃ b : Nat, c = y + b := ⟨(c - y).toNat, by omega⟩
    subst ha hb
    have e1 : (x + (a : Int) - x).toNat = a := by omega
    have e2 : (y + (b : Int) - y).toNat = b := by omega
    rw [e1, e2]
    rcases a with _ | _ | _ | a <;> rcases b with _ | b <;> simp [cell] <;> omega
  · rw [if_neg h]
    symm
    apply decide_eq_false
    omega

theorem stampP_oscillator (x y r c : Int) :
    stampP [[true, true, true]] x y allDead r c = horizontal3 x (y + 1) r c := by
  unfold stampP horizontal3 allDead
  by_cases h : x ≤ r ∧ y ≤ c
  · rw [if_pos h]
    obtain ⟨a, ha⟩ : ∃ a : Nat, r = x + a := ⟨(r - x).toNat, by omega⟩
    obtain ⟨b, hb⟩ : ∃ b : Nat, c = y + b := ⟨(c - y).toNat, by omega⟩
    subst ha hb
    have e1 : (x + (a : Int) - x).toNat = a := by omega
    have e2 : (y + (b : Int) - y).toNat = b := by omega
    rw [e1, e2]
    rcases a with _ | a <;> rcases b with _ | _ | _ | b <;> simp [cell] <;> omega
  · rw [if_neg h]
    symm
    apply decide_eq_false
    omega

theorem targetsInside_of_dense (g : Game) (R C : Nat) (pattern : Pattern)
    (hd : Dense R C pattern) (x y : Int) (hx : 0 ≤ x) (hx' : x + R ≤ g.height) (hy : 0 ≤ y)
    (hy' : y + C ≤ g.width) : TargetsInside g pattern x y := by
  intro i hi j hj
  obtain ⟨prow, hprow⟩ := get_some_of_lt pattern i hi
  have hget : pattern.getD i [] = prow := by
    rw [List.getD_eq_getElem?_getD, hprow]
    rfl
  rw [hget, hd.2 prow (List.getElem?_mem hprow)] at hj
  rw [hd.1] at hi
  omega

theorem period_from_vertical (g0 : Game) (hwf : g0.WellFormed) (hf : g0.Fits) (fuel : Nat)
    (hfuel : 4 ≤ fuel) (p q : Int) (hP : Shows g0 (vertical3 p q)) (hp : 1 ≤ p)
    (hp' : p + 1 < g0.height) (hq : 1 ≤ q) (hq' : q + 1 < g0.width) :
    ∃ g1 g2, Step fuel g0 = .ok g1 ∧ Step fuel g1 = .ok g2 ∧ g2.state = g0.state ∧
      g1.state ≠ g0.state := by
  have in0 : Inside g0 (vertical3 p q) := by
    intro r c h
    unfold vertical3 at h
    have := of_decide_eq_true h
    omega
  obtain ⟨g1, s1, w1, f1, a1, b1, -, -, P1⟩ := Step_shows g0 hwf hf fuel hfuel _
    (horizontal3 p q) hP in0 (fun r c _ _ _ _ => vertical3_next p q r c)
  have in1 : Inside g1 (horizontal3 p q) := by
    intro r c h
    unfold horizontal3 at h
    have := of_decide_eq_true h
    omega
  obtain ⟨g2, s2, w2, f2, a2, b2, -, -, P2⟩ := Step_shows g1 w1 f1 fuel hfuel _
    (vertical3 p q) P1 in1 (fun r c _ _ _ _ => horizontal3_next p q r c)
  refine ⟨g1, g2, s1, s2, shows_ext g2 g0 w2 hwf (by omega) (by omega) _ P2 hP, ?_⟩
  apply shows_ne g1 g0 _ _ P1 hP b1 a1 (p - 1).toNat q.toNat (by omega) (by omega)
  have e1 : ((p - 1).toNat : Int) = p - 1 := by omega
  have e2 : (q.toNat : Int) = q := by omega
  rw [e1, e2]
  have a : vertical3 p q (p - 1) q = true := by
    unfold vertical3
    exact decide_eq_true (by omega)
  have b : horizontal3 p q (p - 1) q = false := by
    unfold horizontal3
    exact decide_eq_false (by omega)
  rw [a, b]
  decide

theorem period_from_horizontal (g0 : Game) (hwf : g0.WellFormed) (hf : g0.Fits)
    (fuel : Nat) (hfuel : 4 ≤ fuel) (p q : Int) (hP : Shows g0 (horizontal3 p q))
    (hp : 1 ≤ p) (hp' : p + 1 < g0.height) (hq : 1 ≤ q) (hq' : q + 1 < g0.width) :
    ∃ g1 g2, Step fuel g0 = .ok g1 ∧ Step fuel g1 = .ok g2 ∧ g2.state = g0.state ∧
      g1.state ≠ g0.state := by
  have in0 : Inside g0 (horizontal3 p q) := by
    intro r c h
    unfold horizontal3 at h
    have := of_decide_eq_true h
    omega
  obtain ⟨g1, s1, w1, f1, a1, b1, -, -, P1⟩ := Step_shows g0 hwf hf fuel hfuel _
    (vertical3 p q) hP in0 (fun r c _ _ _ _ => horizontal3_next p q r c)
  have in1 : Inside g1 (vertical3 p q) := by
    intro r c h
    unfold vertical3 at h
    have := of_decide_eq_true h
    omega
  obtain ⟨g2, s2, w2, f2, a2, b2, -, -, P2⟩ := Step_shows g1 w1 f1 fuel hfuel _
    (horizontal3 p q) P1 in1 (fun r c _ _ _ _ => vertical3_next p q r c)
  refine ⟨g1, g2, s1, s2, shows_ext g2 g0 w2 hwf (by omega) (by omega) _ P2 hP, ?_⟩
  apply shows_ne g1 g0 _ _ P1 hP b1 a1 (p - 1).toNat q.toNat (by omega) (by omega)
  have e1 : ((p - 1).toNat : Int) = p - 1 := by omega
  have e2 : (q.toNat : Int) = q := by omega
  rw [e1, e2]
  have a : vertical3 p q (p - 1) q = true := by
    unfold vertical3
    exact decide_eq_true (by omega)
  have b : horizontal3 p q (p - 1) q = false := by
    unfold horizontal3
    exact decide_eq_false (by omega)
  rw [a, b]
  decide

/-- C16: on an all-dead grid, for every offset `(x, y)` that leaves a cell of margin around
the blinker (`1 <= x`, `x+3 < height`, `1 <= y`, `y+1 < width`), after `Add(blinker, x, y)`
two `Step`s give back the state of generation 0 and one `Step` gives a different state. -/
theorem blinker_period_two (g : Game) (hwf : g.WellFormed) (hf : g.Fits)
    (hdead : AllDead g) (x y : Int) (hx : 1 ≤ x)
    (hx' : x + 3 < g.height) (hy : 1 ≤ y) (hy' : y + 1 < g.width) (fuel : Nat)
    (hfuel : 4 ≤ fuel) :
    ∃ g0 g1 g2, Add g (NewPatternBuilder.«Type» "blinker").Build x y = .ok g0 ∧
      Step fuel g0 = .ok g1 ∧ Step fuel g1 = .ok g2 ∧ g2.state = g0.state ∧
      g1.state ≠ g0.state := by
  have hb : (NewPatternBuilder.«Type» "blinker").Build = [[true], [true], [true]] := rfl
  rw [hb]
  have hd : Dense 3 1 [[true], [true], [true]] := by decide
  obtain ⟨g0, hadd, w0, f0, a0, b0, -, -, P0⟩ := Add_shows g hwf hf _ x y allDead
    (targetsInside_of_dense g 3 1 _ hd x y (by omega) (by push_cast; omega) (by omega)
      (by push_cast; omega))
    (shows_allDead g hwf hdead)
  obtain ⟨g1, g2, s1, s2, e, ne⟩ := period_from_vertical g0 w0 f0 fuel hfuel (x + 1) y
    (shows_congr g0 _ _ (stampP_blinker x y) P0) (by omega) (by omega) (by omega) (by omega)
  exact ⟨g0, g1, g2, hadd, s1, s2, e, ne⟩

/-- C19 (amended): the oscillator shape (a single row of three live cells) is period 2 under
the implemented rule: on an all-dead grid, for every offset `(x, y)` that leaves a cell of
margin around it (`1 <= x`, `x+1 < height`, `1 <= y`, `y+3 < width`), after
`Add(oscillator, x, y)` two `Step`s give back the state of generation 0 and one `Step` gives a
different state. -/
theorem oscillator_period_two (g : Game) (hwf : g.WellFormed) (hf : g.Fits)
    (hdead : AllDead g) (x y : Int) (hx : 1 ≤ x)
    (hx' : x + 1 < g.height) (hy : 1 ≤ y) (hy' : y + 3 < g.width) (fuel : Nat)
    (hfuel : 4 ≤ fuel) :
    ∃ g0 g1 g2, Add g (NewPatternBuilder.«Type» "oscillator").Build x y = .ok g0 ∧
      Step fuel g0 = .ok g1 ∧ Step fuel g1 = .ok g2 ∧ g2.state = g0.state ∧
      g1.state ≠ g0.state := by
  have hb : (NewPatternBuilder.«Type» "oscillator").Build = [[true, true, true]] := rfl
  rw [hb]
  have hd : Dense 1 3 [[true, true, true]] := by decide
  obtain ⟨g0, hadd, w0, f0, a0, b0, -, -, P0⟩ := Add_shows g hwf hf _ x y allDead
    (targetsInside_of_dense g 1 3 _ hd x y (by omega) (by push_cast; omega) (by omega)
      (by push_cast; omega))
    (shows_allDead g hwf hdead)
  obtain ⟨g1, g2, s1, s2, e, ne⟩ := period_from_horizontal g0 w0 f0 fuel hfuel x (y + 1)
    (shows_congr g0 _ _ (stampP_oscillator x y) P0) (by omega) (by omega) (by omega)
    (by omega)
  exact ⟨g0, g1, g2, hadd, s1, s2, e, ne⟩

theorem blinker_period_two_witness :
    deadGame.WellFormed ∧ deadGame.Fits ∧ AllDead deadGame ∧ (1 : Int) ≤ 1 ∧
      (1 : Int) + 3 < deadGame.height ∧ (1 : Int) + 1 < deadGame.width ∧ 4 ≤ 4 ∧
      ∃ g0 g1 g2, Add deadGame (NewPatternBuilder.«Type» "blinker").Build 1 1 = .ok g0 ∧
        Step 4 g0 = .ok g1 ∧ Step 4 g1 = .ok g2 ∧ g2.state = g0.state ∧
        g1.state ≠ g0.state :=
  ⟨by decide, by decide, by decide, by decide, by decide, by decide, by decide,
    blinker_period_two deadGame (by decide) (by decide) (by decide) 1 1 (by decide)
      (by decide) (by decide) (by decide) 4 (by decide)⟩

theorem oscillator_period_two_witness :
    deadGame.WellFormed ∧ deadGame.Fits ∧ AllDead deadGame ∧ (1 : Int) ≤ 1 ∧
      (1 : Int) + 1 < deadGame.height ∧ (1 : Int) + 3 < deadGame.width ∧ 4 ≤ 4 ∧
      ∃ g0 g1 g2, Add deadGame (NewPatternBuilder.«Type» "oscillator").Build 1 1 = .ok g0 ∧
        Step 4 g0 = .ok g1 ∧ Step 4 g1 = .ok g2 ∧ g2.state = g0.state ∧
        g1.state ≠ g0.state :=
  ⟨by decide, by decide, by decide, by decide, by decide, by decide, by decide,
    oscillator_period_two deadGame (by decide) (by decide) (by decide) 1 1 (by decide)
      (by decide) (by decide) (by decide) 4 (by decide)⟩

/-- C19 fails as stated: on the all-dead 5 x 5 grid with the oscillator added at `(1, 1)`
(a cell of margin on every side), the state after two `Step`s is the state of generation 0. -/
theorem oscillator_returns :
    AllDead deadGame ∧ (1 : Int) ≤ 1 ∧ (1 : Int) + 1 < deadGame.height ∧
      (1 : Int) + 3 < deadGame.width ∧
      (Add deadGame (NewPatternBuilder.«Type» "oscillator").Build 1 1 >>= fun g0 =>
        Step 4 g0 >>= fun g1 =>
          Step 4 g1 >>= fun g2 => pure (decide (g2.state = g0.state))) = .ok true := by
  decide

theorem liveAt_true_cell (g : Game) (r c : Int) (h : liveAt g r c = true) :
    0 ≤ r ∧ 0 ≤ c ∧ cell g.state r.toNat c.toNat = some true := by
  by_cases hr : r < 0 ∨ len g.state ≤ r
  · rw [liveAt_row_outside g r c hr] at h
    exact Bool.noConfusion h
  · obtain ⟨row, hrow, hal⟩ := isAlive_inside g r c (by omega) (by omega)
    by_cases hc : c < 0 ∨ len row ≤ c
    · unfold liveAt at h
      rw [hal, if_pos hc] at h
      exact Bool.noConfusion h
    · obtain ⟨v, hv, hidx⟩ := index_ok row c (by omega) (by omega)
      unfold liveAt at h
      rw [hal, if_neg hc, hidx] at h
      simp only at h
      subst h
      exact ⟨by omega, by omega, by rw [cell_of_row _ _ _ row hrow, hv]⟩

theorem lonely_pair (g : Game)
    (hone : ∀ r1 c1 r2 c2, cell g.state r1 c1 = some true → cell g.state r2 c2 = some true →
      r1 = r2 ∧ c1 = c2)
    (r1 c1 r2 c2 : Int) (hne : r1 ≠ r2 ∨ c1 ≠ c2) :
    (if liveAt g r1 c1 then (1 : Int) else 0) + (if liveAt g r2 c2 then 1 else 0) ≤ 1 := by
  cases h1 : liveAt g r1 c1 with
  | false => cases liveAt g r2 c2 <;> decide
  | true =>
    cases h2 : liveAt g r2 c2 with
    | false => decide
    | true =>
      exfalso
      obtain ⟨a1, a2, a3⟩ := liveAt_true_cell g r1 c1 h1
      obtain ⟨b1, b2, b3⟩ := liveAt_true_cell g r2 c2 h2
      have := hone _ _ _ _ a3 b3
      omega

theorem lonely_count (g : Game)
    (hone : ∀ r1 c1 r2 c2, cell g.state r1 c1 = some true → cell g.state r2 c2 = some true →
      r1 = r2 ∧ c1 = c2)
    (x y : Int) : mooreCount g x y ≤ 1 := by
  rw [mooreCount_sum]
  have p12 := lonely_pair g hone (x - 1) (y - 1) (x - 1) y (by omega)
  have p13 := lonely_pair g hone (x - 1) (y - 1) (x - 1) (y + 1) (by omega)
  have p14 := lonely_pair g hone (x - 1) (y - 1) x (y - 1) (by omega)
  have p15 := lonely_pair g hone (x - 1) (y - 1) x (y + 1) (by omega)
  have p16 := lonely_pair g hone (x - 1) (y - 1) (x + 1) (y - 1) (by omega)
  have p17 := lonely_pair g hone (x - 1) (y - 1) (x + 1) y (by omega)
  have p18 := lonely_pair g hone (x - 1) (y - 1) (x + 1) (y + 1) (by omega)
  have p23 := lonely_pair g hone (x - 1) y (x - 1) (y + 1) (by omega)
  have p24 := lonely_pair g hone (x - 1) y x (y - 1) (by omega)
  have p25 := lonely_pair g hone (x - 1) y x (y + 1) (by omega)
  have p26 := lonely_pair g hone (x - 1) y (x + 1) (y - 1) (by omega)
  have p27 := lonely_pair g hone (x - 1) y (x + 1) y (by omega)
  have p28 := lonely_pair g hone (x - 1) y (x + 1) (y + 1) (by omega)
  have p34 := lonely_pair g hone (x - 1) (y + 1) x (y - 1) (by omega)
  have p35 := lonely_pair g hone (x - 1) (y + 1) x (y + 1) (by omega)
  have p36 := lonely_pair g hone (x - 1) (y + 1) (x + 1) (y - 1) (by omega)
  have p37 := lonely_pair g hone (x - 1) (y + 1) (x + 1) y (by omega)
  have p38 := lonely_pair g hone (x - 1) (y + 1) (x + 1) (y + 1) (by omega)
  have p45 := lonely_pair g hone x (y - 1) x (y + 1) (by omega)
  have p46 := lonely_pair g hone x (y - 1) (x + 1) (y - 1) (by omega)
  have p47 := lonely_pair g hone x (y - 1) (x + 1) y (by omega)
  have p48 := lonely_pair g hone x (y - 1) (x + 1) (y + 1) (by omega)
  have p56 := lonely_pair g hone x (y + 1) (x + 1) (y - 1) (by omega)
  have p57 := lonely_pair g hone x (y + 1) (x + 1) y (by omega)
  have p58 := lonely_pair g hone x (y + 1) (x + 1) (y + 1) (by omega)
  have p67 := lonely_pair g hone (x + 1) (y - 1) (x + 1) y (by omega)
  have p68 := lonely_pair g hone (x + 1) (y - 1) (x + 1) (y + 1) (by omega)
  have p78 := lonely_pair g hone (x + 1) y (x + 1) (y + 1) (by omega)
  generalize (if liveAt g (x - 1) (y - 1) then (1 : Int) else 0) = v1 at *
  generalize (if liveAt g (x - 1) y then (1 : Int) else 0) = v2 at *
  generalize (if liveAt g (x - 1) (y + 1) then (1 : Int) else 0) = v3 at *
  generalize (if liveAt g x (y - 1) then (1 : Int) else 0) = v4 at *
  generalize (if liveAt g x (y + 1) then (1 : Int) else 0) = v5 at *
  generalize (if liveAt g (x + 1) (y - 1) then (1 : Int) else 0) = v6 at *
  generalize (if liveAt g (x + 1) y then (1 : Int) else 0) = v7 at *
  generalize (if liveAt g (x + 1) (y + 1) then (1 : Int) else 0) = v8 at *
  omega

theorem count_pos_of_get (row : List Bool) (c : Nat) (h : row[c]? = some true) :
    1 ≤ row.count true :=
  List.count_pos_iff.mpr (List.getElem?_mem h)

theorem count_two_of_get : ∀ (row : List Bool) (c1 c2 : Nat), row[c1]? = some true →
    row[c2]? = some true → c1 ≠ c2 → 2 ≤ row.count true
  | [], _, _, h, _, _ => by simp at h
  | a :: t, 0, 0, _, _, hne => absurd rfl hne
  | a :: t, 0, c2 + 1, h1, h2, _ => by
    have ha : a = true := by simpa using h1
    have ht : t[c2]? = some true := by simpa using h2
    have := count_pos_of_get t c2 ht
    rw [List.count_cons, ha]
    simp only [beq_self_eq_true, if_true]
    omega
  | a :: t, c1 + 1, 0, h1, h2, _ => by
    have ha : a = true := by simpa using h2
    have ht : t[c1]? = some true := by simpa using h1
    have := count_pos_of_get t c1 ht
    rw [List.count_cons, ha]
    simp only [beq_self_eq_true, if_true]
    omega
  | a :: t, c1 + 1, c2 + 1, h1, h2, hne => by
    have ht1 : t[c1]? = some true := by simpa using h1
    have ht2 : t[c2]? = some true := by simpa using h2
    have := count_two_of_get t c1 c2 ht1 ht2 (by omega)
    rw [List.count_cons]
    omega

theorem cell_cons_zero (row : List Bool) (t : List (List Bool)) (c : Nat) :
    cell (row :: t) 0 c = row[c]? := by
  unfold cell
  rw [List.getElem?_cons_zero]

theorem cell_cons_succ (row : List Bool) (t : List (List Bool)) (r c : Nat) :
    cell (row :: t) (r + 1) c = cell t r c := by
  unfold cell
  rw [List.getElem?_cons_succ]

theorem sum_pos_of_cell : ∀ (s : List (List Bool)) (r c : Nat), cell s r c = some true →
    1 ≤ (s.map (fun row => row.count true)).sum
  | [], _, _, h => by simp [cell] at h
  | row :: t, 0, c, h => by
    rw [cell_cons_zero] at h
    have := count_pos_of_get row c h
    rw [List.map_cons, List.sum_cons]
    omega
  | row :: t, r + 1, c, h => by
    rw [cell_cons_succ] at h
    have := sum_pos_of_cell t r c h
    rw [List.map_cons, List.sum_cons]
    omega

theorem sum_two_of_cells : ∀ (s : List (List Bool)) (r1 c1 r2 c2 : Nat),
    cell s r1 c1 = some true → cell s r2 c2 = some true → (r1 ≠ r2 ∨ c1 ≠ c2) →
    2 ≤ (s.map (fun row => row.count true)).sum
  | [], _, _, _, _, h, _, _ => by simp [cell] at h
  | row :: t, 0, c1, 0, c2, h1, h2, hne => by
    rw [cell_cons_zero] at h1 h2
    have := count_two_of_get row c1 c2 h1 h2 (by omega)
    rw [List.map_cons, List.sum_cons]
    omega
  | row :: t, 0, c1, r2 + 1, c2, h1, h2, _ => by
    rw [cell_cons_zero] at h1
    rw [cell_cons_succ] at h2
    have a := count_pos_of_get row c1 h1
    have b := sum_pos_of_cell t r2 c2 h2
    rw [List.map_cons, List.sum_cons]
    omega
  | row :: t, r1 + 1, c1, 0, c2, h1, h2, _ => by
    rw [cell_cons_zero] at h2
    rw [cell_cons_succ] at h1
    have a := count_pos_of_get row c2 h2
    have b := sum_pos_of_cell t r1 c1 h1
    rw [List.map_cons, List.sum_cons]
    omega
  | row :: t, r1 + 1, c1, r2 + 1, c2, h1, h2, hne => by
    rw [cell_cons_succ] at h1 h2
    have := sum_two_of_cells t r1 c1 r2 c2 h1 h2 (by omega)
    rw [List.map_cons, List.sum_cons]
    omega

theorem nextGrid_cell_inv (g : Game) (r c : Nat) (b : Bool)
    (h : cell (nextGrid g) r c = some b) :
    ∃ v, cell g.state r c = some v ∧ b = rule v (mooreCount g r c) := by
  obtain ⟨nrow, hnrow, hb⟩ := cell_some _ _ _ _ h
  unfold nextGrid at hnrow
  rw [List.getElem?_mapIdx] at hnrow
  cases hrow : g.state[r]? with
  | none => rw [hrow] at hnrow; exact Option.noConfusion hnrow
  | some row =>
    rw [hrow] at hnrow
    have e := Option.some.inj hnrow
    rw [← e, List.getElem?_mapIdx] at hb
    cases hv : row[c]? with
    | none => rw [hv] at hb; exact Option.noConfusion hb
    | some v =>
      rw [hv] at hb
      exact ⟨v, by rw [cell_of_row _ r c row hrow, hv], (Option.some.inj hb).symm⟩

/-- C18: on every grid (of any dimensions) that contains at most one live cell, `Next()`
returns the all-dead grid of the same dimensions: an all-dead grid stays all-dead and a single
live cell dies without any cell being born. -/
theorem Next_of_lonely (g : Game) (hf : g.Fits) (hone : liveCount g ≤ 1) (fuel : Nat)
    (hfuel : 4 ≤ fuel) :
    ∃ next, Next fuel g = .ok next ∧ next.length = g.state.length ∧
      (∀ r, rowLen next r = rowLen g.state r) ∧ ∀ row ∈ next, ∀ b ∈ row, b = false := by
  refine ⟨nextGrid g, Next_eq g hf fuel hfuel, nextGrid_length g, nextGrid_rowLen g, ?_⟩
  have hpair : ∀ r1 c1 r2 c2, cell g.state r1 c1 = some true →
      cell g.state r2 c2 = some true → r1 = r2 ∧ c1 = c2 := by
    intro r1 c1 r2 c2 h1 h2
    by_contra hne
    have := sum_two_of_cells g.state r1 c1 r2 c2 h1 h2 (by omega)
    unfold liveCount at hone
    omega
  intro row hrow b hb
  obtain ⟨r, hr⟩ := List.mem_iff_getElem?.mp hrow
  obtain ⟨c, hc⟩ := List.mem_iff_getElem?.mp hb
  have hcell : cell (nextGrid g) r c = some b := by rw [cell_of_row _ r c row hr, hc]
  obtain ⟨v, -, hrule⟩ := nextGrid_cell_inv g r c b hcell
  have hcount := lonely_count g hpair r c
  cases hb' : b with
  | false => rfl
  | true =>
    rw [hb'] at hrule
    have := (rule_iff v (mooreCount g r c)).mp hrule.symm
    omega

theorem Next_of_lonely_witness :
    demoGame.Fits ∧ liveCount { demoGame with state := [[false, true], [false, false]] } ≤ 1 ∧
      4 ≤ 4 ∧
      ∃ next, Next 4 { demoGame with state := [[false, true], [false, false]] } = .ok next ∧
        next.length = 2 ∧
        (∀ r, rowLen next r = rowLen [[false, true], [false, false]] r) ∧
        ∀ row ∈ next, ∀ b ∈ row, b = false :=
  ⟨by decide, by decide, by decide,
    Next_of_lonely { demoGame with state := [[false, true], [false, false]] } (by decide)
      (by decide) 4 (by decide)⟩

theorem quarterTurn_nil : quarterTurn [] = .error .indexOutOfRange := rfl

theorem Rotate_nil (degrees : Int) : Rotate [] degrees = .error .indexOutOfRange := by
  rw [Rotate, quarterTurn_nil]
  rfl

/-- C20: on the empty shape `Rotate` stops with the index-out-of-range panic for every value
of `degrees`; so `Face` with "up", "right", "down" and "left" stops with it on a builder whose
shape was never set, and `Face` with any other name returns the builder unchanged. -/
theorem Rotate_empty_panics (degrees : Int) :
    Rotate [] degrees = .error .indexOutOfRange ∧
      NewPatternBuilder.Face "up" = .error .indexOutOfRange ∧
      NewPatternBuilder.Face "right" = .error .indexOutOfRange ∧
      NewPatternBuilder.Face "down" = .error .indexOutOfRange ∧
      NewPatternBuilder.Face "left" = .error .indexOutOfRange ∧
      ∀ (p : PatternBuilder) (face : String), face ∉ ["up", "right", "down", "left"] →
        p.Face face = .ok p := by
  have hface : ∀ d : Int,
      (Rotate NewPatternBuilder.pattern d >>= fun r =>
        (pure { NewPatternBuilder with pattern := r } : Except Fault PatternBuilder)) =
      .error .indexOutOfRange := by
    intro d
    show (Rotate [] d >>= _) = _
    rw [Rotate_nil]
    rfl
  refine ⟨Rotate_nil degrees, ?_, ?_, ?_, ?_, ?_⟩
  · unfold PatternBuilder.Face
    rw [if_pos rfl]
    exact hface 0
  · unfold PatternBuilder.Face
    rw [if_neg (by decide), if_pos rfl]
    exact hface 90
  · unfold PatternBuilder.Face
    rw [if_neg (by decide), if_neg (by decide), if_pos rfl]
    exact hface 180
  · unfold PatternBuilder.Face
    rw [if_neg (by decide), if_neg (by decide), if_neg (by decide), if_pos rfl]
    exact hface 270
  · intro p face hface
    simp only [List.mem_cons, List.mem_singleton, List.mem_nil_iff, or_false, not_or] at hface
    obtain ⟨h1, h2, h3, h4⟩ := hface
    unfold PatternBuilder.Face
    rw [if_neg h1, if_neg h2, if_neg h3, if_neg h4]
    rfl

theorem Rotate_empty_panics_witness :
    "north" ∉ ["up", "right", "down", "left"] ∧
      Rotate [] 45 = .error .indexOutOfRange ∧
      PatternBuilder.Face { pattern := [[true]] } "north" = .ok { pattern := [[true]] } :=
  ⟨by decide, (Rotate_empty_panics 45).1,
    (Rotate_empty_panics 45).2.2.2.2.2 { pattern := [[true]] } "north" (by decide)⟩

theorem stampP_outside (R C : Nat) (pattern : Pattern) (hd : Dense R C pattern) (x y : Int)
    (old : Int → Int → Bool) (r c : Int)
    (h : r < x ∨ x + R ≤ r ∨ c < y ∨ y + C ≤ c) : stampP pattern x y old r c = old r c := by
  unfold stampP
  by_cases hxy : x ≤ r ∧ y ≤ c
  · rw [if_pos hxy]
    have hnone : cell pattern (r - x).toNat (c - y).toNat = none := by
      unfold cell
      cases hrow : pattern[(r - x).toNat]? with
      | none => rfl
      | some prow =>
        have hi := lt_of_get_some _ _ _ hrow
        have hl := hd.2 prow (List.getElem?_mem hrow)
        have hR := hd.1
        exact List.getElem?_eq_none (by omega)
    rw [hnone]
  · rw [if_neg hxy]

theorem window_step (P Q : Int → Int → Bool)
    (hP : ∀ r c, (r < 9 ∨ 14 < r ∨ c < 9 ∨ 14 < c) → P r c = false)
    (hQ : ∀ r c, (r < 9 ∨ 14 < r ∨ c < 9 ∨ 14 < c) → Q r c = false)
    (hwin : ∀ i, i < 8 → ∀ j, j < 8 →
      rule (P (8 + (i : Nat)) (8 + (j : Nat))) (count8 P (8 + (i : Nat)) (8 + (j : Nat))) =
        Q (8 + (i : Nat)) (8 + (j : Nat)))
    (r c : Int) : rule (P r c) (count8 P r c) = Q r c := by
  by_cases h : 8 ≤ r ∧ r ≤ 15 ∧ 8 ≤ c ∧ c ≤ 15
  · have e1 : r = 8 + ((r - 8).toNat : Nat) := by omega
    have e2 : c = 8 + ((c - 8).toNat : Nat) := by omega
    rw [e1, e2]
    exact hwin _ (by omega) _ (by omega)
  · unfold count8
    rw [hP r c (by omega), hP (r - 1) (c - 1) (by omega), hP (r - 1) c (by omega),
      hP (r - 1) (c + 1) (by omega), hP r (c - 1) (by omega), hP r (c + 1) (by omega),
      hP (r + 1) (c - 1) (by omega), hP (r + 1) c (by omega),
      hP (r + 1) (c + 1) (by omega), hQ r c (by omega)]
    rfl

theorem phase_far (pattern : Pattern) (hd : Dense 3 3 pattern) (x y : Int)
    (hx : 10 ≤ x ∧ x ≤ 11) (hy : 10 ≤ y ∧ y ≤ 11) (r c : Int)
    (h : r < 9 ∨ 14 < r ∨ c < 9 ∨ 14 < c) : stampP pattern x y allDead r c = false := by
  rw [stampP_outside 3 3 pattern hd x y allDead r c (by push_cast; omega)]
  rfl

theorem glider_gen1 (r c : Int) :
    rule (stampP gliderShape 10 10 allDead r c) (count8 (stampP gliderShape 10 10 allDead) r c) =
      stampP gliderPhase1 11 10 allDead r c :=
  window_step _ _
    (phase_far gliderShape (by decide) 10 10 (by decide) (by decide))
    (phase_far gliderPhase1 (by decide) 11 10 (by decide) (by decide)) (by decide) r c

theorem glider_gen2 (r c : Int) :
    rule (stampP gliderPhase1 11 10 allDead r c)
        (count8 (stampP gliderPhase1 11 10 allDead) r c) =
      stampP gliderPhase2 11 10 allDead r c :=
  window_step _ _
    (phase_far gliderPhase1 (by decide) 11 10 (by decide) (by decide))
    (phase_far gliderPhase2 (by decide) 11 10 (by decide) (by decide)) (by decide) r c

theorem glider_gen3 (r c : Int) :
    rule (stampP gliderPhase2 11 10 allDead r c)
        (count8 (stampP gliderPhase2 11 10 allDead) r c) =
      stampP gliderPhase3 11 11 allDead r c :=
  window_step _ _
    (phase_far gliderPhase2 (by decide) 11 10 (by decide) (by decide))
    (phase_far gliderPhase3 (by decide) 11 11 (by decide) (by decide)) (by decide) r c

theorem glider_gen4 (r c : Int) :
    rule (stampP gliderPhase3 11 11 allDead r c)
        (count8 (stampP gliderPhase3 11 11 allDead) r c) =
      stampP gliderShape 11 11 allDead r c :=
  window_step _ _
    (phase_far gliderPhase3 (by decide) 11 11 (by decide) (by decide))
    (phase_far gliderShape (by decide) 11 11 (by decide) (by decide)) (by decide) r c

theorem phase_inside (g : Game) (hh : g.height = 50) (hw : g.width = 150)
    (P : Int → Int → Bool)
    (hP : ∀ r c, (r < 9 ∨ 14 < r ∨ c < 9 ∨ 14 < c) → P r c = false) : Inside g P := by
  intro r c h
  by_contra hout
  have := hP r c (by omega)
  rw [h] at this
  exact Bool.noConfusion this

theorem NewGame_allDead (width height : Int) (life nolife : String) (hw : 0 ≤ width)
    (hh : 0 ≤ height) (hwm : boolSize * width ≤ maxAlloc)
    (hhm : sliceSize * height ≤ maxAlloc) :
    ∃ g, NewGame width height life nolife = .ok g ∧ g.WellFormed ∧ g.Fits ∧
      g.width = width ∧ g.height = height ∧ AllDead g := by
  obtain ⟨g, h1, h2, h3, h4, h5, -, -, h8⟩ :=
    NewGame_good width height life nolife hw hh hwm hhm
  refine ⟨g, h1, h2, h3, h4, h5, ?_⟩
  intro row hrow b hb
  obtain ⟨r, hr⟩ := List.mem_iff_getElem?.mp hrow
  obtain ⟨c, hc⟩ := List.mem_iff_getElem?.mp hb
  exact h8 r c b (by rw [cell_of_row _ r c row hr, hc])

/-- C17: for the game built as in `main`, `NewGame(150, 50, ..)` followed by
`Add(glider, 10, 10)`, four `Step`s all return and the state after them is the state of a
fresh `NewGame(150, 50, ..)` followed by `Add(glider, 11, 11)`: the glider, moved by
`(+1, +1)`, and no other live cell. -/
theorem glider_four_steps (life nolife : String) (fuel : Nat) (hfuel : 4 ≤ fuel) :
    ∃ g g0 g1 g2 g3 g4 moved, NewGame 150 50 life nolife = .ok g ∧
      Add g (NewPatternBuilder.«Type» "glider").Build 10 10 = .ok g0 ∧
      Step fuel g0 = .ok g1 ∧ Step fuel g1 = .ok g2 ∧ Step fuel g2 = .ok g3 ∧
      Step fuel g3 = .ok g4 ∧
      Add g (NewPatternBuilder.«Type» "glider").Build 11 11 = .ok moved ∧
      g4.state = moved.state := by
  have hb : (NewPatternBuilder.«Type» "glider").Build = gliderShape := rfl
  rw [hb]
  have hd : Dense 3 3 gliderShape := by decide
  obtain ⟨g, hnew, wf, ft, gw, gh, dead⟩ :=
    NewGame_allDead 150 50 life nolife (by decide) (by decide) (by decide) (by decide)
  have hall := shows_allDead g wf dead
  obtain ⟨g0, hadd, w0, f0, a0, b0, -, -, P0⟩ := Add_shows g wf ft gliderShape 10 10 allDead
    (targetsInside_of_dense g 3 3 _ hd 10 10 (by decide) (by rw [gh]; decide) (by decide)
      (by rw [gw]; decide)) hall
  obtain ⟨moved, hmv, wm, fm, am, bm, -, -, Pm⟩ := Add_shows g wf ft gliderShape 11 11 allDead
    (targetsInside_of_dense g 3 3 _ hd 11 11 (by decide) (by rw [gh]; decide) (by decide)
      (by rw [gw]; decide)) hall
  obtain ⟨g1, s1, w1, f1, a1, b1, -, -, P1⟩ := Step_shows g0 w0 f0 fuel hfuel _ _ P0
    (phase_inside g0 (by omega) (by omega) _
      (phase_far gliderShape (by decide) 10 10 (by decide) (by decide)))
    (fun r c _ _ _ _ => glider_gen1 r c)
  obtain ⟨g2, s2, w2, f2, a2, b2, -, -, P2⟩ := Step_shows g1 w1 f1 fuel hfuel _ _ P1
    (phase_inside g1 (by omega) (by omega) _
      (phase_far gliderPhase1 (by decide) 11 10 (by decide) (by decide)))
    (fun r c _ _ _ _ => glider_gen2 r c)
  obtain ⟨g3, s3, w3, f3, a3, b3, -, -, P3⟩ := Step_shows g2 w2 f2 fuel hfuel _ _ P2
    (phase_inside g2 (by omega) (by omega) _
      (phase_far gliderPhase2 (by decide) 11 10 (by decide) (by decide)))
    (fun r c _ _ _ _ => glider_gen3 r c)
  obtain ⟨g4, s4, w4, f4, a4, b4, -, -, P4⟩ := Step_shows g3 w3 f3 fuel hfuel _ _ P3
    (phase_inside g3 (by omega) (by omega) _
      (phase_far gliderPhase3 (by decide) 11 11 (by decide) (by decide)))
    (fun r c _ _ _ _ => glider_gen4 r c)
  exact ⟨g, g0, g1, g2, g3, g4, moved, hnew, hadd, s1, s2, s3, s4, hmv,
    shows_ext g4 moved w4 wm (by omega) (by omega) _ P4 Pm⟩

theorem glider_four_steps_witness :
    4 ≤ 4 ∧
      ∃ g g0 g1 g2 g3 g4 moved, NewGame 150 50 "*" "-" = .ok g ∧
        Add g (NewPatternBuilder.«Type» "glider").Build 10 10 = .ok g0 ∧
        Step 4 g0 = .ok g1 ∧ Step 4 g1 = .ok g2 ∧ Step 4 g2 = .ok g3 ∧
        Step 4 g3 = .ok g4 ∧
        Add g (NewPatternBuilder.«Type» "glider").Build 11 11 = .ok moved ∧
        g4.state = moved.state :=
  ⟨by decide, glider_four_steps "*" "-" 4 (by decide)⟩

/-! ## `Next` on the memory -/

theorem view_length {α : Type} (mem : List (List α)) (s : Slice) (h : s.Within mem) :
    (view mem s).length = s.len := by
  unfold Slice.Within at h
  unfold view
  rw [List.length_take, List.length_drop]
  omega

theorem view_get {α : Type} (mem : List (List α)) (s : Slice) (i : Nat) (hi : i < s.len) :
    (view mem s)[i]? = (mem.getD s.arr [])[s.off + i]? := by
  unfold view
  rw [List.getElem?_take_of_lt hi, List.getElem?_drop]

theorem getD_of_within {α : Type} (mem : List (List α)) (s : Slice) (h : s.Within mem)
    (hl : 0 < s.len) : mem[s.arr]? = some (mem.getD s.arr []) := by
  unfold Slice.Within at h
  by_cases ha : s.arr < mem.length
  · rw [List.getD_eq_getElem?_getD, List.getElem?_eq_getElem ha]
    rfl
  · rw [List.getD_eq_getElem?_getD, List.getElem?_eq_none (by omega)] at h
    simp only [Option.getD_none, List.length_nil] at h
    omega

theorem load_view {α : Type} (mem : List (List α)) (s : Slice) (h : s.Within mem) (i : Int) :
    load mem s i = index (view mem s) i := by
  unfold load index len
  rw [view_length mem s h]
  by_cases hi : i < 0 ∨ (s.len : Int) ≤ i
  · rw [if_pos hi, if_pos hi]
  · rw [if_neg hi, if_neg hi, getD_of_within mem s h (by omega),
      view_get mem s i.toNat (by omega)]

theorem load_nat {α : Type} (mem : List (List α)) (s : Slice) (h : s.Within mem) (i : Nat)
    (v : α) (hv : (view mem s)[i]? = some v) : load mem s (i : Int) = .ok v := by
  rw [load_view mem s h]
  exact index_nat _ i v hv

theorem within_append {α : Type} (mem extra : List (List α)) (s : Slice) (h : s.Within mem) :
    s.Within (mem ++ extra) := by
  unfold Slice.Within at *
  by_cases ha : s.arr < mem.length
  · rw [List.getD_eq_getElem?_getD, List.getElem?_append_left ha,
      ← List.getD_eq_getElem?_getD]
    exact h
  · rw [List.getD_eq_getElem?_getD, List.getElem?_eq_none (by omega)] at h
    simp only [Option.getD_none, List.length_nil] at h
    omega

theorem view_append {α : Type} (mem extra : List (List α)) (s : Slice) (h : s.Within mem) :
    view (mem ++ extra) s = view mem s := by
  unfold Slice.Within at h
  unfold view
  by_cases ha : s.arr < mem.length
  · rw [List.getD_eq_getElem?_getD, List.getElem?_append_left ha,
      ← List.getD_eq_getElem?_getD]
  · rw [List.getD_eq_getElem?_getD, List.getElem?_eq_none (by omega)] at h
    simp only [Option.getD_none, List.length_nil] at h
    have e : s.len = 0 := by omega
    rw [e, List.take_zero, List.take_zero]

theorem stateOf_length (h : Heap) (s : Slice) (hs : s.Within h.rows) :
    (h.stateOf s).length = s.len := by
  unfold Heap.stateOf
  rw [List.length_map, view_length _ _ hs]

theorem stateOf_get (h : Heap) (s : Slice) (i : Nat) :
    (h.stateOf s)[i]? = ((view h.rows s)[i]?).map (view h.bools) := by
  unfold Heap.stateOf
  rw [List.getElem?_map]

theorem gameOf_fits (h : Heap) (g : GameAt) (hg : h.Holds g) : (h.gameOf g).Fits := by
  obtain ⟨h1, h2, h3⟩ := hg
  refine ⟨?_, ?_⟩
  · unfold len Heap.gameOf
    simp only
    rw [stateOf_length h _ h1]
    exact h2
  · intro row hrow
    unfold Heap.gameOf Heap.stateOf at hrow
    simp only [List.mem_map] at hrow
    obtain ⟨r, hr, rfl⟩ := hrow
    unfold len
    rw [view_length _ _ (h3 r hr).1]
    exact (h3 r hr).2

theorem heap_isAlive_eq (h : Heap) (g : GameAt) (hg : h.Holds g) (x y : Int) :
    h.isAlive g x y = isAlive (h.gameOf g) x y := by
  obtain ⟨h1, -, h3⟩ := hg
  unfold Heap.isAlive isAlive
  have hl : len (h.gameOf g).state = (g.state.len : Int) := by
    unfold len Heap.gameOf
    simp only
    rw [stateOf_length h _ h1]
  rw [hl]
  by_cases hx : x < 0 ∨ x ≥ (g.state.len : Int)
  · rw [if_pos hx, if_pos hx]
  · rw [if_neg hx, if_neg hx]
    obtain ⟨r, hr⟩ := get_some_of_lt (view h.rows g.state) x.toNat
      (by rw [view_length _ _ h1]; omega)
    have hx0 : ((x.toNat : Nat) : Int) = x := Int.toNat_of_nonneg (by omega)
    have e1 := load_nat h.rows g.state h1 x.toNat r hr
    have e2 : index (h.gameOf g).state (x.toNat : Int) = .ok (view h.bools r) := by
      apply index_nat
      unfold Heap.gameOf
      simp only
      rw [stateOf_get, hr]
      rfl
    rw [hx0] at e1 e2
    rw [e1, e2]
    simp only
    have hw := (h3 r (List.getElem?_mem hr)).1
    have hl2 : len (view h.bools r) = (r.len : Int) := by
      unfold len
      rw [view_length _ _ hw]
    rw [hl2, load_view _ _ hw]

theorem heap_countNeighbors_eq (h : Heap) (g : GameAt) (hg : h.Holds g) (fuel : Nat)
    (x y : Int) : h.countNeighbors fuel g x y = countNeighbors fuel (h.gameOf g) x y := by
  unfold Heap.countNeighbors countNeighbors
  simp only [heap_isAlive_eq h g hg]

theorem heap_nextCellState_eq (h : Heap) (g : GameAt) (hg : h.Holds g) (fuel : Nat)
    (hfuel : 4 ≤ fuel) (i j : Nat) (r : Slice) (alive : Bool)
    (hr : (view h.rows g.state)[i]? = some r) (hcell : (view h.bools r)[j]? = some alive) :
    h.nextCellState fuel g i j = .ok (rule alive (mooreCount (h.gameOf g) i j)) := by
  have hrow : (h.gameOf g).state[i]? = some (view h.bools r) := by
    unfold Heap.gameOf
    simp only
    rw [stateOf_get, hr]
    rfl
  have e := nextCellState_eq (h.gameOf g) (gameOf_fits h g hg) fuel hfuel i j _ alive hrow hcell
  unfold nextCellState at e
  rw [index_nat _ i _ hrow, bind_ok, index_nat _ j _ hcell, bind_ok] at e
  unfold Heap.nextCellState
  rw [load_nat _ _ hg.1 i r hr, bind_ok,
    load_nat _ _ (hg.2.2 r (List.getElem?_mem hr)).1 j alive hcell, bind_ok,
    heap_countNeighbors_eq h g hg]
  exact e

theorem holds_append (h : Heap) (g : GameAt) (hg : h.Holds g) (eb : List (List Bool))
    (er : List (List Slice)) :
    Heap.Holds { bools := h.bools ++ eb, rows := h.rows ++ er } g ∧
      Heap.gameOf { bools := h.bools ++ eb, rows := h.rows ++ er } g = h.gameOf g ∧
      view (h.rows ++ er) g.state = view h.rows g.state := by
  obtain ⟨h1, h2, h3⟩ := hg
  have ev := view_append h.rows er g.state h1
  refine ⟨⟨within_append _ _ _ h1, h2, ?_⟩, ?_, ev⟩
  · intro row hrow
    simp only [ev] at hrow
    exact ⟨within_append _ _ _ (h3 row hrow).1, (h3 row hrow).2⟩
  · unfold Heap.gameOf Heap.stateOf
    simp only [ev]
    congr 1
    apply List.map_congr_left
    intro r hr
    exact view_append _ _ _ (h3 r hr).1

theorem loopFrom_closed {σ : Type} (F : Nat → σ) (body : Int → σ → Except Fault σ) (n : Nat)
    (hstep : ∀ k, k < n → body (k : Int) (F k) = .ok (F (k + 1))) :
    loopFrom body 0 n (F 0) = .ok (F n) := by
  apply loopFrom_eq (fun k s => s = F k)
  · rfl
  · rintro k s - hk rfl
    exact ⟨_, hstep k (by omega), rfl⟩
  · intro s hs
    rw [hs, Nat.zero_add]

theorem fill_set {α : Type} (xs : List α) (z : α) (n k : Nat) (v : α) (hn : xs.length = n)
    (hv : xs[k]? = some v) :
    (xs.take k ++ List.replicate (n - k) z).set k v =
      xs.take (k + 1) ++ List.replicate (n - (k + 1)) z := by
  have hk : k < xs.length := by
    by_contra hc
    rw [List.getElem?_eq_none (by omega)] at hv
    exact Option.noConfusion hv
  apply List.ext_getElem?
  intro r
  rcases Nat.lt_trichotomy r k with hr | hr | hr
  · rw [List.getElem?_set_ne (by omega), List.getElem?_append_left (by simp; omega),
      List.getElem?_append_left (by simp; omega), List.getElem?_take_of_lt hr,
      List.getElem?_take_of_lt (by omega)]
  · subst hr
    rw [List.getElem?_set_self (by simp; omega), List.getElem?_append_left (by simp; omega),
      List.getElem?_take_of_lt (by omega), hv]
  · rw [List.getElem?_set_ne (by omega), List.getElem?_append_right (by simp; omega),
      List.getElem?_append_right (by simp; omega)]
    simp only [List.length_take, List.getElem?_replicate]
    have e1 : min k xs.length = k := by omega
    have e2 : min (k + 1) xs.length = k + 1 := by omega
    rw [e1, e2]
    by_cases hrn : r < n
    · rw [if_pos (by omega), if_pos (by omega)]
    · rw [if_neg (by omega), if_neg (by omega)]

theorem load_last {α : Type} (mem : List (List α)) (a : List α) (s : Slice) (i : Nat) (v : α)
    (ha : s.arr = mem.length) (ho : s.off = 0) (hi : i < s.len) (hv : a[i]? = some v) :
    load (mem ++ [a]) s (i : Int) = .ok v := by
  unfold load
  rw [if_neg (by omega), ha, ho]
  simp only [List.getElem?_concat_length, Int.toNat_ofNat, Nat.zero_add, hv]

theorem store_last {α : Type} (mem : List (List α)) (a : List α) (s : Slice) (i : Nat) (v : α)
    (ha : s.arr = mem.length) (ho : s.off = 0) (hi : i < s.len) (hl : i < a.length) :
    store (mem ++ [a]) s (i : Int) v = .ok (mem ++ [a.set i v]) := by
  unfold store
  rw [if_neg (by omega), ha, ho]
  simp only [List.getElem?_concat_length, Int.toNat_ofNat, Nat.zero_add, if_pos hl]
  congr 1
  apply List.ext_getElem?
  intro r
  by_cases hr : r = mem.length
  · subst hr
    rw [List.getElem?_set_self (by simp), List.getElem?_concat_length]
  · rw [List.getElem?_set_ne (by omega)]
    by_cases hr2 : r < mem.length
    · rw [List.getElem?_append_left hr2, List.getElem?_append_left hr2]
    · rw [List.getElem?_eq_none (by simp; omega), List.getElem?_eq_none (by simp; omega)]

theorem alloc_ok {α : Type} (mem : List (List α)) (size : Int) (n : Nat) (zero : α)
    (h : size * (n : Int) ≤ maxAlloc) :
    alloc mem size (n : Int) zero =
      .ok ({ arr := mem.length, off := 0, len := n }, mem ++ [List.replicate n zero]) := by
  unfold alloc
  rw [make_ok size n zero (by omega) h, bind_ok, pure_ok]
  simp only [Int.toNat_ofNat, List.length_replicate]

theorem heap_Next_eq (h : Heap) (g : GameAt) (hg : h.Holds g) (fuel : Nat) (hfuel : 4 ≤ fuel) :
    h.Next fuel g =
      .ok ({ arr := h.rows.length, off := 0, len := g.state.len }, h.afterNext g) := by
  have hN : (nextGrid (h.gameOf g)).length = g.state.len := by
    rw [nextGrid_length]
    unfold Heap.gameOf
    simp only
    exact stateOf_length h _ hg.1
  have hR : (view h.rows g.state).length = g.state.len := view_length _ _ hg.1
  have hH : (freshRows h.bools.length (view h.rows g.state)).length = g.state.len := by
    unfold freshRows
    rw [List.length_mapIdx, hR]
  obtain ⟨F, hF⟩ : ∃ F : Nat → Heap, F = fun k =>
      { bools := h.bools ++ List.take k (nextGrid (h.gameOf g)),
        rows := h.rows ++ [List.take k (freshRows h.bools.length (view h.rows g.state)) ++
          List.replicate (g.state.len - k) nilSlice] } := ⟨_, rfl⟩
  have h0 : ({ bools := h.bools, rows := h.rows ++ [List.replicate g.state.len nilSlice] } :
      Heap) = F 0 := by
    rw [hF]
    simp only [List.take_zero, List.append_nil, List.nil_append, Nat.sub_zero]
  have hn : F g.state.len = h.afterNext g := by
    rw [hF]
    unfold Heap.afterNext
    simp only [Nat.sub_self, List.replicate_zero, List.append_nil]
    rw [List.take_of_length_le (show (nextGrid (h.gameOf g)).length ≤ g.state.len by omega),
      List.take_of_length_le
        (show (freshRows h.bools.length (view h.rows g.state)).length ≤ g.state.len by omega)]
  unfold Heap.Next
  rw [alloc_ok h.rows sliceSize g.state.len nilSlice hg.2.1, bind_ok]
  simp only
  rw [h0, loopFrom_closed F, bind_ok, pure_ok, hn]
  intro k hk
  obtain ⟨r, hr⟩ := get_some_of_lt (view h.rows g.state) k (by omega)
  have hrw := hg.2.2 r (List.getElem?_mem hr)
  have hrl : (view h.bools r).length = r.len := view_length _ _ hrw.1
  have hGk : (h.gameOf g).state[k]? = some (view h.bools r) := by
    unfold Heap.gameOf
    simp only
    rw [stateOf_get, hr]
    rfl
  obtain ⟨rowN, hrowN⟩ : ∃ rowN, rowN =
      (view h.bools r).mapIdx (fun j alive => rule alive (mooreCount (h.gameOf g) k j)) :=
    ⟨_, rfl⟩
  have hNk : (nextGrid (h.gameOf g))[k]? = some rowN := by
    unfold nextGrid
    rw [List.getElem?_mapIdx, hGk, hrowN]
    rfl
  have hrowNl : rowN.length = r.len := by
    rw [hrowN, List.length_mapIdx, hrl]
  have hHk : (freshRows h.bools.length (view h.rows g.state))[k]? =
      some { arr := h.bools.length + k, off := 0, len := r.len } := by
    unfold freshRows
    rw [List.getElem?_mapIdx, hr]
    rfl
  have hload : ∀ er, load (h.rows ++ er) g.state (k : Int) = .ok r := by
    intro er
    exact load_nat _ _ (within_append _ _ _ hg.1) k r (by rw [view_append _ _ _ hg.1]; exact hr)
  rw [hF]
  simp only
  have hBk : (h.bools ++ List.take k (nextGrid (h.gameOf g))).length = h.bools.length + k := by
    rw [List.length_append, List.length_take]
    omega
  rw [hload, bind_ok, alloc_ok _ boolSize r.len false hrw.2, bind_ok]
  simp only
  rw [hBk, store_last h.rows _ { arr := h.rows.length, off := 0, len := g.state.len } k _ rfl rfl
      hk (by simp; omega), bind_ok,
    fill_set _ nilSlice g.state.len k _ hH hHk, hload, bind_ok]
  obtain ⟨Fi, hFi⟩ : ∃ Fi : Nat → Heap, Fi = fun j =>
      { bools := h.bools ++ (List.take k (nextGrid (h.gameOf g)) ++
          [List.take j rowN ++ List.replicate (r.len - j) false]),
        rows := h.rows ++
          [List.take (k + 1) (freshRows h.bools.length (view h.rows g.state)) ++
            List.replicate (g.state.len - (k + 1)) nilSlice] } := ⟨_, rfl⟩
  have hi0 : Heap.mk (h.bools ++ List.take k (nextGrid (h.gameOf g)) ++
        [List.replicate r.len false])
      (h.rows ++ [List.take (k + 1) (freshRows h.bools.length (view h.rows g.state)) ++
          List.replicate (g.state.len - (k + 1)) nilSlice]) = Fi 0 := by
    rw [hFi]
    simp only [List.take_zero, List.nil_append, Nat.sub_zero, List.append_assoc]
  have hin : Fi r.len = Heap.mk (h.bools ++ List.take (k + 1) (nextGrid (h.gameOf g)))
      (h.rows ++ [List.take (k + 1) (freshRows h.bools.length (view h.rows g.state)) ++
          List.replicate (g.state.len - (k + 1)) nilSlice]) := by
    rw [hFi]
    simp only [Nat.sub_self, List.replicate_zero, List.append_nil]
    rw [List.take_of_length_le (show rowN.length ≤ r.len by omega), take_snoc _ k rowN hNk]
  rw [hi0, loopFrom_closed Fi, hin]
  intro j hj
  obtain ⟨alive, halive⟩ := get_some_of_lt (view h.bools r) j (by omega)
  have hrowNj : rowN[j]? = some (rule alive (mooreCount (h.gameOf g) k j)) := by
    rw [hrowN, List.getElem?_mapIdx, halive]
    rfl
  rw [hFi]
  simp only
  obtain ⟨hold, hgame, hview⟩ := holds_append h g hg
    (List.take k (nextGrid (h.gameOf g)) ++
      [List.take j rowN ++ List.replicate (r.len - j) false])
    [List.take (k + 1) (freshRows h.bools.length (view h.rows g.state)) ++
      List.replicate (g.state.len - (k + 1)) nilSlice]
  rw [heap_nextCellState_eq _ g hold fuel hfuel k j r alive
      (by simp only [hview]; exact hr)
      (by simp only [view_append _ _ _ hrw.1]; exact halive), hgame, bind_ok]
  rw [load_last h.rows _ { arr := h.rows.length, off := 0, len := g.state.len } k
      { arr := h.bools.length + k, off := 0, len := r.len } rfl rfl hk
      (by
        rw [List.getElem?_append_left (by rw [List.length_take]; omega),
          List.getElem?_take_of_lt (by omega)]
        exact hHk), bind_ok,
    ← List.append_assoc,
    store_last _ _ { arr := h.bools.length + k, off := 0, len := r.len } j _ hBk.symm rfl hj
      (by simp only [List.length_append, List.length_take, List.length_replicate]; omega),
    bind_ok, pure_ok,
    fill_set rowN false r.len j _ hrowNl hrowNj, List.append_assoc]

theorem loopFrom_congr {σ : Type} (b1 b2 : Int → σ → Except Fault σ) :
    ∀ (n start : Nat) (s : σ),
      (∀ k s, start ≤ k → k < start + n → b1 (k : Int) s = b2 (k : Int) s) →
      loopFrom b1 start n s = loopFrom b2 start n s := by
  intro n
  induction n with
  | zero => intro start s _; rfl
  | succ n ih =>
    intro start s hb
    rw [loopFrom, loopFrom, hb start s (le_refl _) (by omega)]
    cases b2 (start : Int) s with
    | error e => rfl
    | ok s1 => exact ih (start + 1) s1 (fun k s hk1 hk2 => hb k s (by omega) (by omega))

theorem heap_String_eq (h : Heap) (g : GameAt) (hg : h.Holds g) :
    h.String g = (h.gameOf g).String := by
  have hl : (h.gameOf g).state.length = g.state.len := by
    unfold Heap.gameOf
    simp only
    exact stateOf_length h _ hg.1
  unfold Heap.String Game.String
  rw [hl]
  apply loopFrom_congr
  intro k b _ hk
  obtain ⟨r, hr⟩ := get_some_of_lt (view h.rows g.state) k
    (by rw [view_length _ _ hg.1]; omega)
  have hrw := (hg.2.2 r (List.getElem?_mem hr)).1
  have hGk : (h.gameOf g).state[k]? = some (view h.bools r) := by
    unfold Heap.gameOf
    simp only
    rw [stateOf_get, hr]
    rfl
  simp only [load_nat _ _ hg.1 k r hr, index_nat _ k _ hGk, bind_ok, view_length _ _ hrw,
    load_view _ _ hrw]
  rfl

theorem stateOf_afterNext (h : Heap) (g : GameAt) (hg : h.Holds g) :
    (h.afterNext g).stateOf { arr := h.rows.length, off := 0, len := g.state.len } =
      nextGrid (h.gameOf g) := by
  have hR : (view h.rows g.state).length = g.state.len := view_length _ _ hg.1
  have hH : (freshRows h.bools.length (view h.rows g.state)).length = g.state.len := by
    unfold freshRows
    rw [List.length_mapIdx, hR]
  have hv : view (h.afterNext g).rows { arr := h.rows.length, off := 0, len := g.state.len } =
      freshRows h.bools.length (view h.rows g.state) := by
    show List.take g.state.len (List.drop 0
      ((h.rows ++ [freshRows h.bools.length (view h.rows g.state)]).getD h.rows.length [])) = _
    simp only [List.getD_eq_getElem?_getD, List.getElem?_concat_length, Option.getD_some,
      List.drop_zero]
    exact List.take_of_length_le (le_of_eq hH)
  unfold Heap.stateOf
  rw [hv]
  apply List.ext_getElem?
  intro i
  unfold freshRows nextGrid
  rw [List.getElem?_map, List.getElem?_mapIdx, List.getElem?_mapIdx]
  have hGi : (h.gameOf g).state[i]? = ((view h.rows g.state)[i]?).map (view h.bools) := by
    unfold Heap.gameOf
    simp only
    exact stateOf_get h _ i
  rw [hGi]
  cases hr : (view h.rows g.state)[i]? with
  | none => rfl
  | some r =>
    have hi : i < g.state.len := by
      by_contra hc
      rw [List.getElem?_eq_none (by omega)] at hr
      exact Option.noConfusion hr
    have hrw := (hg.2.2 r (List.getElem?_mem hr)).1
    simp only [Option.map_some']
    congr 1
    have hNi : (nextGrid (h.gameOf g))[i]? = some ((view h.bools r).mapIdx
        (fun j alive => rule alive (mooreCount (h.gameOf g) i j))) := by
      unfold nextGrid
      rw [List.getElem?_mapIdx, hGi, hr]
      rfl
    unfold view Heap.afterNext
    simp only [List.drop_zero]
    rw [List.getD_eq_getElem?_getD, List.getElem?_append_right (by omega),
      Nat.add_sub_cancel_left, hNi]
    simp only [Option.getD_some]
    apply List.take_of_length_le
    rw [List.length_mapIdx]
    exact le_of_eq (view_length _ _ hrw)

/-- C14: `Next()` leaves the game as it was. On every memory that holds the game (its rows
may share arrays, and overlap), the call returns; every array there was before the call is
as it was, the arrays of the slice returned being new ones; so the game that `g` shows
after the call, state, width, height and glyphs, is the game it showed before, and
`String()` of `g` returns the same text. The slice returned shows the next generation. -/
theorem Next_leaves_receiver (h : Heap) (g : GameAt) (hg : h.Holds g) (fuel : Nat)
    (hfuel : 4 ≤ fuel) :
    ∃ next after, h.Next fuel g = .ok (next, after) ∧
      h.bools <+: after.bools ∧ h.rows <+: after.rows ∧
      after.Holds g ∧ after.gameOf g = h.gameOf g ∧
      (∃ text, h.String g = .ok text ∧ after.String g = .ok text) ∧
      after.stateOf next = nextGrid (h.gameOf g) := by
  obtain ⟨hold, hgame⟩ : (h.afterNext g).Holds g ∧ (h.afterNext g).gameOf g = h.gameOf g :=
    ⟨(holds_append h g hg _ _).1, (holds_append h g hg _ _).2.1⟩
  refine ⟨_, _, heap_Next_eq h g hg fuel hfuel, ⟨_, rfl⟩, ⟨_, rfl⟩,
    hold, hgame,
    ⟨String.join ((h.gameOf g).state.map (renderRow (h.gameOf g))), ?_, ?_⟩,
    stateOf_afterNext h g hg⟩
  · rw [heap_String_eq h g hg]
    exact String_eq _
  · rw [heap_String_eq _ g hold, hgame]
    exact String_eq _

theorem Next_leaves_receiver_witness :
    sharedHeap.Holds sharedGame ∧ 4 ≤ 4 ∧
      ∃ next after, sharedHeap.Next 4 sharedGame = .ok (next, after) ∧
        sharedHeap.bools <+: after.bools ∧ sharedHeap.rows <+: after.rows ∧
        after.Holds sharedGame ∧ after.gameOf sharedGame = sharedHeap.gameOf sharedGame ∧
        (∃ text, sharedHeap.String sharedGame = .ok text ∧
          after.String sharedGame = .ok text) ∧
        after.stateOf next = nextGrid (sharedHeap.gameOf sharedGame) :=
  ⟨by decide, by decide, Next_leaves_receiver sharedHeap sharedGame (by decide) 4 (by decide)⟩

/-- What the memory adds to the lists: a store through a slice that shares an array with
the rows of a game changes the game. In `sharedHeap` the cell `[0][1]` and the cell `[1][0]`
of the game are one cell of the array; a store into the first row shows in the second. -/
theorem store_shared_shows :
    (sharedHeap.gameOf sharedGame).state = [[false, true], [true, true], [true, false]] ∧
      ∃ bools, store sharedHeap.bools { arr := 0, off := 0, len := 2 } 1 false = .ok bools ∧
        (Heap.gameOf { sharedHeap with bools := bools } sharedGame).state =
          [[false, false], [false, true], [true, false]] :=
  ⟨by decide, [[false, false, true, false]], by decide, by decide⟩

end Life
